import Mathlib

/-!
# ADAS ICV196 device support (`devIcv196.c`)

Shallow embedding of the driver support functions, the device initialization,
the interrupt service routine and the record device support of
`src/devices/adas/adasApp/src/devIcv196.c`, and the properties proved about them.
The bit and pattern read functions of `src/support/adas/adasApp/src/devIcv296.c`
(namespace `Icv296`) and the conversion coefficients of
`src/devices/graphtec_GL820/GL820Sup/drvGL820_Cmnd.cpp` (namespace `GL820`)
follow the definitions of the ICV196.

Conventions of the embedding

* C `int` arguments (`signal`, `nobt`, `direction`) and the `short` members
  `card` and `signal` of a VME address are `Int`; C division and remainder are
  `Int.tdiv` and `Int.tmod` (truncation towards zero).
* Unsigned machine words are `Nat`; a conversion to `unsigned char`,
  `unsigned short` or `unsigned int` is an explicit `% 2 ^ 8`, `% 2 ^ 16` or
  `% 2 ^ 32`.
* A shift count or an array index computed from an `int` goes through
  `Int.toNat`.  The C code is only defined for counts and indices that are
  non-negative; the board number `card` of a record is checked from above only,
  so the statements that speak of the board of a record assume `0 ≤ card`.
* Global arrays indexed by the board number (`dirs`, `mdirs`, `ppdio_icv196`,
  `events`) are functions of the index.
* Every function takes the part of the global state it accesses and returns its
  C return value, its output parameter (if any) and the state after the call.
* The `z8536_control` location is a device, not memory: every access to it is
  recorded in a log, and what a read delivers is given by the outside world
  (`Env`) as a function of the log so far.  The log also records the Event Table
  writes and the EPICS calls that connect interrupt routines, enable the bus
  interrupt level and post events, in program order.  The busy-wait `DELAY` has
  no effect on the state and is left out.
* EPICS and libc are outside the repository: the results of `devMapAddr`,
  `devReadProbe`, `devConnectInterruptVME` and `devEnableInterruptLevelVME` are
  given by `Env`, and the result of `strstr` and `sscanf` on the parameter
  string of a record is the field `parm` of the record.
-/

namespace Icv196

/-! ## Constants -/

/-- Return value `OK`. -/
def OK : Int := 0

/-- Return value `ERROR`. -/
def ERROR : Int := -1

/-- Max. number of boards in a VME crate. -/
def ICV196_MAX_CARDS : Nat := 2

/-- Number of IO signals. -/
def ICV196_MAX_CHANS : Nat := 96

/-- Conversion of a non-negative value to `unsigned short`. -/
def toU16 (n : Nat) : Nat := n % 2 ^ 16

/-- Conversion of a non-negative value to `unsigned int`. -/
def toU32 (n : Nat) : Nat := n % 2 ^ 32

/-- Bitwise complement `~m` on 32 bits (an `unsigned int`, or an `unsigned short`
after integer promotion), as a bit pattern. -/
def compl32 (m : Nat) : Nat := 2 ^ 32 - 1 - m % 2 ^ 32

/-! ## Direction state and `config_dir` -/

/-- The globals `dirs[ICV196_MAX_CARDS]` (direction register) and
`mdirs[ICV196_MAX_CARDS]` (direction register modified). -/
structure DirState where
  dirs : Nat → Nat
  mdirs : Nat → Nat

/-- Static initialisation `dirs = {0,0}`, `mdirs = {0,0}`. -/
def DirState.initial : DirState := ⟨fun _ => 0, fun _ => 0⟩

/-- The local `mask` of `config_dir`: first signal number and number of bits
converted to a direction mask. -/
def config_dir_mask (signal nobt : Int) : Nat :=
  let gr1 := signal.tdiv 8
  let gr2 := (signal + nobt - 1).tdiv 8
  let ngr := gr2 - gr1 + 1
  let mask := toU16 ((1 <<< ngr.toNat) - 1)
  toU16 (mask <<< gr1.toNat)

/-- Function `config_dir`: configures the direction register as input
(`direction = 0`) or output for `nobt` bits starting from `signal`.
Returns the C return value and the direction state after the call.
The source's `if (mdirs[card] & mask) { dir = ...; if (dir != direction) return ERROR; }`
is the conjunction of the two tests. -/
def config_dir (st : DirState) (card : Nat) (signal nobt direction : Int) : Int × DirState :=
  let mask := config_dir_mask signal nobt
  -- check configuration consistency
  if st.mdirs card &&& mask ≠ 0 ∧
      (if st.dirs card &&& mask ≠ 0 then (1 : Int) else 0) ≠ direction then
    (ERROR, st)
  else
    -- change direction
    let st1 : DirState :=
      { st with mdirs := Function.update st.mdirs card (toU16 (st.mdirs card ||| mask)) }
    let st2 : DirState :=
      if direction ≠ 0 then
        { st1 with dirs := Function.update st1.dirs card (toU16 (st1.dirs card ||| mask)) }
      else st1
    (OK, st2)

/-- Requests the record init functions issue after their own validation:
`0 <= signal`, `1 <= nobt`, `signal + nobt <= 96`, `direction` 0 or 1. -/
def ValidReq (signal nobt direction : Int) : Prop :=
  0 ≤ signal ∧ 1 ≤ nobt ∧ signal + nobt ≤ 96 ∧ (direction = 0 ∨ direction = 1)

instance (signal nobt direction : Int) : Decidable (ValidReq signal nobt direction) := by
  unfold ValidReq; infer_instance

/-- Direction states reachable from the initial state by `config_dir` calls with
valid requests. -/
inductive Reachable : DirState → Prop
  | init : Reachable DirState.initial
  | step (st : DirState) (card : Nat) (signal nobt direction : Int) :
      Reachable st → ValidReq signal nobt direction →
      Reachable (config_dir st card signal nobt direction).2

/-- Well-formedness of a direction state: for every board, each set bit of
`dirs` is set in `mdirs` and both words use the 12 group bits only. -/
def DirInv (st : DirState) : Prop :=
  ∀ card, (∀ i, (st.dirs card).testBit i = true → (st.mdirs card).testBit i = true) ∧
    st.dirs card < 2 ^ 12 ∧ st.mdirs card < 2 ^ 12

/-- The test of `config_dir` under "check configuration consistency" that
leads to `return ERROR`. -/
def Conflict (st : DirState) (card : Nat) (signal nobt direction : Int) : Prop :=
  st.mdirs card &&& config_dir_mask signal nobt ≠ 0 ∧
    (if st.dirs card &&& config_dir_mask signal nobt ≠ 0 then (1 : Int) else 0) ≠ direction

instance (st : DirState) (card : Nat) (signal nobt direction : Int) :
    Decidable (Conflict st card signal nobt direction) := by
  unfold Conflict; infer_instance

/-- Direction state after a bi record on signal 16 of board 0 was initialised
(group 2 input). -/
def st_in16 : DirState := (config_dir DirState.initial 0 16 1 0).2

/-- Direction state after, in addition, a bo record on signal 24 of board 0 was
initialised (group 2 input, group 3 output). -/
def st_mixed : DirState := (config_dir st_in16 0 24 1 1).2

/-- Direction state after a request for signal 20, width 8, output on board 0. -/
def st_out20 : DirState := (config_dir DirState.initial 0 20 8 1).2

/-- Direction state after, in addition, a request for signal 16, width 16, output. -/
def st_out16 : DirState := (config_dir st_out20 0 16 16 1).2

/-! ## Board registers and the bit / pattern functions -/

/-- The memory-like part of `struct dio_icv196`: `ports[6]` (six 16 bit values,
96 signals), `dir` (direction register), `z8536_portB` and `z8536_portA` (the
values the Z8536 data ports deliver when read) and `nit` (interrupt level
register).  The member `z8536_control` is not memory-like: its accesses are
recorded in the log of the driver state. -/
structure dio_icv196 where
  ports : Nat → Nat
  dir : Nat
  z8536_portB : Nat := 0
  z8536_portA : Nat := 0
  nit : Nat := 0

/-- The register blocks the pointers `ppdio_icv196[card]` point to. -/
abbrev Boards := Nat → dio_icv196

/-- Store `v` into `ppdio_icv196[card]->ports[port]`. -/
def setPort (hw : Boards) (card port v : Nat) : Boards :=
  Function.update hw card { hw card with ports := Function.update (hw card).ports port v }

/-- Function `read_bit`: read a single bit.  Returns the C return value, `*value`
and the registers after the call. -/
def read_bit (hw : Boards) (card : Nat) (signal : Int) : Int × Nat × Boards :=
  let port := signal.tdiv 16
  let bit := signal.tmod 16
  let mask := toU16 (1 <<< bit.toNat)
  let value := (hw card).ports port.toNat &&& mask
  (OK, value, hw)

/-- Function `write_bit`: write a single bit.  Returns the C return value and the
registers after the call. -/
def write_bit (hw : Boards) (card : Nat) (signal : Int) (value : Nat) : Int × Boards :=
  let port := signal.tdiv 16
  let bit := signal.tmod 16
  let mask := toU16 (1 <<< bit.toNat)
  if value ≠ 0 then
    (OK, setPort hw card port.toNat (toU16 ((hw card).ports port.toNat ||| mask)))
  else
    (OK, setPort hw card port.toNat (toU16 ((hw card).ports port.toNat &&& compl32 mask)))

/-- The local `work` of `read_pattern` and `write_pattern` after the read: the
32 bit word made of `ports[port+1]` (high) and `ports[port]` (low) when
`port < 5`, else `ports[port]` alone. -/
def pattern_work (hw : Boards) (card : Nat) (port : Int) : Nat :=
  if port < 5 then
    toU32 (((hw card).ports (port + 1).toNat <<< 16) + (hw card).ports port.toNat)
  else
    toU32 ((hw card).ports port.toNat)

/-- Function `read_pattern`: read a bit pattern.  Returns the C return value,
`*value` and the registers after the call. -/
def read_pattern (hw : Boards) (card : Nat) (signal : Int) (mask : Nat) : Int × Nat × Boards :=
  let port := signal.tdiv 16
  let work := pattern_work hw card port
  (OK, work &&& mask, hw)

/-- Function `write_pattern`: write a bit pattern.  Returns the C return value and
the registers after the call. -/
def write_pattern (hw : Boards) (card : Nat) (signal : Int) (mask value : Nat) : Int × Boards :=
  let port := signal.tdiv 16
  let work := pattern_work hw card port
  -- change record pattern
  let work := toU32 ((work &&& compl32 mask) ||| (value &&& mask))
  let hw1 := setPort hw card port.toNat (toU16 (work &&& 0x0000ffff))
  if port < 5 then
    (OK, setPort hw1 card (port + 1).toNat (toU16 ((work &&& 0xffff0000) >>> 16)))
  else
    (OK, hw1)

/-- Registers of a board whose port 0 holds `0x0008` (signal 3 high) and whose
other ports hold 0. -/
def regs_bit3 : dio_icv196 := { ports := fun p => if p = 0 then 0x0008 else 0, dir := 0 }

/-- Two boards with the registers `regs_bit3`. -/
def hw_bit3 : Boards := fun _ => regs_bit3

/-! ## Driver state, records and the outside world -/

/-- Master Interrupt Control Register. -/
def MIC : Nat := 0x00
/-- Master Configuration Control Register. -/
def MCC : Nat := 0x01
/-- Port A Interrupt Vector Register. -/
def IVA : Nat := 0x02
/-- Port B Interrupt Vector Register. -/
def IVB : Nat := 0x03
/-- Port A Command and Status Register. -/
def PCSA : Nat := 0x08
/-- Port B Command and Status Register. -/
def PCSB : Nat := 0x09
/-- Port A Mode Specification Register. -/
def PMSA : Nat := 0x20
/-- Port A Data Path Polarity Register. -/
def DPPA : Nat := 0x22
/-- Port A Data Direction Register. -/
def DDA : Nat := 0x23
/-- Port A Pattern Polarity Register. -/
def PPA : Nat := 0x25
/-- Port A Pattern Transition Register. -/
def PTA : Nat := 0x26
/-- Port A Pattern Mask Register. -/
def PMA : Nat := 0x27
/-- Port B Mode Specification Register. -/
def PMSB : Nat := 0x28
/-- Port B Data Path Polarity Register. -/
def DPPB : Nat := 0x2A
/-- Port B Data Direction Register. -/
def DDB : Nat := 0x2B
/-- Port B Pattern Polarity Register. -/
def PPB : Nat := 0x2D
/-- Port B Pattern Transition Register. -/
def PTB : Nat := 0x2E
/-- Port B Pattern Mask Register. -/
def PMB : Nat := 0x2F
/-- Interrupt level. -/
def IT_LEVEL : Nat := 2
/-- Interrupt vector for board 0 port A. -/
def IT_VECTOR : Nat := 0xC4

/-- Conversion of a non-negative value to `unsigned char`. -/
def toU8 (n : Nat) : Nat := n % 2 ^ 8

/-- Conversion of an `int` to `short`. -/
def toShort (n : Int) : Int := (n + 2 ^ 15) % 2 ^ 16 - 2 ^ 15

/-- Conversion of an `int` to `unsigned short`. -/
def intToU16 (n : Int) : Nat := (n % 2 ^ 16).toNat

/-- What the driver does to the outside of its memory, in program order: writes
and reads of the `z8536_control` location of a board, writes to the Event Table
`events[card][signal]`, the EPICS calls `devConnectInterruptVME (vector, ...,
arg)`, `devEnableInterruptLevelVME (level)` and `post_event (event)`. -/
inductive Action where
  | ctrlWrite (card v : Nat)
  | ctrlRead (card : Nat)
  | eventsWrite (card signal : Nat) (v : Int)
  | connect (vector arg : Nat)
  | enableLevel (level : Nat)
  | post (event : Int)
  deriving DecidableEq

/-- The outside world as the driver sees it: the byte a read of `z8536_control`
of board `card` delivers after the actions made so far, and the results of the
EPICS calls `devMapAddr`, `devReadProbe` (per board), `devConnectInterruptVME`
(per vector) and `devEnableInterruptLevelVME` (`true` for `OK`). -/
structure Env where
  ctrl : Nat → List Action → Nat
  mapAddr : Bool
  probe : Nat → Bool
  connect : Nat → Bool
  enable : Bool

/-- The globals of the driver: `ppdio_icv196[card] != 0` (`present`) and the
registers it points to (`hw`), `events`, `dirs` and `mdirs` (`dirst`), and the
log of the actions made so far. -/
structure Driver where
  present : Nat → Bool
  hw : Boards
  events : Nat → Nat → Int
  dirst : DirState
  log : List Action

/-- Link types of an `INP` or `OUT` field: `VME_IO` and any other. -/
inductive LinkType where
  | VME_IO
  | OTHER
  deriving DecidableEq

/-- What `strstr (parm, "event")` and `sscanf (pc, "%d", &event)` find in the
parameter string of a VME address: no `event`, an `event` without a number
after it, or `event` followed by the number `n`. -/
inductive ParmEvent where
  | absent
  | unparsable
  | value (n : Int)
  deriving DecidableEq

/-- The fields of the EPICS records that the device support accesses: link type
and VME address (`card`, `signal`, `parm`) of the `INP` or `OUT` field, `nobt`,
`mask`, `shft`, `rval`, `rbv`, `val` (as a 32 bit pattern) and `dpvt`. -/
structure Record where
  linkType : LinkType
  card : Int
  signal : Int
  parm : ParmEvent
  nobt : Int
  mask : Nat
  shft : Nat
  rval : Nat
  rbv : Nat
  val : Nat
  dpvt : Nat

/-- Return value of a device support function together with the record and the
driver globals after the call. -/
structure Ret where
  status : Int
  record : Record
  drv : Driver

/-- Write `*ctrl = v` to the `z8536_control` location of board `card`. -/
def ctrlW (card v : Nat) (s : Driver) : Driver :=
  { s with log := s.log ++ [Action.ctrlWrite card v] }

/-- Read `*ctrl` from the `z8536_control` location of board `card` into an
`unsigned char`. -/
def ctrlR (env : Env) (card : Nat) (s : Driver) : Nat × Driver :=
  (toU8 (env.ctrl card s.log), { s with log := s.log ++ [Action.ctrlRead card] })

/-- Assignment `events[card][signal] = v`. -/
def setEvent (card signal : Nat) (v : Int) (s : Driver) : Driver :=
  { s with
    events := Function.update s.events card (Function.update (s.events card) signal v)
    log := s.log ++ [Action.eventsWrite card signal v] }

/-- Function `config_int`: set interrupt mode and event number for an input
signal.  Returns the C return value and the driver globals after the call. -/
def config_int (env : Env) (s : Driver) (card : Nat) (signal event : Int) : Int × Driver :=
  -- register event number
  let s := setEvent card signal.toNat (toShort event) s
  -- convert signal number to 8 bit group number and bit mask
  let group := signal.tdiv 8
  let bit := signal - signal.tdiv 8 * 8
  let mask := toU8 (1 <<< bit.toNat)
  -- configure Z8536 controller
  if group = 0 then
    let s := (ctrlR env card s).2
    let s := ctrlW card PTA s
    let r := ctrlR env card s
    let pt := toU8 (r.1 ||| mask)
    let s := r.2 |> ctrlW card PTA |> ctrlW card pt
    let s := ctrlW card PMA s
    let r := ctrlR env card s
    let pm := toU8 (r.1 ||| mask)
    let s := r.2 |> ctrlW card PMA |> ctrlW card pm
    -- verify
    let ra := ctrlR env card (ctrlW card PTA s)
    let rb := ctrlR env card (ctrlW card PMA ra.2)
    if ra.1 ≠ pt ∨ rb.1 ≠ pm then (ERROR, rb.2) else (OK, rb.2)
  else
    let s := ctrlW card PTB s
    let r := ctrlR env card s
    let pt := toU8 (r.1 ||| mask)
    let s := r.2 |> ctrlW card PTB |> ctrlW card pt
    let s := ctrlW card PMB s
    let r := ctrlR env card s
    let pm := toU8 (r.1 ||| mask)
    let s := r.2 |> ctrlW card PMB |> ctrlW card pm
    -- verify
    let ra := ctrlR env card (ctrlW card PTB s)
    let rb := ctrlR env card (ctrlW card PMB ra.2)
    if ra.1 ≠ pt ∨ rb.1 ≠ pm then (ERROR, rb.2) else (OK, rb.2)

/-- The loop of `int_service` over the bits `i` of the pattern `ch`: the events
posted, in order. -/
def int_service_scan (ev : Nat → Int) (port : Nat) : List Nat → Nat → List Action
  | [], _ => []
  | i :: is, ch =>
    (if ch &&& 1 ≠ 0 ∧ ev (i + 8 * port) ≠ 0 then [Action.post (ev (i + 8 * port))] else [])
      ++ int_service_scan ev port is (ch >>> 1)

/-- Function `int_service`: interrupt service routine.  Returns the driver
globals after the call. -/
def int_service (s : Driver) (cardPort : Int) : Driver :=
  let card := (cardPort.tdiv 2).toNat
  let port := cardPort.toNat &&& 1
  -- read interrupting bit pattern
  let ch := toU8 (if port &&& 1 ≠ 0 then (s.hw card).z8536_portB else (s.hw card).z8536_portA)
  -- find interrupting signal(s) and post associated event(s)
  let s := { s with log := s.log ++ int_service_scan (s.events card) port (List.range 8) ch }
  -- clear interrupt
  s |> ctrlW card (if port &&& 1 ≠ 0 then PCSB else PCSA) |> ctrlW card 0x20

/-! ## Device initialization -/

/-- Record an EPICS call in the log. -/
def act (a : Action) (s : Driver) : Driver :=
  { s with log := s.log ++ [a] }

/-- Assignment `ppdio_icv196[card] = pdio_icv196` (`true`) or `= 0` (`false`). -/
def setPresent (card : Nat) (b : Bool) (s : Driver) : Driver :=
  { s with present := Function.update s.present card b }

/-- Assignment `pdio_icv196->nit = v`. -/
def setNit (card v : Nat) (s : Driver) : Driver :=
  { s with hw := Function.update s.hw card { s.hw card with nit := v } }

/-- The loop `for (i = 0; i < 16; i++) events[card][i] = 0;`, over the list of
the remaining indices. -/
def clearEvents (card : Nat) : List Nat → Driver → Driver
  | [], s => s
  | i :: is, s => clearEvents card is (setEvent card i 0 s)

/-- The sections "Port A" and "Port B" of phase "before", which differ in the
register numbers and in the mode written: write the Mode Specification
(`mode`), Data Path Polarity (`0x00`, non-inverting) and Data Direction (`0xff`,
8 input bits) registers, then verify.  `ERROR` stands for the `return ERROR` of
the source, `OK` for going on. -/
def init_port_mode (env : Env) (card pms dpp dd mode : Nat) (s : Driver) : Int × Driver :=
  let s := s |> ctrlW card pms |> ctrlW card mode
  let s := s |> ctrlW card dpp |> ctrlW card 0x00
  let s := s |> ctrlW card dd |> ctrlW card 0xff
  -- verify
  let a := ctrlR env card (ctrlW card pms s)
  let b := ctrlR env card (ctrlW card dpp a.2)
  let c := ctrlR env card (ctrlW card dd b.2)
  if a.1 ≠ mode ∨ b.1 ≠ 0x00 ∨ c.1 ≠ 0xff then (ERROR, c.2) else (OK, c.2)

/-- The sections "Port A interrupts" and "Port B interrupts" of phase "before",
which differ in the register numbers and in the vector `it`: write the Pattern
Polarity (`0xff`), Pattern Transition (`0x00`, masked off), Pattern Mask (`0x00`,
masked off), Interrupt Vector (`it`) and Command and Status (`0xc0`, set
interrupt enable) registers, then verify the first four. -/
def init_port_interrupts (env : Env) (card pp pt pm iv pcs it : Nat) (s : Driver) :
    Int × Driver :=
  let s := s |> ctrlW card pp |> ctrlW card 0xff
  let s := s |> ctrlW card pt |> ctrlW card 0x00
  let s := s |> ctrlW card pm |> ctrlW card 0x00
  let s := s |> ctrlW card iv |> ctrlW card it
  let s := s |> ctrlW card pcs |> ctrlW card 0xc0
  -- verify
  let a := ctrlR env card (ctrlW card pp s)
  let b := ctrlR env card (ctrlW card pt a.2)
  let c := ctrlR env card (ctrlW card pm b.2)
  let d := ctrlR env card (ctrlW card iv c.2)
  if a.1 ≠ 0xff ∨ b.1 ≠ 0x00 ∨ c.1 ≠ 0x00 ∨ d.1 ≠ it then (ERROR, d.2) else (OK, d.2)

/-- The section "Common" of phase "before": Port A and B enable (`0x84` to
`MCC`), master interrupt enable (`0x80` to `MIC`), then verify `MCC`. -/
def init_common (env : Env) (card : Nat) (s : Driver) : Int × Driver :=
  let s := s |> ctrlW card MCC |> ctrlW card 0x84
  let s := s |> ctrlW card MIC |> ctrlW card 0x80
  -- verify
  let a := ctrlR env card (ctrlW card MCC s)
  if a.1 ≠ 0x84 then (ERROR, a.2) else (OK, a.2)

/-- The end of the loop body of phase "before": connect the Port A and Port B
interrupt routines and enable a bus interrupt level. -/
def init_connect (env : Env) (card : Nat) (s : Driver) : Int × Driver :=
  -- connect Port A interrupt routine
  let itVector := IT_VECTOR + 2 * card
  let s := act (Action.connect itVector (2 * card)) s
  if env.connect itVector ≠ true then (ERROR, s) else
  -- connect Port B interrupt routine
  let itVector := IT_VECTOR + 2 * card + 1
  let s := act (Action.connect itVector (2 * card + 1)) s
  if env.connect itVector ≠ true then (ERROR, s) else
  -- enable a bus interrupt level
  let s := act (Action.enableLevel IT_LEVEL) s
  if env.enable ≠ true then (ERROR, s) else
  (OK, s)

/-- Body of the loop over the boards in phase "before" of `init`: the C return
value is `ERROR` where the source returns `ERROR` from inside the loop, and `OK`
where the loop goes on. -/
def init_card (env : Env) (s : Driver) (card : Nat) : Int × Driver :=
  if env.probe card = true then
    let s := setPresent card true s
    -- Interrupt Level Register
    let s := setNit card (toU8 (compl32 (1 <<< IT_LEVEL))) s
    let s := clearEvents card (List.range 16) s
    -- reset the Z8536
    let s := (ctrlR env card s).2
    let s := s |> ctrlW card MIC |> ctrlW card 0x01 |> ctrlW card 0x00
    -- Port A: Bit Port, OR mode, Latch on Pattern Match
    let r := init_port_mode env card PMSA DPPA DDA 0x05 s
    if r.1 ≠ OK then r else
    -- Port B: Bit Port, OR mode
    let r := init_port_mode env card PMSB DPPB DDB 0x04 r.2
    if r.1 ≠ OK then r else
    -- Port A interrupts
    let r := init_port_interrupts env card PPA PTA PMA IVA PCSA (toU8 (IT_VECTOR + 2 * card)) r.2
    if r.1 ≠ OK then r else
    -- Port B interrupts
    let r := init_port_interrupts env card PPB PTB PMB IVB PCSB
      (toU8 (IT_VECTOR + 2 * card + 1)) r.2
    if r.1 ≠ OK then r else
    -- Common
    let r := init_common env card r.2
    if r.1 ≠ OK then r else
    init_connect env card r.2
  else
    (OK, setPresent card false s)

/-- The loop `for (card = 0; card < ICV196_MAX_CARDS; card++, pdio_icv196++)` of
phase "before", over the list of the remaining boards, with the `return ERROR`
from inside the loop. -/
def init_cards (env : Env) : List Nat → Driver → Int × Driver
  | [], s => (OK, s)
  | card :: cards, s =>
    let r := init_card env s card
    if r.1 ≠ OK then r else init_cards env cards r.2

/-- Body of the loop of phase "after" of `init`:
`if (ppdio_icv196[card]) ppdio_icv196[card]->dir = dirs[card];`. -/
def init_after_card (s : Driver) (card : Nat) : Driver :=
  if s.present card = true then
    { s with hw := Function.update s.hw card { s.hw card with dir := s.dirst.dirs card } }
  else s

/-- Function `init`: device initialization.  Before records init (`after = 0`):
initialize everything but the direction register; after records init:
initialize the direction register. -/
def init (env : Env) (s : Driver) (after : Int) : Int × Driver :=
  if after ≠ 0 then
    (OK, (List.range ICV196_MAX_CARDS).foldl init_after_card s)
  else if env.mapAddr ≠ true then
    (ERROR, s)
  else
    init_cards env (List.range ICV196_MAX_CARDS) s

/-! ## Record device support -/

/-- The statements `p->dpvt = (void *)1; return ERROR;`. -/
def markBad (r : Record) (s : Driver) : Ret :=
  ⟨ERROR, { r with dpvt := 1 }, s⟩

/-- The statement `return (config_dir (card, signal, nobt, direction));` of a
record init function.  The index `card` of `dirs` and `mdirs` is `card.toNat`,
which is the C index for `0 ≤ card`. -/
def viaConfigDir (r : Record) (s : Driver) (signal nobt direction : Int) : Ret :=
  let c := config_dir s.dirst r.card.toNat signal nobt direction
  ⟨c.1, r, { s with dirst := c.2 }⟩

/-- Function `init_bi_record`.  Here and in the seven other record init
functions the index `card` of `ppdio_icv196` (and of `events`, `dirs`, `mdirs`
in the functions called) is `card.toNat`, which is the C index for `0 ≤ card`. -/
def init_bi_record (env : Env) (s : Driver) (pbi : Record) : Ret :=
  let pbi := { pbi with dpvt := 0 }
  match pbi.linkType with
  | LinkType.VME_IO =>
    -- check card availability
    if pbi.card ≥ (ICV196_MAX_CARDS : Int) then markBad pbi s
    else if s.present pbi.card.toNat = false then markBad pbi s
    -- check signal number
    else if pbi.signal ≥ (ICV196_MAX_CHANS : Int) then markBad pbi s
    -- check if "event n" is present in parameter field of signal 0-15
    else if pbi.signal < 16 ∧ pbi.parm ≠ ParmEvent.absent then
      match pbi.parm with
      | ParmEvent.value event =>
        if event < 0 ∨ event > 255 then markBad pbi s
        else
          -- set interrupt
          let s := (config_int env s pbi.card.toNat pbi.signal event).2
          -- configure input bit
          viaConfigDir pbi s pbi.signal 1 0
      | _ => markBad pbi s
    else
      -- configure input bit
      viaConfigDir pbi s pbi.signal 1 0
  | LinkType.OTHER => markBad pbi s

/-- Function `read_bi`. -/
def read_bi (s : Driver) (pbi : Record) : Ret :=
  if pbi.dpvt ≠ 0 then ⟨ERROR, pbi, s⟩
  else
    let r := read_bit s.hw pbi.card.toNat pbi.signal
    ⟨r.1, if r.1 = 0 then { pbi with rval := r.2.1 } else pbi, { s with hw := r.2.2 }⟩

/-- Function `init_bo_record`. -/
def init_bo_record (s : Driver) (pbo : Record) : Ret :=
  let value : Nat := 0
  let pbo := { pbo with dpvt := 0 }
  match pbo.linkType with
  | LinkType.VME_IO =>
    -- check card availability
    if pbo.card ≥ (ICV196_MAX_CARDS : Int) then markBad pbo s
    else if s.present pbo.card.toNat = false then markBad pbo s
    -- check signal number
    else if pbo.signal ≤ 15 ∨ pbo.signal ≥ (ICV196_MAX_CHANS : Int) then markBad pbo s
    else
      -- read current value
      let r := read_bit s.hw pbo.card.toNat pbo.signal
      if r.1 ≠ 0 then markBad pbo { s with hw := r.2.2 }
      else
        let pbo := { pbo with rval := r.2.1 }
        -- configure output bit
        viaConfigDir pbo { s with hw := r.2.2 } pbo.signal 1 1
  | LinkType.OTHER => ⟨ERROR, { pbo with rval := value }, s⟩

/-- Function `write_bo`. -/
def write_bo (s : Driver) (pbo : Record) : Ret :=
  if pbo.dpvt ≠ 0 then ⟨ERROR, pbo, s⟩
  else
    let r := write_bit s.hw pbo.card.toNat pbo.signal pbo.rval
    ⟨r.1, pbo, { s with hw := r.2 }⟩

/-- Function `init_mbbi_record`. -/
def init_mbbi_record (s : Driver) (pmbbi : Record) : Ret :=
  let pmbbi := { pmbbi with dpvt := 0 }
  match pmbbi.linkType with
  | LinkType.VME_IO =>
    -- check card availability
    if pmbbi.card ≥ (ICV196_MAX_CARDS : Int) then markBad pmbbi s
    else if s.present pmbbi.card.toNat = false then markBad pmbbi s
    -- check signal number
    else if pmbbi.signal ≥ (ICV196_MAX_CHANS : Int) then markBad pmbbi s
    -- check number of bits (NOBT)
    else if pmbbi.nobt > 16 then markBad pmbbi s
    else if pmbbi.signal + pmbbi.nobt > (ICV196_MAX_CHANS : Int) then markBad pmbbi s
    else
      let pmbbi := { pmbbi with shft := intToU16 (pmbbi.signal.tmod 16) }
      let pmbbi := { pmbbi with mask := toU32 (pmbbi.mask <<< pmbbi.shft) }
      -- configure input pattern
      viaConfigDir pmbbi s pmbbi.signal pmbbi.nobt 0
  | LinkType.OTHER => markBad pmbbi s

/-- Function `read_mbbi`. -/
def read_mbbi (s : Driver) (pmbbi : Record) : Ret :=
  if pmbbi.dpvt ≠ 0 then ⟨ERROR, pmbbi, s⟩
  else
    let r := read_pattern s.hw pmbbi.card.toNat pmbbi.signal pmbbi.mask
    ⟨r.1, if r.1 = 0 then { pmbbi with rval := r.2.1 } else pmbbi, { s with hw := r.2.2 }⟩

/-- Function `init_mbbo_record`. -/
def init_mbbo_record (s : Driver) (pmbbo : Record) : Ret :=
  let pmbbo := { pmbbo with dpvt := 0 }
  match pmbbo.linkType with
  | LinkType.VME_IO =>
    -- check card availability
    if pmbbo.card ≥ (ICV196_MAX_CARDS : Int) then markBad pmbbo s
    else if s.present pmbbo.card.toNat = false then markBad pmbbo s
    -- check signal number
    else if pmbbo.signal ≤ 15 ∨ pmbbo.signal ≥ (ICV196_MAX_CHANS : Int) then markBad pmbbo s
    -- check number of bits (NOBT)
    else if pmbbo.nobt > 16 then markBad pmbbo s
    else if pmbbo.signal + pmbbo.nobt > (ICV196_MAX_CHANS : Int) then markBad pmbbo s
    else
      let pmbbo := { pmbbo with shft := intToU16 (pmbbo.signal.tmod 16) }
      let pmbbo := { pmbbo with mask := toU32 (pmbbo.mask <<< pmbbo.shft) }
      -- read current value
      let r := read_pattern s.hw pmbbo.card.toNat pmbbo.signal pmbbo.mask
      if r.1 ≠ 0 then markBad pmbbo { s with hw := r.2.2 }
      else
        let pmbbo := { pmbbo with rval := r.2.1, rbv := r.2.1 }
        -- configure output pattern
        viaConfigDir pmbbo { s with hw := r.2.2 } pmbbo.signal pmbbo.nobt 1
  | LinkType.OTHER => markBad pmbbo s

/-- Function `write_mbbo`. -/
def write_mbbo (s : Driver) (pmbbo : Record) : Ret :=
  if pmbbo.dpvt ≠ 0 then ⟨ERROR, pmbbo, s⟩
  else
    let r := write_pattern s.hw pmbbo.card.toNat pmbbo.signal pmbbo.mask pmbbo.rval
    ⟨r.1, pmbbo, { s with hw := r.2 }⟩

/-- Function `init_mbbiDirect_record`. -/
def init_mbbiDirect_record (s : Driver) (pmbbi : Record) : Ret :=
  let pmbbi := { pmbbi with dpvt := 0 }
  match pmbbi.linkType with
  | LinkType.VME_IO =>
    -- check card availability
    if pmbbi.card ≥ (ICV196_MAX_CARDS : Int) then markBad pmbbi s
    else if s.present pmbbi.card.toNat = false then markBad pmbbi s
    -- check signal number
    else if pmbbi.signal ≥ (ICV196_MAX_CHANS : Int) then markBad pmbbi s
    -- check number of bits (NOBT)
    else if pmbbi.nobt > 16 then markBad pmbbi s
    else if pmbbi.signal + pmbbi.nobt > (ICV196_MAX_CHANS : Int) then markBad pmbbi s
    else
      let pmbbi := { pmbbi with shft := intToU16 (pmbbi.signal.tmod 16) }
      let pmbbi := { pmbbi with mask := toU32 (pmbbi.mask <<< pmbbi.shft) }
      -- configure input pattern
      viaConfigDir pmbbi s pmbbi.signal pmbbi.nobt 0
  | LinkType.OTHER => markBad pmbbi s

/-- Function `read_mbbiDirect`. -/
def read_mbbiDirect (s : Driver) (pmbbi : Record) : Ret :=
  if pmbbi.dpvt ≠ 0 then ⟨ERROR, pmbbi, s⟩
  else
    let r := read_pattern s.hw pmbbi.card.toNat pmbbi.signal pmbbi.mask
    ⟨r.1, if r.1 = 0 then { pmbbi with rval := r.2.1 } else pmbbi, { s with hw := r.2.2 }⟩

/-- Function `init_mbboDirect_record`. -/
def init_mbboDirect_record (s : Driver) (pmbbo : Record) : Ret :=
  let pmbbo := { pmbbo with dpvt := 0 }
  match pmbbo.linkType with
  | LinkType.VME_IO =>
    -- check card availability
    if pmbbo.card ≥ (ICV196_MAX_CARDS : Int) then markBad pmbbo s
    else if s.present pmbbo.card.toNat = false then markBad pmbbo s
    -- check signal number
    else if pmbbo.signal ≤ 15 ∨ pmbbo.signal ≥ (ICV196_MAX_CHANS : Int) then markBad pmbbo s
    -- check number of bits (NOBT)
    else if pmbbo.nobt > 16 then markBad pmbbo s
    else if pmbbo.signal + pmbbo.nobt > (ICV196_MAX_CHANS : Int) then markBad pmbbo s
    else
      let pmbbo := { pmbbo with shft := intToU16 (pmbbo.signal.tmod 16) }
      let pmbbo := { pmbbo with mask := toU32 (pmbbo.mask <<< pmbbo.shft) }
      -- read current value
      let r := read_pattern s.hw pmbbo.card.toNat pmbbo.signal pmbbo.mask
      if r.1 ≠ 0 then markBad pmbbo { s with hw := r.2.2 }
      else
        let pmbbo := { pmbbo with rval := r.2.1, rbv := r.2.1 }
        -- configure output pattern
        viaConfigDir pmbbo { s with hw := r.2.2 } pmbbo.signal pmbbo.nobt 1
  | LinkType.OTHER => markBad pmbbo s

/-- Function `write_mbboDirect`. -/
def write_mbboDirect (s : Driver) (pmbbo : Record) : Ret :=
  if pmbbo.dpvt ≠ 0 then ⟨ERROR, pmbbo, s⟩
  else
    let r := write_pattern s.hw pmbbo.card.toNat pmbbo.signal pmbbo.mask pmbbo.rval
    ⟨r.1, pmbbo, { s with hw := r.2 }⟩

/-- Function `init_longin_record`. -/
def init_longin_record (s : Driver) (plongin : Record) : Ret :=
  let plongin := { plongin with dpvt := 0 }
  match plongin.linkType with
  | LinkType.VME_IO =>
    -- check card availability
    if plongin.card ≥ (ICV196_MAX_CARDS : Int) then markBad plongin s
    else if s.present plongin.card.toNat = false then markBad plongin s
    -- check signal number
    else if plongin.signal ≥ 3 then markBad plongin s
    else
      -- configure input pattern
      viaConfigDir plongin s (plongin.signal * 32) 32 0
  | LinkType.OTHER => markBad plongin s

/-- Function `read_longin`. -/
def read_longin (s : Driver) (plongin : Record) : Ret :=
  if plongin.dpvt ≠ 0 then ⟨ERROR, plongin, s⟩
  else
    let r := read_pattern s.hw plongin.card.toNat (plongin.signal * 32) 0xFFFFFFFF
    ⟨r.1, if r.1 = 0 then { plongin with val := r.2.1 } else plongin, { s with hw := r.2.2 }⟩

/-- Function `init_longout_record`. -/
def init_longout_record (s : Driver) (plongout : Record) : Ret :=
  let plongout := { plongout with dpvt := 0 }
  match plongout.linkType with
  | LinkType.VME_IO =>
    -- check card availability
    if plongout.card ≥ (ICV196_MAX_CARDS : Int) then markBad plongout s
    else if s.present plongout.card.toNat = false then markBad plongout s
    -- check signal number
    else if plongout.signal ≤ 1 ∨ plongout.signal ≥ 3 then markBad plongout s
    else
      -- read current value
      let r := read_pattern s.hw plongout.card.toNat (plongout.signal * 32) 0xFFFFFFFF
      if r.1 ≠ 0 then markBad plongout { s with hw := r.2.2 }
      else
        let plongout := { plongout with val := r.2.1 }
        -- configure output pattern
        viaConfigDir plongout { s with hw := r.2.2 } (plongout.signal * 32) 32 1
  | LinkType.OTHER => markBad plongout s

/-- Function `write_longout`. -/
def write_longout (s : Driver) (plongout : Record) : Ret :=
  if plongout.dpvt ≠ 0 then ⟨ERROR, plongout, s⟩
  else
    let r := write_pattern s.hw plongout.card.toNat (plongout.signal * 32) 0xFFFFFFFF
      plongout.val
    ⟨r.1, plongout, { s with hw := r.2 }⟩

/-- The record types with a device support entry table (`devBiIcv196`, ...,
`devLongoutIcv196`). -/
inductive RecType where
  | bi | bo | mbbi | mbbo | mbbiDirect | mbboDirect | longin | longout
  deriving DecidableEq

/-- Entry `init_record` of the device support entry table of a record type. -/
def init_record (t : RecType) (env : Env) (s : Driver) (r : Record) : Ret :=
  match t with
  | RecType.bi => init_bi_record env s r
  | RecType.bo => init_bo_record s r
  | RecType.mbbi => init_mbbi_record s r
  | RecType.mbbo => init_mbbo_record s r
  | RecType.mbbiDirect => init_mbbiDirect_record s r
  | RecType.mbboDirect => init_mbboDirect_record s r
  | RecType.longin => init_longin_record s r
  | RecType.longout => init_longout_record s r

/-- Last entry (read or write function) of the device support entry table of a
record type. -/
def process (t : RecType) (s : Driver) (r : Record) : Ret :=
  match t with
  | RecType.bi => read_bi s r
  | RecType.bo => write_bo s r
  | RecType.mbbi => read_mbbi s r
  | RecType.mbbo => write_mbbo s r
  | RecType.mbbiDirect => read_mbbiDirect s r
  | RecType.mbboDirect => write_mbboDirect s r
  | RecType.longin => read_longin s r
  | RecType.longout => write_longout s r

/-! ## Notions used to state the properties of the record device support -/

/-- The arguments `(signal, nobt, direction)` of the `config_dir` call of the
record init function of each record type. -/
def dirRequest (t : RecType) (r : Record) : Int × Int × Int :=
  match t with
  | RecType.bi => (r.signal, 1, 0)
  | RecType.bo => (r.signal, 1, 1)
  | RecType.mbbi => (r.signal, r.nobt, 0)
  | RecType.mbbo => (r.signal, r.nobt, 1)
  | RecType.mbbiDirect => (r.signal, r.nobt, 0)
  | RecType.mbboDirect => (r.signal, r.nobt, 1)
  | RecType.longin => (r.signal * 32, 32, 0)
  | RecType.longout => (r.signal * 32, 32, 1)

/-- An event directive, if any, parses to a value in 0..255. -/
def DirectiveOk (p : ParmEvent) : Prop :=
  match p with
  | ParmEvent.absent => True
  | ParmEvent.unparsable => False
  | ParmEvent.value n => 0 ≤ n ∧ n ≤ 255

instance (p : ParmEvent) : Decidable (DirectiveOk p) := by
  cases p <;> unfold DirectiveOk <;> infer_instance

/-- Signal and width condition of a record type as the specification words it:
`signal < 96` for bi, mbbi and mbbiDirect, `16 <= signal < 96` for bo, mbbo and
mbboDirect, `signal < 3` for longin, signal 1 or 2 for longout; for the four
multi-bit types `nobt <= 16` and `signal + nobt <= 96`; for bi an event
directive on a signal below 16 parses to a value in 0..255. -/
def SignalOk (t : RecType) (r : Record) : Prop :=
  match t with
  | RecType.bi => r.signal < 96 ∧ (r.signal < 16 → DirectiveOk r.parm)
  | RecType.bo => 16 ≤ r.signal ∧ r.signal < 96
  | RecType.mbbi => r.signal < 96 ∧ r.nobt ≤ 16 ∧ r.signal + r.nobt ≤ 96
  | RecType.mbbo => (16 ≤ r.signal ∧ r.signal < 96) ∧ r.nobt ≤ 16 ∧ r.signal + r.nobt ≤ 96
  | RecType.mbbiDirect => r.signal < 96 ∧ r.nobt ≤ 16 ∧ r.signal + r.nobt ≤ 96
  | RecType.mbboDirect => (16 ≤ r.signal ∧ r.signal < 96) ∧ r.nobt ≤ 16 ∧ r.signal + r.nobt ≤ 96
  | RecType.longin => r.signal < 3
  | RecType.longout => r.signal = 1 ∨ r.signal = 2

instance (t : RecType) (r : Record) : Decidable (SignalOk t r) := by
  cases t <;> unfold SignalOk <;> infer_instance

/-- Address validity as the specification words it: `card < 2`, the board is
present, and the signal (and width) is in range for the record type. -/
def ValidAddr (t : RecType) (s : Driver) (r : Record) : Prop :=
  r.card < 2 ∧ s.present r.card.toNat = true ∧ SignalOk t r

instance (t : RecType) (s : Driver) (r : Record) : Decidable (ValidAddr t s r) := by
  unfold ValidAddr; infer_instance

/-- Driver states reachable from a state with `dirs = mdirs = 0` by calls to the
eight record init functions with arbitrary records. -/
inductive DriverReach : Driver → Prop
  | start (s : Driver) : s.dirst = DirState.initial → DriverReach s
  | step (t : RecType) (env : Env) (s : Driver) (r : Record) :
      DriverReach s → DriverReach (init_record t env s r).drv

/-- Registers reading 0 everywhere. -/
def regs_zero : dio_icv196 := { ports := fun _ => 0, dir := 0 }

/-- Driver globals after a bring-up that found board 0 only: no direction
configured, empty Event Table, empty log. -/
def drv_board0 : Driver :=
  { present := fun c => decide (c = 0)
    hw := fun _ => regs_zero
    events := fun _ _ => 0
    dirst := DirState.initial
    log := [] }

/-- An outside world whose controller reads deliver 0 and whose EPICS calls
succeed. -/
def env_zero : Env :=
  { ctrl := fun _ _ => 0, mapAddr := true, probe := fun c => decide (c = 0),
    connect := fun _ => true, enable := true }

/-- A record with a VME address on board 0 at `signal`, `nobt` bits, no event
directive, mask `2^nobt - 1`. -/
def rec_at (signal nobt : Int) : Record :=
  { linkType := LinkType.VME_IO, card := 0, signal := signal, parm := ParmEvent.absent,
    nobt := nobt, mask := 2 ^ nobt.toNat - 1, shft := 0, rval := 0, rbv := 0, val := 0,
    dpvt := 0 }

/-- Driver globals after, in addition, an mbbo record on signals 16 to 31 of
board 0 was initialised (groups 2 and 3 output). -/
def drv_out16 : Driver := (init_record RecType.mbbo env_zero drv_board0 (rec_at 16 16)).drv

/-- Driver globals with board 0 present, event 42 registered for signal 3 of
board 0 and the Z8536 port A of the boards delivering `snapshot`. -/
def drv_ev42 (snapshot : Nat) : Driver :=
  { drv_board0 with
    events := fun c i => if c = 0 ∧ i = 3 then 42 else 0
    hw := fun _ => { regs_zero with z8536_portA := snapshot } }

/-- A bi record with a VME address on board 0 at `signal` whose parameter string
carries the directive `event n`. -/
def rec_bi_event (signal n : Int) : Record :=
  { rec_at signal 1 with parm := ParmEvent.value n }

/-- The events `int_service` has to post for the pattern `ch` of port `port`:
for the bits `i` of 0..7 in ascending order, the event of slot `8*port + i` if
bit `i` of `ch` is set and the slot is non-zero. -/
def expectedPosts (ev : Nat → Int) (port ch : Nat) : List Action :=
  (List.range 8).filterMap
    (fun i => if ch.testBit i = true ∧ ev (i + 8 * port) ≠ 0 then
      some (Action.post (ev (i + 8 * port))) else none)

/-! ## An ideal controller and the lifecycle of the driver -/

/-- State of the access logic of a Z8536 as the source describes it: `mode` 0
(State 0: the next control access is to the Pointer Register), 1 (State 1: the
next control access is to the register selected) or 2 (Reset State), the Pointer
Register and the internal registers. -/
structure Z8536 where
  mode : Nat
  ptr : Nat
  regs : Nat → Nat

/-- A Z8536 after a hardware reset. -/
def Z8536.power_up : Z8536 := ⟨2, 0, fun _ => 0⟩

/-- Control write to an ideal Z8536: in the Reset State only a write of 0 to the
reset bit has an effect (State 0 follows); in State 0 the Pointer Register is
written; in State 1 the selected register is written, and writing a 1 to the
reset bit of the Master Interrupt Control Register leads to the Reset State. -/
def Z8536.write (z : Z8536) (v : Nat) : Z8536 :=
  if z.mode = 2 then (if v % 2 = 0 then { z with mode := 0 } else z)
  else if z.mode = 0 then { z with mode := 1, ptr := v }
  else { z with
    mode := if z.ptr = MIC ∧ v % 2 = 1 then 2 else 0
    regs := Function.update z.regs z.ptr v }

/-- Control read from an ideal Z8536: delivers the selected register; State 0
follows (nothing happens in the Reset State). -/
def Z8536.read (z : Z8536) : Nat × Z8536 :=
  if z.mode = 2 then (0, z) else (z.regs z.ptr, { z with mode := 0 })

/-- Effect of a logged action on the Z8536 of board `card`. -/
def Z8536.step (card : Nat) (z : Z8536) : Action → Z8536
  | Action.ctrlWrite c v => if c = card then z.write v else z
  | Action.ctrlRead c => if c = card then z.read.2 else z
  | _ => z

/-- An outside world with board 0 only, an ideal Z8536 on it, and EPICS calls
that succeed. -/
def env_ideal : Env :=
  { ctrl := fun card log => ((log.foldl (Z8536.step card) Z8536.power_up).read).1
    mapAddr := true
    probe := fun c => decide (c = 0)
    connect := fun _ => true
    enable := true }

/-- Driver globals at program start: static data zero, empty log. -/
def drv_boot : Driver :=
  { present := fun _ => false
    hw := fun _ => regs_zero
    events := fun _ _ => 0
    dirst := DirState.initial
    log := [] }

/-- The lifecycle order fixed by the framework: `init (0)`, then the record init
calls, then `init (1)`.  Delivers the driver globals at the end. -/
def lifecycle (env : Env) (s : Driver) (recs : List (RecType × Record)) : Driver :=
  let s0 := (init env s 0).2
  let s1 := recs.foldl (fun s tr => (init_record tr.1 env s tr.2).drv) s0
  (init env s1 1).2

/-- The controller accesses of a section "Port A" or "Port B" that verifies. -/
def portModeLog (card pms dpp dd mode : Nat) : List Action :=
  let W := Action.ctrlWrite card
  let R := Action.ctrlRead card
  [W pms, W mode, W dpp, W 0x00, W dd, W 0xff, W pms, R, W dpp, R, W dd, R]

/-- The controller accesses of a section "Port A interrupts" or "Port B
interrupts" that verifies. -/
def portInterruptsLog (card pp pt pm iv pcs it : Nat) : List Action :=
  let W := Action.ctrlWrite card
  let R := Action.ctrlRead card
  [W pp, W 0xff, W pt, W 0x00, W pm, W 0x00, W iv, W it, W pcs, W 0xc0,
   W pp, R, W pt, R, W pm, R, W iv, R]

/-- The actions of phase "before" of `init` for a board found present whose
bring-up succeeds: the Event Table of the board is cleared, the Z8536 is reset,
ports A and B are configured and verified, the pattern registers are written
(transition and mask `0x00`: masked off) with interrupt vector and interrupt
enable (`0xc0` to `PCSA` and `PCSB`) and verified, the ports and the master
interrupt are enabled (`0x84` to `MCC`, `0x80` to `MIC`), the two interrupt
routines are connected and the bus interrupt level is enabled. -/
def bringUpLog (card : Nat) : List Action :=
  let W := Action.ctrlWrite card
  let R := Action.ctrlRead card
  (List.range 16).map (fun i => Action.eventsWrite card i 0) ++
  [R, W MIC, W 0x01, W 0x00] ++
  portModeLog card PMSA DPPA DDA 0x05 ++
  portModeLog card PMSB DPPB DDB 0x04 ++
  portInterruptsLog card PPA PTA PMA IVA PCSA (toU8 (IT_VECTOR + 2 * card)) ++
  portInterruptsLog card PPB PTB PMB IVB PCSB (toU8 (IT_VECTOR + 2 * card + 1)) ++
  [W MCC, W 0x84, W MIC, W 0x80, W MCC, R] ++
  [Action.connect (IT_VECTOR + 2 * card) (2 * card),
   Action.connect (IT_VECTOR + 2 * card + 1) (2 * card + 1),
   Action.enableLevel IT_LEVEL]

/-- Event Table writes and controller accesses, as opposed to the EPICS calls
that connect an interrupt routine, enable a bus interrupt level or post an
event. -/
def Action.isTableOrCtrl : Action → Bool
  | Action.ctrlWrite _ _ => true
  | Action.ctrlRead _ => true
  | Action.eventsWrite _ _ _ => true
  | _ => false

/-- The controller accesses of `config_int` after its Event Table write, with
the values `pt` and `pm` it writes to the Pattern Transition and Pattern Mask
registers of port A (signals 0 to 7) or port B. -/
def armLog (card : Nat) (signal : Int) (pt pm : Nat) : List Action :=
  let W := Action.ctrlWrite card
  let R := Action.ctrlRead card
  if signal.tdiv 8 = 0 then
    [R, W PTA, R, W PTA, W pt, W PMA, R, W PMA, W pm, W PTA, R, W PMA, R]
  else
    [W PTB, R, W PTB, W pt, W PMB, R, W PMB, W pm, W PTB, R, W PMB, R]

/-! ## The ideal controller seen from `config_int` -/

/-- State of an ideal Z8536 on board `card`, powered up before the first logged
action, after the logged actions. -/
def chip (card : Nat) (log : List Action) : Z8536 :=
  log.foldl (Z8536.step card) Z8536.power_up

/-- The controller reads of the outside world are those of ideal Z8536s: a read
of `z8536_control` of a board delivers what its Z8536 delivers after the actions
made so far. -/
def IdealCtrl (env : Env) : Prop :=
  ∀ (card : Nat) (log : List Action), env.ctrl card log = (chip card log).read.1

/-- The Z8536 of board `card` is in State 0 after the logged actions and its
internal registers hold `regs`. -/
def ChipAt (card : Nat) (log : List Action) (regs : Nat → Nat) : Prop :=
  (chip card log).mode = 0 ∧ (chip card log).regs = regs

/-- The controller accesses that the branches "port A" and "port B" of
`config_int` have in common, for the Pattern Transition register `ptr` and the
Pattern Mask register `pmr` of the port: read, modify, write of the two
registers and the verification. -/
def config_int_port (env : Env) (card ptr pmr mask : Nat) (s : Driver) : Int × Driver :=
  let s := ctrlW card ptr s
  let r := ctrlR env card s
  let pt := toU8 (r.1 ||| mask)
  let s := r.2 |> ctrlW card ptr |> ctrlW card pt
  let s := ctrlW card pmr s
  let r := ctrlR env card s
  let pm := toU8 (r.1 ||| mask)
  let s := r.2 |> ctrlW card pmr |> ctrlW card pm
  -- verify
  let ra := ctrlR env card (ctrlW card ptr s)
  let rb := ctrlR env card (ctrlW card pmr ra.2)
  if ra.1 ≠ pt ∨ rb.1 ≠ pm then (ERROR, rb.2) else (OK, rb.2)

/-- Driver globals after phase "before" of `init` at program start with board 0
and an ideal Z8536 on it. -/
def drv_up : Driver := (init env_ideal drv_boot 0).2

/-- The byte the verify read that is action `k` of `bringUpLog` delivers when the
bring-up of board `card` starts after the actions of `log`: what a read of
`z8536_control` delivers after the actions before it. -/
def readback (env : Env) (log : List Action) (card k : Nat) : Nat :=
  toU8 (env.ctrl card (log ++ (bringUpLog card).take k))

/-- All checks of the bring-up of board `card` pass: the readbacks of the
section "Port A" (Mode Specification `0x05`, Data Path Polarity `0x00`, Data
Direction `0xff`; actions 27, 29, 31 of `bringUpLog`), of the section "Port B"
(`0x04`, `0x00`, `0xff`; actions 39, 41, 43), of the sections "Port A
interrupts" and "Port B interrupts" (Pattern Polarity `0xff`, Pattern Transition
`0x00`, Pattern Mask `0x00` and the interrupt vector; actions 55, 57, 59, 61 and
73, 75, 77, 79) and of the section "Common" (Master Configuration Control
`0x84`; action 85) are the values written, the two calls of
`devConnectInterruptVME` return `OK` and `devEnableInterruptLevelVME` returns
`OK`. -/
def BringUpChecks (env : Env) (log : List Action) (card : Nat) : Prop :=
  (readback env log card 27 = 0x05 ∧ readback env log card 29 = 0x00 ∧
    readback env log card 31 = 0xff) ∧
  (readback env log card 39 = 0x04 ∧ readback env log card 41 = 0x00 ∧
    readback env log card 43 = 0xff) ∧
  (readback env log card 55 = 0xff ∧ readback env log card 57 = 0x00 ∧
    readback env log card 59 = 0x00 ∧
    readback env log card 61 = toU8 (IT_VECTOR + 2 * card)) ∧
  (readback env log card 73 = 0xff ∧ readback env log card 75 = 0x00 ∧
    readback env log card 77 = 0x00 ∧
    readback env log card 79 = toU8 (IT_VECTOR + 2 * card + 1)) ∧
  readback env log card 85 = 0x84 ∧
  env.connect (IT_VECTOR + 2 * card) = true ∧
  env.connect (IT_VECTOR + 2 * card + 1) = true ∧
  env.enable = true

instance (env : Env) (log : List Action) (card : Nat) :
    Decidable (BringUpChecks env log card) := by
  unfold BringUpChecks; infer_instance

end Icv196

/-! ## ICV296: board registers and the bit / pattern read functions

From `src/support/adas/adasApp/src/devIcv296.c`.  The operands of the C operator
`^` are `int`s; it is `Int.xor` here. -/

namespace Icv296

/-- Return value `OK` of the EPICS headers. -/
def OK : Int := 0

/-- Truncation of a value to `unsigned short`. -/
def toU16 (n : Nat) : Nat := n % 2 ^ 16

/-- Truncation of a value to `unsigned int`. -/
def toU32 (n : Nat) : Nat := n % 2 ^ 32

/-- The `struct dio_icv296`: `reset`, `dir` (direction register), `buffer[6]`
(signal buffer registers), `wdog`, `latch` and `direct[6]` (signal direct
registers), all `unsigned short`. -/
structure dio_icv296 where
  reset : Nat
  dir : Nat
  buffer : Nat → Nat
  wdog : Nat
  latch : Nat
  direct : Nat → Nat

/-- The register blocks the pointers `ppdio_icv296[card]` point to. -/
abbrev Boards := Nat → dio_icv296

/-- Function `read_bit`: read a single bit.  Returns the C return value, `*value`
and the registers after the call. -/
def read_bit (hw : Boards) (card : Nat) (signal : Int) : Int × Nat × Boards :=
  -- convert signal number to 16 bit group number and bit mask
  let group := Int.xor (signal.tdiv 16) 1
  let bit := signal.tmod 16
  let mask := toU16 (1 <<< bit.toNat)
  -- read bit value
  let value := (hw card).direct group.toNat &&& mask
  (OK, value, hw)

/-- Function `read_pattern`: read a bit pattern from the I/O buffer.  Returns the
C return value, `*value` and the registers after the call. -/
def read_pattern (hw : Boards) (card : Nat) (signal : Int) (mask : Nat) : Int × Nat × Boards :=
  -- convert lowest signal number to 16 bit port number
  let port := signal.tdiv 16
  let low := Int.xor port 1
  let high := Int.xor (port + 1) 1
  -- read bit pattern
  let work :=
    if port < 5 then
      toU32 (((hw card).direct high.toNat <<< 16) + (hw card).direct low.toNat)
    else
      toU32 ((hw card).direct low.toNat)
  -- mask record pattern
  (OK, work &&& mask, hw)

/-- Registers of a board whose direct register 1 holds `0x0008` and whose other
registers hold 0. -/
def regs_direct1 : dio_icv296 :=
  { reset := 0, dir := 0, buffer := fun _ => 0, wdog := 0, latch := 0,
    direct := fun g => if g = 1 then 0x0008 else 0 }

end Icv296

/-! ## GL820: conversion coefficients

From `src/devices/graphtec_GL820/GL820Sup/drvGL820_Cmnd.cpp` and
`drvGL820_Cmnd.h`.  C strings are the lists of their characters before the
terminating NUL.  The `float` members of `CH_COEF` and the `double` values hold
exact rational values here: the rounding of the floating point operations is not
modelled, the integer operations are. -/

namespace GL820

/-- Number of channels. -/
def PORT_COUNT : Nat := 20

/-- The `struct _ChCoef`: `intCoef`, `decCoef`, `modeStr` and `rangeStr`. -/
structure CH_COEF where
  intCoef : ℚ
  decCoef : ℚ
  modeStr : List Char
  rangeStr : List Char

/-- The members of the class `drvGL820` that `SetStartStop` writes. -/
structure drvGL820 where
  m_ChCoef : Nat → CH_COEF
  m_StartFlag : Int

/-- The instrument as `SetStartStop` sees it through `WriteRead`: the content of
the receive buffer after the query of the input (`:AMP:CHn:INP?`) and of the
range (`:AMP:CHn:RANG?`) of the channel with index `i` (`n = i + 1`), or `none`
when `WriteRead` returns `asynError`. -/
structure Instrument where
  inp : Nat → Option (List Char)
  rang : Nat → Option (List Char)

/-- The library function `strcasecmp`, as far as its result is used: 0 exactly if
the two strings are equal up to the case of the letters. -/
def strcasecmp (a b : List Char) : Int :=
  if a.map Char.toLower = b.map Char.toLower then 0 else 1

/-- The statements `ptr = strchr (readBuf, c); if (ptr != NULL) memset (ptr, 0x00, 1);`:
the string ends before the first `c`. -/
def cutAt (c : Char) (readBuf : List Char) : List Char :=
  readBuf.takeWhile (fun x => x ≠ c)

/-- Method `StrCmndParse`: the reply without line end, from behind its first
blank on, goes to `valueBuf`.  Returns the C return value and `valueBuf`. -/
def StrCmndParse (readBuf valueBuf : List Char) : Int × List Char :=
  if readBuf.length > 0 then
    let readBuf := cutAt (Char.ofNat 13) readBuf
    let readBuf := cutAt (Char.ofNat 10) readBuf
    match readBuf.dropWhile (fun x => x ≠ ' ') with
    | [] => (-1, valueBuf)
    | _ :: ptr => (ptr.length, ptr)
  else (-1, valueBuf)

/-- The tables `dataDef` and `coefDef` of `DCRangeStrCmndParse`, side by side. -/
def rangeTable : List (List Char × ℚ) :=
  [("20MV".toList, 1000000),
   ("50MV".toList, 100000), ("100MV".toList, 100000), ("200MV".toList, 100000),
   ("500MV".toList, 10000), ("1V".toList, 10000), ("2V".toList, 10000),
   ("5V".toList, 1000), ("10V".toList, 1000), ("20V".toList, 1000), ("1-5V".toList, 1000),
   ("50V".toList, 100), ("100V".toList, 100)]

/-- The loop `for (int i = 0; i < 13; i++)` of `DCRangeStrCmndParse` over the rest
of the tables: at the first entry that matches, `decCoef = 1.0 / coefDef[i]`. -/
def rangeLoop (coef : CH_COEF) : List (List Char × ℚ) → CH_COEF
  | [] => coef
  | d :: rest =>
    if strcasecmp coef.rangeStr d.1 = 0 then { coef with decCoef := 1 / d.2 }
    else rangeLoop coef rest

/-- Method `DCRangeStrCmndParse`.  Returns the C return value and `coef`. -/
def DCRangeStrCmndParse (readBuf : List Char) (coef : CH_COEF) : Int × CH_COEF :=
  let r := StrCmndParse readBuf coef.rangeStr
  let coef := { coef with rangeStr := r.2 }
  if r.1 > 0 then
    let coef :=
      if coef.rangeStr.head? = some '1' then { coef with intCoef := 2 }
      else if coef.rangeStr.head? = some '2' then { coef with intCoef := 1 }
      else if coef.rangeStr.head? = some '5' then { coef with intCoef := 4 }
      else coef
    (1, rangeLoop coef rangeTable)
  else (0, coef)

/-- Body of the loop over the channels of `SetStartStop`, as to the coefficients
of channel `i`: query the input of the channel and set the coefficients.  The
right-hand side `1 / 10000` of the humidity branch is a division of two `int`s. -/
def setChCoef (dev : Instrument) (i : Nat) (coef : CH_COEF) : CH_COEF :=
  match dev.inp i with
  | none => coef
  | some dataBuf =>
    let r := StrCmndParse dataBuf coef.modeStr
    let coef := { coef with modeStr := r.2 }
    if r.1 > 0 then
      if strcasecmp coef.modeStr "DC".toList = 0 then
        match dev.rang i with
        | none => coef
        | some dataBuf => (DCRangeStrCmndParse dataBuf coef).2
      else if strcasecmp coef.modeStr "TEMP".toList = 0 then
        { coef with intCoef := 1, decCoef := 5 / 1000 }
      else if strcasecmp coef.modeStr "RH".toList = 0 then
        { coef with intCoef := 2, decCoef := ((Int.tdiv 1 10000 : Int) : ℚ) }
      else
        { coef with intCoef := 0, decCoef := 0 }
    else coef

/-- Body of the loop over the channels of `SetStartStop`, for channel `i`. -/
def setChannel (dev : Instrument) (st : drvGL820) (i : Nat) : drvGL820 :=
  { st with m_ChCoef := Function.update st.m_ChCoef i (setChCoef dev i (st.m_ChCoef i)) }

/-- Method `SetStartStop`: returns the members after the call (the return value
is always `asynSuccess`). -/
def SetStartStop (dev : Instrument) (st : drvGL820) (value : Int) : drvGL820 :=
  if value = 1 then
    { List.foldl (setChannel dev) st (List.range PORT_COUNT) with m_StartFlag := 1 }
  else
    { st with m_StartFlag := 0 }

/-- The conversion of `readTask` for a raw value `tmpData` other than the codes
`0xffff`, `0x7fff`, `0x7ffe` and `0x7ffd`:
`(td / intCoef) * decCoef` with `td = (double)((signed short)tmpData)`, for a
non-zero `intCoef`. -/
def convert (coef : CH_COEF) (tmpData : Nat) : ℚ :=
  let td : Int := (((tmpData : Int) + 2 ^ 15) % 2 ^ 16) - 2 ^ 15
  ((td : ℚ) / coef.intCoef) * coef.decCoef

/-- An instrument whose channel 1 (index 0) measures humidity, whose channel 2
is a DC channel of range 1V and whose other channels are off. -/
def dev_rh_dc : Instrument :=
  { inp := fun i =>
      if i = 0 then some ":AMP:CH1:INP RH".toList
      else if i = 1 then some ":AMP:CH2:INP DC".toList
      else some ":AMP:CH3:INP OFF".toList
    rang := fun _ => some ":AMP:CH2:RANG 1V".toList }

/-- Members with all coefficients 0 and empty strings. -/
def drv_zero : drvGL820 :=
  { m_ChCoef := fun _ => ⟨0, 0, [], []⟩, m_StartFlag := 0 }

end GL820

namespace Icv196

/-! ## Auxiliary facts on machine words -/

theorem toU16_lt (n : Nat) : toU16 n < 2 ^ 16 := Nat.mod_lt _ (by norm_num)

theorem toU16_of_lt {n : Nat} (h : n < 2 ^ 16) : toU16 n = n := Nat.mod_eq_of_lt h

theorem testBit_toU16 (n i : Nat) : (toU16 n).testBit i = (decide (i < 16) && n.testBit i) := by
  unfold toU16; exact Nat.testBit_mod_two_pow n 16 i

theorem testBit_toU32 (n i : Nat) : (toU32 n).testBit i = (decide (i < 32) && n.testBit i) := by
  unfold toU32; exact Nat.testBit_mod_two_pow n 32 i

theorem testBit_compl32 (m i : Nat) :
    (compl32 m).testBit i = (decide (i < 32) && !m.testBit i) := by
  have h : m % 2 ^ 32 < 2 ^ 32 := Nat.mod_lt _ (by norm_num)
  have e : compl32 m = 2 ^ 32 - (m % 2 ^ 32 + 1) := by unfold compl32; omega
  rw [e, Nat.testBit_two_pow_sub_succ h, Nat.testBit_mod_two_pow]
  by_cases hi : i < 32 <;> simp [hi]

/-- A non-zero word has a set bit, and conversely. -/
theorem ne_zero_iff_testBit (n : Nat) : n ≠ 0 ↔ ∃ i, n.testBit i = true := by
  constructor
  · exact Nat.ne_zero_implies_bit_true
  · rintro ⟨i, hi⟩ h
    rw [h, Nat.zero_testBit] at hi
    exact Bool.false_ne_true hi

theorem and_ne_zero_iff (a b : Nat) :
    a &&& b ≠ 0 ↔ ∃ i, a.testBit i = true ∧ b.testBit i = true := by
  rw [ne_zero_iff_testBit]
  simp only [Nat.testBit_and, Bool.and_eq_true]

/-- Bits of the direction mask, for shift counts that fit the 16 bit word. -/
theorem testBit_config_dir_mask (signal nobt : Int) (h0 : 0 ≤ signal) (h1 : 1 ≤ nobt)
    (h2 : signal + nobt ≤ 96) (g : Nat) :
    (config_dir_mask signal nobt).testBit g = true ↔
      (signal / 8 ≤ (g : Int) ∧ (g : Int) ≤ (signal + nobt - 1) / 8) := by
  unfold config_dir_mask
  simp only [testBit_toU16, Nat.testBit_shiftLeft, Nat.one_shiftLeft,
    Nat.testBit_two_pow_sub_one, Bool.and_eq_true, decide_eq_true_eq]
  rw [Int.tdiv_eq_ediv h0 (by decide), Int.tdiv_eq_ediv (by omega) (by decide)]
  omega

theorem config_dir_mask_lt (signal nobt : Int) (h0 : 0 ≤ signal) (h1 : 1 ≤ nobt)
    (h2 : signal + nobt ≤ 96) : config_dir_mask signal nobt < 2 ^ 12 := by
  apply Nat.lt_pow_two_of_testBit
  intro i hi
  rw [Bool.eq_false_iff]
  intro h
  rw [testBit_config_dir_mask signal nobt h0 h1 h2] at h
  omega

/-! ## Invariant of the direction state -/

theorem config_dir_mask_lt16 (signal nobt : Int) : config_dir_mask signal nobt < 2 ^ 16 :=
  toU16_lt _

theorem config_dir_of_conflict (st : DirState) (card : Nat) (signal nobt direction : Int)
    (hc : Conflict st card signal nobt direction) :
    config_dir st card signal nobt direction = (ERROR, st) := by
  unfold config_dir
  exact if_pos hc

/-- With 16 bit contents of `dirs[card]` and `mdirs[card]` the stores of
`config_dir` do not truncate. -/
theorem config_dir_of_consistent (st : DirState) (card : Nat) (signal nobt direction : Int)
    (hd : st.dirs card < 2 ^ 16) (hm : st.mdirs card < 2 ^ 16)
    (hc : ¬ Conflict st card signal nobt direction) :
    config_dir st card signal nobt direction =
      (OK, { dirs := if direction ≠ 0 then
                Function.update st.dirs card (st.dirs card ||| config_dir_mask signal nobt)
              else st.dirs,
             mdirs := Function.update st.mdirs card
                (st.mdirs card ||| config_dir_mask signal nobt) }) := by
  have e1 := toU16_of_lt (Nat.or_lt_two_pow hm (config_dir_mask_lt16 signal nobt))
  have e2 := toU16_of_lt (Nat.or_lt_two_pow hd (config_dir_mask_lt16 signal nobt))
  unfold Conflict at hc
  unfold config_dir
  simp only [e1, e2]
  rw [if_neg hc]
  by_cases hdir : direction ≠ 0
  · rw [if_pos hdir, if_pos hdir]
  · rw [if_neg hdir, if_neg hdir]

theorem config_dir_status (st : DirState) (card : Nat) (signal nobt direction : Int) :
    (config_dir st card signal nobt direction).1 = OK ↔
      ¬ Conflict st card signal nobt direction := by
  by_cases hc : Conflict st card signal nobt direction
  · rw [config_dir_of_conflict st card signal nobt direction hc]
    simp [hc, OK, ERROR]
  · have h : (config_dir st card signal nobt direction).1 = OK := by
      unfold Conflict at hc
      unfold config_dir
      simp only []
      rw [if_neg hc]
    simp [hc, h]

theorem DirInv.lt16 {st : DirState} (h : DirInv st) (card : Nat) :
    st.dirs card < 2 ^ 16 ∧ st.mdirs card < 2 ^ 16 := by
  have := h card
  omega

theorem DirInv_initial : DirInv DirState.initial := by
  intro card
  refine ⟨fun i hi => ?_, by simp [DirState.initial], by simp [DirState.initial]⟩
  simp [DirState.initial] at hi

theorem DirInv_step (st : DirState) (h : DirInv st) (card : Nat) (signal nobt direction : Int)
    (hv : ValidReq signal nobt direction) :
    DirInv (config_dir st card signal nobt direction).2 := by
  obtain ⟨h0, h1, h2, _⟩ := hv
  have hM := config_dir_mask_lt signal nobt h0 h1 h2
  by_cases hc : Conflict st card signal nobt direction
  · rw [config_dir_of_conflict st card signal nobt direction hc]
    exact h
  · rw [config_dir_of_consistent st card signal nobt direction (h.lt16 card).1 (h.lt16 card).2 hc]
    intro c
    obtain ⟨hs, hd, hm⟩ := h c
    by_cases hdir : direction ≠ 0 <;> by_cases hcc : c = card
    · subst hcc
      simp only [if_pos hdir, Function.update_same, Nat.testBit_or, Bool.or_eq_true]
      exact ⟨fun i hi => hi.imp (hs i) id, Nat.or_lt_two_pow hd hM, Nat.or_lt_two_pow hm hM⟩
    · simp only [if_pos hdir, Function.update_noteq hcc]
      exact ⟨hs, hd, hm⟩
    · subst hcc
      simp only [if_neg hdir, Function.update_same, Nat.testBit_or, Bool.or_eq_true]
      exact ⟨fun i hi => Or.inl (hs i hi), hd, Nat.or_lt_two_pow hm hM⟩
    · simp only [if_neg hdir, Function.update_noteq hcc]
      exact ⟨hs, hd, hm⟩

/-- Every reachable direction state is well formed. -/
theorem Reachable.inv {st : DirState} (h : Reachable st) : DirInv st := by
  induction h with
  | init => exact DirInv_initial
  | step st card signal nobt direction _ hv ih => exact DirInv_step st ih card signal nobt direction hv

theorem or_and_self_right (a b : Nat) : (a ||| b) &&& b = b := by
  apply Nat.eq_of_testBit_eq
  intro i
  rw [Nat.testBit_and, Nat.testBit_or]
  cases a.testBit i <;> cases b.testBit i <;> rfl

theorem or_or_self_right (a b : Nat) : (a ||| b) ||| b = a ||| b := by
  apply Nat.eq_of_testBit_eq
  intro i
  rw [Nat.testBit_or, Nat.testBit_or]
  cases a.testBit i <;> cases b.testBit i <;> rfl

/-- In a well-formed state an accepted request for input finds no output group
inside its mask. -/
theorem dirs_and_mask_of_consistent_input (st : DirState) (h : DirInv st) (card : Nat)
    (signal nobt : Int) (hc : ¬ Conflict st card signal nobt 0) :
    st.dirs card &&& config_dir_mask signal nobt = 0 := by
  by_contra hne
  apply hc
  obtain ⟨i, hi1, hi2⟩ := (and_ne_zero_iff _ _).1 hne
  refine ⟨(and_ne_zero_iff _ _).2 ⟨i, (h card).1 i hi1, hi2⟩, ?_⟩
  rw [if_pos hne]
  decide

theorem st_mixed_reachable : Reachable st_mixed :=
  Reachable.step _ 0 24 1 1 (Reachable.step _ 0 16 1 0 Reachable.init (by decide)) (by decide)

theorem st_out16_reachable : Reachable st_out16 :=
  Reachable.step _ 0 16 16 1 (Reachable.step _ 0 20 8 1 Reachable.init (by decide)) (by decide)

/-! ## The direction mask -/

/-- C5: for every `signal >= 0` and `nobt >= 1` with `signal + nobt <= 96`, the
16 bit mask computed by `config_dir` has exactly the bits `g` with
`floor(signal/8) <= g <= floor((signal+nobt-1)/8)` set, so it is below `2^12`;
for signal 7 and `nobt` 2 the mask is `0b11`. -/
theorem config_dir_mask_spec :
    (∀ signal nobt : Int, 0 ≤ signal → 1 ≤ nobt → signal + nobt ≤ 96 →
      (∀ g : Nat, (config_dir_mask signal nobt).testBit g = true ↔
        (signal / 8 ≤ (g : Int) ∧ (g : Int) ≤ (signal + nobt - 1) / 8)) ∧
      config_dir_mask signal nobt < 2 ^ 12) ∧
    config_dir_mask 7 2 = 0b11 := by
  refine ⟨fun signal nobt h0 h1 h2 => ⟨fun g => ?_, ?_⟩, by decide⟩
  · exact testBit_config_dir_mask signal nobt h0 h1 h2 g
  · exact config_dir_mask_lt signal nobt h0 h1 h2

/-- Instance of C5 at signal 20, width 8: exactly groups 2 and 3. -/
theorem config_dir_mask_spec_witness :
    (∀ g : Nat, (config_dir_mask 20 8).testBit g = true ↔
        ((20 : Int) / 8 ≤ (g : Int) ∧ (g : Int) ≤ ((20 : Int) + 8 - 1) / 8)) ∧
      config_dir_mask 20 8 < 2 ^ 12 :=
  config_dir_mask_spec.1 20 8 (by decide) (by decide) (by decide)

/-! ## Direction configuration -/

/-- C1 (evaluation at the failing input): on board 0, after a bi record on signal
16 (group 2 input) and a bo record on signal 24 (group 3 output), the request of
an mbbo record on signal 16 with 16 bits (groups 2 and 3, output) is valid, group
2 is inside its mask, already configured, and stored as input, yet `config_dir`
returns `OK`. -/
theorem config_dir_accepts_mixed_groups :
    Reachable st_mixed ∧ ValidReq 16 16 1 ∧
      (config_dir_mask 16 16).testBit 2 = true ∧
      (st_mixed.mdirs 0).testBit 2 = true ∧
      (st_mixed.dirs 0).testBit 2 = false ∧
      (config_dir st_mixed 0 16 16 1).1 = OK :=
  ⟨st_mixed_reachable, by decide, by decide, by decide, by decide, by decide⟩

/-- C2 (evaluation at the failing input): in the same reachable state group 2 of
board 0 is configured with direction bit 0, and after the accepted `config_dir`
call for signal 16, 16 bits, output its direction bit is 1. -/
theorem config_dir_flips_configured_group :
    Reachable st_mixed ∧
      (st_mixed.mdirs 0).testBit 2 = true ∧
      (st_mixed.dirs 0).testBit 2 = false ∧
      ((config_dir st_mixed 0 16 16 1).2.dirs 0).testBit 2 = true :=
  ⟨st_mixed_reachable, by decide, by decide, by decide⟩

/-- C3: in every reachable direction state and for every valid request, if every
already-configured group inside the request's mask has the requested direction
(also when none is configured), `config_dir` returns `OK`.  From the empty state,
(signal 20, width 8, output) succeeds, then (signal 16, width 16, output)
succeeds, then (signal 24, width 8, input) fails. -/
theorem config_dir_consistent_ok :
    (∀ (st : DirState) (card : Nat) (signal nobt direction : Int),
      Reachable st → ValidReq signal nobt direction →
      (∀ g : Nat, (config_dir_mask signal nobt).testBit g = true →
        (st.mdirs card).testBit g = true →
        (st.dirs card).testBit g = decide (direction = 1)) →
      (config_dir st card signal nobt direction).1 = OK) ∧
    ((config_dir DirState.initial 0 20 8 1).1 = OK ∧
      (config_dir st_out20 0 16 16 1).1 = OK ∧
      (config_dir st_out16 0 24 8 0).1 = ERROR) := by
  refine ⟨?_, by decide, by decide, by decide⟩
  intro st card signal nobt direction hr hv hcons
  rw [config_dir_status]
  rintro ⟨h1, h2⟩
  obtain ⟨i, hi1, hi2⟩ := (and_ne_zero_iff _ _).1 h1
  rcases hv.2.2.2 with hd | hd
  · -- input requested: some group of the mask is output, hence configured
    subst hd
    have hne : st.dirs card &&& config_dir_mask signal nobt ≠ 0 := by
      intro h0
      rw [if_neg (not_not.2 h0)] at h2
      exact h2 rfl
    obtain ⟨j, hj1, hj2⟩ := (and_ne_zero_iff _ _).1 hne
    have := hcons j hj2 ((hr.inv card).1 j hj1)
    rw [hj1] at this
    exact absurd this (by decide)
  · -- output requested: the configured group `i` of the mask is output
    subst hd
    have hi3 := hcons i hi2 hi1
    have hne : st.dirs card &&& config_dir_mask signal nobt ≠ 0 :=
      (and_ne_zero_iff _ _).2 ⟨i, by simpa using hi3, hi2⟩
    rw [if_pos hne] at h2
    exact h2 rfl

/-- Instance of C3: in the reachable state with groups 2 and 3 of board 0 output,
the valid request (signal 24, width 8, output) is consistent and succeeds. -/
theorem config_dir_consistent_ok_witness :
    (config_dir st_out16 0 24 8 1).1 = OK :=
  config_dir_consistent_ok.1 st_out16 0 24 8 1 st_out16_reachable (by decide)
    (fun g hg _ => by
      have h3 : g = 3 := by
        have := (testBit_config_dir_mask 24 8 (by decide) (by decide) (by decide) g).1 hg
        omega
      subst h3
      decide)

/-- C4: `config_dir` is idempotent: in every reachable direction state and for
every request with `direction` 0 or 1 (whatever `signal` and `nobt`), if
`config_dir` returns `OK` then the immediately repeated identical call returns
`OK` too and leaves `dirs` and `mdirs` exactly as the first call left them. -/
theorem config_dir_idempotent (st : DirState) (card : Nat) (signal nobt direction : Int)
    (hr : Reachable st) (hdir : direction = 0 ∨ direction = 1)
    (hok : (config_dir st card signal nobt direction).1 = OK) :
    config_dir (config_dir st card signal nobt direction).2 card signal nobt direction =
      (OK, (config_dir st card signal nobt direction).2) := by
  have hinv := hr.inv
  have hc := (config_dir_status st card signal nobt direction).1 hok
  have hM := config_dir_mask_lt16 signal nobt
  have h16 := hinv.lt16 card
  rw [config_dir_of_consistent st card signal nobt direction h16.1 h16.2 hc]
  rcases hdir with hd | hd
  · subst hd
    have hz := dirs_and_mask_of_consistent_input st hinv card signal nobt hc
    simp only [ne_eq, not_true_eq_false, if_false]
    rw [config_dir_of_consistent]
    · simp only [ne_eq, not_true_eq_false, if_false, Function.update_same,
        or_or_self_right, Function.update_idem]
    · exact h16.1
    · simp only [Function.update_same]
      exact Nat.or_lt_two_pow h16.2 hM
    · rintro ⟨_, h2⟩
      simp only [hz, ne_eq, not_true_eq_false, if_false] at h2
  · subst hd
    simp only [ne_eq, one_ne_zero, not_false_eq_true, if_true]
    rw [config_dir_of_consistent]
    · simp only [ne_eq, one_ne_zero, not_false_eq_true, if_true, Function.update_same,
        or_or_self_right, Function.update_idem]
    · simp only [Function.update_same]
      exact Nat.or_lt_two_pow h16.1 hM
    · simp only [Function.update_same]
      exact Nat.or_lt_two_pow h16.2 hM
    · rintro ⟨h1, h2⟩
      simp only [Function.update_same, or_and_self_right] at h1 h2
      rw [if_pos h1] at h2
      exact h2 rfl

/-- Instance of C4: with groups 2 and 3 of board 0 output, the accepted request
(signal 24, width 8, output) is accepted again and changes nothing more. -/
theorem config_dir_idempotent_witness :
    config_dir (config_dir st_out16 0 24 8 1).2 0 24 8 1 =
      (OK, (config_dir st_out16 0 24 8 1).2) :=
  config_dir_idempotent st_out16 0 24 8 1 st_out16_reachable (by decide) (by decide)

/-- C6: in every reachable direction state and for every valid request on which
`config_dir` returns `OK`: afterwards `mdirs[card]` is the old `mdirs[card]` OR
the mask; every `dirs[card]` bit inside the mask equals the requested direction
(1 for output, 0 for input); every `dirs[card]` bit outside the mask is
unchanged; `dirs` and `mdirs` of any other board are unchanged. -/
theorem config_dir_ok_effect (st : DirState) (card : Nat) (signal nobt direction : Int)
    (hr : Reachable st) (hv : ValidReq signal nobt direction)
    (hok : (config_dir st card signal nobt direction).1 = OK) :
    (config_dir st card signal nobt direction).2.mdirs card =
        st.mdirs card ||| config_dir_mask signal nobt ∧
      (∀ g : Nat, (config_dir_mask signal nobt).testBit g = true →
        ((config_dir st card signal nobt direction).2.dirs card).testBit g =
          decide (direction = 1)) ∧
      (∀ g : Nat, (config_dir_mask signal nobt).testBit g = false →
        ((config_dir st card signal nobt direction).2.dirs card).testBit g =
          (st.dirs card).testBit g) ∧
      (∀ c : Nat, c ≠ card →
        (config_dir st card signal nobt direction).2.dirs c = st.dirs c ∧
        (config_dir st card signal nobt direction).2.mdirs c = st.mdirs c) := by
  have hinv := hr.inv
  have hc := (config_dir_status st card signal nobt direction).1 hok
  have h16 := hinv.lt16 card
  rw [config_dir_of_consistent st card signal nobt direction h16.1 h16.2 hc]
  rcases hv.2.2.2 with hd | hd
  · subst hd
    have hz := dirs_and_mask_of_consistent_input st hinv card signal nobt hc
    simp only [ne_eq, not_true_eq_false, if_false, Function.update_same]
    refine ⟨trivial, fun g hg => ?_, fun g _ => trivial, fun c hcc => ?_⟩
    · have : (st.dirs card &&& config_dir_mask signal nobt).testBit g = false := by
        rw [hz, Nat.zero_testBit]
      rw [Nat.testBit_and, hg, Bool.and_true] at this
      rw [this]
      decide
    · exact ⟨trivial, Function.update_noteq hcc _ _⟩
  · subst hd
    simp only [ne_eq, one_ne_zero, not_false_eq_true, if_true, Function.update_same]
    refine ⟨trivial, fun g hg => ?_, fun g hg => ?_, fun c hcc => ?_⟩
    · rw [Nat.testBit_or, hg, Bool.or_true]
      decide
    · rw [Nat.testBit_or, hg, Bool.or_false]
    · exact ⟨Function.update_noteq hcc _ _, Function.update_noteq hcc _ _⟩

/-- Instance of C6: the accepted request (signal 24, width 8, output) in the
reachable state with groups 2 and 3 of board 0 output. -/
theorem config_dir_ok_effect_witness :
    (config_dir st_out16 0 24 8 1).2.mdirs 0 = st_out16.mdirs 0 ||| config_dir_mask 24 8 ∧
      (∀ g : Nat, (config_dir_mask 24 8).testBit g = true →
        ((config_dir st_out16 0 24 8 1).2.dirs 0).testBit g = decide ((1 : Int) = 1)) ∧
      (∀ g : Nat, (config_dir_mask 24 8).testBit g = false →
        ((config_dir st_out16 0 24 8 1).2.dirs 0).testBit g = (st_out16.dirs 0).testBit g) ∧
      (∀ c : Nat, c ≠ 0 →
        (config_dir st_out16 0 24 8 1).2.dirs c = st_out16.dirs c ∧
        (config_dir st_out16 0 24 8 1).2.mdirs c = st_out16.mdirs c) :=
  config_dir_ok_effect st_out16 0 24 8 1 st_out16_reachable (by decide) (by decide)

/-! ## Bit access: auxiliary facts -/

theorem testBit_of_lt_two_pow {x n i : Nat} (h : x < 2 ^ n) (hi : n ≤ i) :
    x.testBit i = false :=
  Nat.testBit_lt_two_pow (lt_of_lt_of_le h (Nat.pow_le_pow_right (by norm_num) hi))

theorem testBit_one_eq (j : Nat) : Nat.testBit 1 j = decide (j = 0) := by
  rw [Bool.eq_iff_iff, decide_eq_true_iff]
  exact Nat.testBit_one_eq_true_iff_self_eq_zero

theorem bit_mask_eq (b : Nat) (hb : b < 16) : toU16 (1 <<< b) = 2 ^ b := by
  rw [Nat.one_shiftLeft]
  exact toU16_of_lt (Nat.pow_lt_pow_right (by norm_num) hb)

theorem and_two_pow_eq (x b : Nat) : x &&& 2 ^ b = if x.testBit b = true then 2 ^ b else 0 := by
  rw [Nat.and_two_pow]
  cases x.testBit b <;> simp

theorem and_two_pow_eq_shift (x b : Nat) : x &&& 2 ^ b = ((x >>> b) &&& 1) <<< b := by
  apply Nat.eq_of_testBit_eq
  intro i
  rw [Nat.testBit_and, Nat.testBit_two_pow, Nat.testBit_shiftLeft, Nat.testBit_and,
    Nat.testBit_shiftRight, testBit_one_eq]
  by_cases hbi : b = i
  · subst hbi
    simp
  · by_cases hge : i ≥ b
    · have h1 : ¬ (i - b = 0) := by omega
      simp [hbi, h1]
    · simp [hbi, hge]

theorem testBit_set_bit (x b i : Nat) :
    (toU16 (x ||| 2 ^ b)).testBit i = (decide (i < 16) && (x.testBit i || decide (b = i))) := by
  rw [testBit_toU16, Nat.testBit_or, Nat.testBit_two_pow]

theorem testBit_clear_bit (x b i : Nat) :
    (toU16 (x &&& compl32 (2 ^ b))).testBit i =
      (decide (i < 16) && (x.testBit i && !decide (b = i))) := by
  rw [testBit_toU16, Nat.testBit_and, testBit_compl32, Nat.testBit_two_pow]
  by_cases h : i < 16
  · have h32 : i < 32 := by omega
    simp [h, h32]
  · simp [h]

theorem setPort_ports_same (hw : Boards) (card port v : Nat) :
    ((setPort hw card port v) card).ports port = v := by
  simp [setPort]

theorem setPort_ports_ne (hw : Boards) (card port v q : Nat) (h : q ≠ port) :
    ((setPort hw card port v) card).ports q = (hw card).ports q := by
  simp [setPort, Function.update_noteq h]

theorem setPort_other_card (hw : Boards) (card port v c : Nat) (h : c ≠ card) :
    (setPort hw card port v) c = hw c := by
  simp [setPort, Function.update_noteq h]

theorem read_bit_eq (hw : Boards) (card : Nat) (signal : Int) (h0 : 0 ≤ signal) :
    read_bit hw card signal =
      (OK, (hw card).ports (signal / 16).toNat &&& 2 ^ (signal % 16).toNat, hw) := by
  unfold read_bit
  simp only []
  rw [Int.tdiv_eq_ediv h0 (by decide), Int.tmod_eq_emod h0 (by decide),
    bit_mask_eq _ (by omega)]

theorem write_bit_eq (hw : Boards) (card : Nat) (signal : Int) (value : Nat)
    (h0 : 0 ≤ signal) :
    write_bit hw card signal value =
      (OK, setPort hw card (signal / 16).toNat
        (if value ≠ 0 then
          toU16 ((hw card).ports (signal / 16).toNat ||| 2 ^ (signal % 16).toNat)
        else
          toU16 ((hw card).ports (signal / 16).toNat &&& compl32 (2 ^ (signal % 16).toNat)))) := by
  unfold write_bit
  simp only []
  rw [Int.tdiv_eq_ediv h0 (by decide), Int.tmod_eq_emod h0 (by decide),
    bit_mask_eq _ (by omega)]
  by_cases hv : value ≠ 0
  · rw [if_pos hv, if_pos hv]
  · rw [if_neg hv, if_neg hv]

/-- Bit `i` (below 16) of port `q` after `write_bit`. -/
theorem write_bit_testBit (hw : Boards) (card : Nat) (signal : Int) (value : Nat)
    (h0 : 0 ≤ signal) (q i : Nat) (hi : i < 16) :
    (((write_bit hw card signal value).2 card).ports q).testBit i =
      if q = (signal / 16).toNat ∧ i = (signal % 16).toNat then decide (value ≠ 0)
      else ((hw card).ports q).testBit i := by
  rw [write_bit_eq hw card signal value h0]
  by_cases hq : q = (signal / 16).toNat
  · subst hq
    simp only [setPort_ports_same, true_and]
    by_cases hv : value ≠ 0
    · rw [if_pos hv, testBit_set_bit]
      by_cases hb : i = (signal % 16).toNat
      · simp [hb, hv, hi]
        omega
      · simp [hb, hi, Ne.symm hb]
    · rw [if_neg hv, testBit_clear_bit]
      by_cases hb : i = (signal % 16).toNat
      · simp [hb, hv]
      · simp [hb, hi, Ne.symm hb]
  · simp only [setPort_ports_ne _ _ _ _ _ hq, hq, false_and, if_false]

/-! ## Bit access -/

/-- C7 (counterexample): with port 0 of board 0 holding `0x0008`, `read_bit` for
signal 3 delivers 8, which is neither `(ports[0] >> 3) & 1 = 1` nor 0 or 1. -/
theorem read_bit_not_zero_or_one :
    (0 : Int) ≤ 3 ∧ (3 : Int) ≤ 95 ∧
      (read_bit hw_bit3 0 3).2.1 = 8 ∧
      (((hw_bit3 0).ports ((3 : Int) / 16).toNat >>> ((3 : Int) % 16).toNat) &&& 1) = 1 ∧
      (read_bit hw_bit3 0 3).2.1 ≠
        (((hw_bit3 0).ports ((3 : Int) / 16).toNat >>> ((3 : Int) % 16).toNat) &&& 1) ∧
      ¬ ((read_bit hw_bit3 0 3).2.1 = 0 ∨ (read_bit hw_bit3 0 3).2.1 = 1) := by
  decide

/-- C7 (amended): for every signal in [0,95] and every content of the port
registers, `read_bit` returns `OK` and delivers the addressed bit in place:
`ports[signal/16] & (1 << (signal%16))`, which is
`((ports[signal/16] >> (signal%16)) & 1) << (signal%16)`, i.e. exactly 0 or
`2^(signal%16)`. -/
theorem read_bit_masked (hw : Boards) (card : Nat) (signal : Int) (h0 : 0 ≤ signal)
    (_h1 : signal ≤ 95) :
    (read_bit hw card signal).1 = OK ∧
      (read_bit hw card signal).2.1 =
        (hw card).ports (signal / 16).toNat &&& (1 <<< (signal % 16).toNat) ∧
      (read_bit hw card signal).2.1 =
        (((hw card).ports (signal / 16).toNat >>> (signal % 16).toNat) &&& 1)
          <<< (signal % 16).toNat ∧
      ((read_bit hw card signal).2.1 = 0 ∨
        (read_bit hw card signal).2.1 = 2 ^ (signal % 16).toNat) := by
  rw [read_bit_eq hw card signal h0]
  refine ⟨rfl, ?_, and_two_pow_eq_shift _ _, ?_⟩
  · rw [Nat.one_shiftLeft]
  · simp only []
    rw [and_two_pow_eq]
    by_cases hb : ((hw card).ports (signal / 16).toNat).testBit (signal % 16).toNat = true
    · exact Or.inr (if_pos hb)
    · exact Or.inl (if_neg hb)

/-- Instance of C7 (amended) at signal 3 of board 0 with port 0 holding `0x0008`. -/
theorem read_bit_masked_witness :
    (read_bit hw_bit3 0 3).1 = OK ∧
      (read_bit hw_bit3 0 3).2.1 =
        (hw_bit3 0).ports ((3 : Int) / 16).toNat &&& (1 <<< ((3 : Int) % 16).toNat) ∧
      (read_bit hw_bit3 0 3).2.1 =
        (((hw_bit3 0).ports ((3 : Int) / 16).toNat >>> ((3 : Int) % 16).toNat) &&& 1)
          <<< ((3 : Int) % 16).toNat ∧
      ((read_bit hw_bit3 0 3).2.1 = 0 ∨
        (read_bit hw_bit3 0 3).2.1 = 2 ^ ((3 : Int) % 16).toNat) :=
  read_bit_masked hw_bit3 0 3 (by decide) (by decide)

/-- The value `read_bit` delivers, by the addressed bit of the port. -/
theorem read_bit_val (hw : Boards) (card : Nat) (signal : Int) (h0 : 0 ≤ signal) :
    (read_bit hw card signal).2.1 =
      if ((hw card).ports (signal / 16).toNat).testBit (signal % 16).toNat = true then
        2 ^ (signal % 16).toNat
      else 0 := by
  rw [read_bit_eq hw card signal h0]
  exact and_two_pow_eq _ _

/-- C8: point-update law for single bits.  For all signals `s`, `s'` in [0,95],
every value `v` and every port-register content, `write_bit(card, s, v)` returns
`OK`; afterwards `read_bit(card, s')` is non-zero iff `v != 0` when `s' = s`, and
gives the same result as before the write when `s' != s`; the other ports of the
board and the other boards are untouched. -/
theorem write_bit_read_bit (hw : Boards) (card : Nat) (s s' : Int) (v : Nat)
    (hs0 : 0 ≤ s) (_hs1 : s ≤ 95) (hs0' : 0 ≤ s') (_hs1' : s' ≤ 95) :
    (write_bit hw card s v).1 = OK ∧
      (s' = s → ((read_bit (write_bit hw card s v).2 card s').2.1 ≠ 0 ↔ v ≠ 0)) ∧
      (s' ≠ s → (read_bit (write_bit hw card s v).2 card s').2.1 = (read_bit hw card s').2.1) ∧
      (∀ q : Nat, q ≠ (s / 16).toNat →
        ((write_bit hw card s v).2 card).ports q = (hw card).ports q) ∧
      (∀ c : Nat, c ≠ card → (write_bit hw card s v).2 c = hw c) := by
  have hb' : (s' % 16).toNat < 16 := by omega
  refine ⟨?_, fun he => ?_, fun hne => ?_, fun q hq => ?_, fun c hc => ?_⟩
  · rw [write_bit_eq hw card s v hs0]
  · subst he
    rw [read_bit_val _ card s' hs0', write_bit_testBit hw card s' v hs0' _ _ hb',
      if_pos (show (s' / 16).toNat = (s' / 16).toNat ∧ (s' % 16).toNat = (s' % 16).toNat
        from ⟨rfl, rfl⟩)]
    by_cases hv : v = 0
    · simp [hv]
    · simp [hv]
  · rw [read_bit_val _ card s' hs0', read_bit_val hw card s' hs0',
      write_bit_testBit hw card s v hs0 _ _ hb']
    have hdiff : ¬ ((s' / 16).toNat = (s / 16).toNat ∧ (s' % 16).toNat = (s % 16).toNat) := by
      omega
    rw [if_neg hdiff]
  · rw [write_bit_eq hw card s v hs0]
    exact setPort_ports_ne _ _ _ _ _ hq
  · rw [write_bit_eq hw card s v hs0]
    exact setPort_other_card _ _ _ _ _ hc

/-- Instance of C8: writing 0 to signal 3 of board 0 (port 0 holding `0x0008`)
and reading signal 3 back. -/
theorem write_bit_read_bit_witness :
    (write_bit hw_bit3 0 3 0).1 = OK ∧
      ((3 : Int) = 3 → ((read_bit (write_bit hw_bit3 0 3 0).2 0 3).2.1 ≠ 0 ↔ (0 : Nat) ≠ 0)) ∧
      ((3 : Int) ≠ 3 →
        (read_bit (write_bit hw_bit3 0 3 0).2 0 3).2.1 = (read_bit hw_bit3 0 3).2.1) ∧
      (∀ q : Nat, q ≠ ((3 : Int) / 16).toNat →
        ((write_bit hw_bit3 0 3 0).2 0).ports q = (hw_bit3 0).ports q) ∧
      (∀ c : Nat, c ≠ 0 → (write_bit hw_bit3 0 3 0).2 c = hw_bit3 c) :=
  write_bit_read_bit hw_bit3 0 3 3 0 (by decide) (by decide) (by decide) (by decide)

/-! ## Pattern access: auxiliary facts -/

theorem toU32_lt (n : Nat) : toU32 n < 2 ^ 32 := Nat.mod_lt _ (by norm_num)

theorem toU32_and (x mask : Nat) (hm : mask < 2 ^ 32) : toU32 x &&& mask = x &&& mask := by
  apply Nat.eq_of_testBit_eq
  intro i
  rw [Nat.testBit_and, Nat.testBit_and, testBit_toU32]
  by_cases hi : i < 32
  · simp [hi]
  · rw [testBit_of_lt_two_pow hm (by omega), Bool.and_false, Bool.and_false]

/-- Reading with the written mask sees the written bits. -/
theorem merge_and_same (work value mask : Nat) (hm : mask < 2 ^ 32) :
    toU32 ((work &&& compl32 mask) ||| (value &&& mask)) &&& mask = value &&& mask := by
  rw [toU32_and _ _ hm]
  apply Nat.eq_of_testBit_eq
  intro i
  rw [Nat.testBit_and, Nat.testBit_or, Nat.testBit_and, Nat.testBit_and, testBit_compl32]
  cases mask.testBit i <;> simp

/-- Reading with a disjoint mask sees the old bits. -/
theorem merge_and_disjoint (work value mask mask' : Nat) (hw : work < 2 ^ 32)
    (hdis : mask' &&& mask = 0) :
    toU32 ((work &&& compl32 mask) ||| (value &&& mask)) &&& mask' = work &&& mask' := by
  apply Nat.eq_of_testBit_eq
  intro i
  have hd : (mask' &&& mask).testBit i = false := by rw [hdis, Nat.zero_testBit]
  rw [Nat.testBit_and] at hd
  rw [Nat.testBit_and, testBit_toU32, Nat.testBit_or, Nat.testBit_and, Nat.testBit_and,
    testBit_compl32, Nat.testBit_and]
  by_cases hi : i < 32
  · cases hm' : mask'.testBit i
    · simp
    · rw [hm'] at hd
      have hmf : mask.testBit i = false := by simpa using hd
      simp [hi, hmf]
  · rw [testBit_of_lt_two_pow hw (by omega)]
    simp [hi]

theorem hi_word_eq (w : Nat) (hw : w < 2 ^ 32) :
    toU16 ((w &&& 0xffff0000) >>> 16) = w / 2 ^ 16 := by
  have hc : (0xffff0000 : Nat) = (2 ^ 16 - 1) <<< 16 := by decide
  apply Nat.eq_of_testBit_eq
  intro i
  rw [testBit_toU16, Nat.testBit_shiftRight, Nat.testBit_and, hc, Nat.testBit_shiftLeft,
    Nat.testBit_two_pow_sub_one, ← Nat.shiftRight_eq_div_pow, Nat.testBit_shiftRight]
  by_cases hi : i < 16
  · have h1 : 16 + i ≥ 16 := by omega
    have h2 : 16 + i - 16 < 16 := by omega
    simp [hi, h1, h2]
  · rw [testBit_of_lt_two_pow hw (by omega)]
    simp [hi]

theorem lo_word_eq (w : Nat) : toU16 (w &&& 0x0000ffff) = w % 2 ^ 16 := by
  have hc : (0x0000ffff : Nat) = 2 ^ 16 - 1 := by decide
  rw [hc, Nat.and_pow_two_sub_one_eq_mod]
  exact toU16_of_lt (Nat.mod_lt _ (by norm_num))

/-- The two half words `write_pattern` stores make up the word again. -/
theorem recompose (w : Nat) (hw : w < 2 ^ 32) :
    toU32 ((toU16 ((w &&& 0xffff0000) >>> 16) <<< 16) + toU16 (w &&& 0x0000ffff)) = w := by
  rw [hi_word_eq w hw, lo_word_eq, Nat.shiftLeft_eq, Nat.div_add_mod']
  exact Nat.mod_eq_of_lt hw

theorem pattern_work_lt (hw : Boards) (card : Nat) (port : Int) :
    pattern_work hw card port < 2 ^ 32 := by
  unfold pattern_work
  split_ifs <;> exact toU32_lt _

theorem pattern_work_low (hw : Boards) (card : Nat) (signal : Int) (h0 : 0 ≤ signal)
    (hp : signal / 16 < 5) :
    pattern_work hw card (signal.tdiv 16) =
      toU32 (((hw card).ports ((signal / 16).toNat + 1) <<< 16) +
        (hw card).ports (signal / 16).toNat) := by
  unfold pattern_work
  rw [Int.tdiv_eq_ediv h0 (by decide), if_pos hp]
  have e : (signal / 16 + 1).toNat = (signal / 16).toNat + 1 := by omega
  rw [e]

theorem pattern_work_top (hw : Boards) (card : Nat) (signal : Int) (h0 : 0 ≤ signal)
    (hp : signal / 16 = 5) :
    pattern_work hw card (signal.tdiv 16) = toU32 ((hw card).ports 5) := by
  unfold pattern_work
  rw [Int.tdiv_eq_ediv h0 (by decide), hp, if_neg (by decide)]
  rfl

/-! ## Pattern access -/

/-- C9: for every signal in [0,95], every 32 bit mask and every port-register
content, `read_pattern` returns `OK`, changes no register, and delivers
`(ports[p+1] * 2^16 + ports[p]) AND mask` when `p = signal/16 < 5`, and
`ports[5] AND mask` when `p = 5`. -/
theorem read_pattern_value (hw : Boards) (card : Nat) (signal : Int) (mask : Nat)
    (h0 : 0 ≤ signal) (_h1 : signal ≤ 95) (hm : mask < 2 ^ 32) :
    (read_pattern hw card signal mask).1 = OK ∧
      (read_pattern hw card signal mask).2.2 = hw ∧
      (signal / 16 < 5 →
        (read_pattern hw card signal mask).2.1 =
          ((hw card).ports ((signal / 16).toNat + 1) * 2 ^ 16 +
            (hw card).ports (signal / 16).toNat) &&& mask) ∧
      (signal / 16 = 5 →
        (read_pattern hw card signal mask).2.1 = (hw card).ports 5 &&& mask) := by
  refine ⟨rfl, rfl, fun hp => ?_, fun hp => ?_⟩
  · show pattern_work hw card (signal.tdiv 16) &&& mask = _
    rw [pattern_work_low hw card signal h0 hp, toU32_and _ _ hm, Nat.shiftLeft_eq]
  · show pattern_work hw card (signal.tdiv 16) &&& mask = _
    rw [pattern_work_top hw card signal h0 hp, toU32_and _ _ hm]

/-- Instance of C9 at signal 0 of board 0 (port 0 holding `0x0008`) with mask
`0xFFFFFFFF`. -/
theorem read_pattern_value_witness :
    (read_pattern hw_bit3 0 0 0xFFFFFFFF).1 = OK ∧
      (read_pattern hw_bit3 0 0 0xFFFFFFFF).2.2 = hw_bit3 ∧
      ((0 : Int) / 16 < 5 →
        (read_pattern hw_bit3 0 0 0xFFFFFFFF).2.1 =
          ((hw_bit3 0).ports (((0 : Int) / 16).toNat + 1) * 2 ^ 16 +
            (hw_bit3 0).ports ((0 : Int) / 16).toNat) &&& 0xFFFFFFFF) ∧
      ((0 : Int) / 16 = 5 →
        (read_pattern hw_bit3 0 0 0xFFFFFFFF).2.1 = (hw_bit3 0).ports 5 &&& 0xFFFFFFFF) :=
  read_pattern_value hw_bit3 0 0 0xFFFFFFFF (by decide) (by decide) (by decide)

/-- The registers after `write_pattern` on a signal of ports 0 to 4. -/
theorem write_pattern_low (hw : Boards) (card : Nat) (signal : Int) (mask value : Nat)
    (h0 : 0 ≤ signal) (hp : signal / 16 < 5) :
    write_pattern hw card signal mask value =
      (OK, setPort
        (setPort hw card (signal / 16).toNat
          (toU16 (toU32 ((pattern_work hw card (signal.tdiv 16) &&& compl32 mask) |||
            (value &&& mask)) &&& 0x0000ffff)))
        card ((signal / 16).toNat + 1)
          (toU16 ((toU32 ((pattern_work hw card (signal.tdiv 16) &&& compl32 mask) |||
            (value &&& mask)) &&& 0xffff0000) >>> 16))) := by
  have hp' : signal.tdiv 16 < 5 := by rw [Int.tdiv_eq_ediv h0 (by decide)]; exact hp
  have e : (signal.tdiv 16 + 1).toNat = (signal / 16).toNat + 1 := by
    rw [Int.tdiv_eq_ediv h0 (by decide)]; omega
  have e' : (signal.tdiv 16).toNat = (signal / 16).toNat := by
    rw [Int.tdiv_eq_ediv h0 (by decide)]
  unfold write_pattern
  simp only []
  rw [if_pos hp', e, e']

/-- The word `read_pattern` composes after `write_pattern` is the word
`write_pattern` computed. -/
theorem pattern_work_write_pattern (hw : Boards) (card : Nat) (signal : Int) (mask value : Nat)
    (h0 : 0 ≤ signal) (hp : signal / 16 < 5) :
    pattern_work (write_pattern hw card signal mask value).2 card (signal.tdiv 16) =
      toU32 ((pattern_work hw card (signal.tdiv 16) &&& compl32 mask) ||| (value &&& mask)) := by
  rw [pattern_work_low _ card signal h0 hp, write_pattern_low hw card signal mask value h0 hp]
  simp only []
  rw [setPort_ports_same, setPort_ports_ne _ _ _ _ _ (Nat.ne_of_lt (Nat.lt_succ_self _)),
    setPort_ports_same]
  exact recompose _ (toU32_lt _)

/-- C10: for every signal with `signal/16 < 5`, every 32 bit mask and value and
every port-register content: after `write_pattern(card, signal, mask, value)`
(which returns `OK`), `read_pattern` with the same mask delivers
`value AND mask`, `read_pattern` with any mask disjoint from it delivers what it
delivered before the write, and the ports outside the addressed pair are
unchanged. -/
theorem write_pattern_read_pattern (hw : Boards) (card : Nat) (signal : Int)
    (mask value : Nat) (h0 : 0 ≤ signal) (hp : signal / 16 < 5) (hm : mask < 2 ^ 32) :
    (write_pattern hw card signal mask value).1 = OK ∧
      (read_pattern (write_pattern hw card signal mask value).2 card signal mask).2.1 =
        value &&& mask ∧
      (∀ mask' : Nat, mask' &&& mask = 0 →
        (read_pattern (write_pattern hw card signal mask value).2 card signal mask').2.1 =
          (read_pattern hw card signal mask').2.1) ∧
      (∀ q : Nat, q ≠ (signal / 16).toNat → q ≠ (signal / 16).toNat + 1 →
        ((write_pattern hw card signal mask value).2 card).ports q = (hw card).ports q) := by
  refine ⟨?_, ?_, fun mask' hdis => ?_, fun q hq1 hq2 => ?_⟩
  · rw [write_pattern_low hw card signal mask value h0 hp]
  · show pattern_work _ card (signal.tdiv 16) &&& mask = _
    rw [pattern_work_write_pattern hw card signal mask value h0 hp]
    exact merge_and_same _ _ _ hm
  · show pattern_work _ card (signal.tdiv 16) &&& mask' =
      pattern_work hw card (signal.tdiv 16) &&& mask'
    rw [pattern_work_write_pattern hw card signal mask value h0 hp]
    exact merge_and_disjoint _ _ _ _ (pattern_work_lt _ _ _) hdis
  · rw [write_pattern_low hw card signal mask value h0 hp]
    simp only []
    rw [setPort_ports_ne _ _ _ _ _ hq2, setPort_ports_ne _ _ _ _ _ hq1]

/-- Instance of C10: writing `0x00120000` under mask `0x00FF0000` at signal 0 of
board 0 (port 0 holding `0x0008`). -/
theorem write_pattern_read_pattern_witness :
    (write_pattern hw_bit3 0 0 0x00FF0000 0x00120000).1 = OK ∧
      (read_pattern (write_pattern hw_bit3 0 0 0x00FF0000 0x00120000).2 0 0 0x00FF0000).2.1 =
        0x00120000 &&& 0x00FF0000 ∧
      (∀ mask' : Nat, mask' &&& 0x00FF0000 = 0 →
        (read_pattern (write_pattern hw_bit3 0 0 0x00FF0000 0x00120000).2 0 0 mask').2.1 =
          (read_pattern hw_bit3 0 0 mask').2.1) ∧
      (∀ q : Nat, q ≠ ((0 : Int) / 16).toNat → q ≠ ((0 : Int) / 16).toNat + 1 →
        ((write_pattern hw_bit3 0 0 0x00FF0000 0x00120000).2 0).ports q =
          (hw_bit3 0).ports q) :=
  write_pattern_read_pattern hw_bit3 0 0 0x00FF0000 0x00120000 (by decide) (by decide)
    (by decide)

/-! ## Record device support: auxiliary facts -/

theorem read_pattern_status (hw : Boards) (card : Nat) (signal : Int) (mask : Nat) :
    (read_pattern hw card signal mask).1 = 0 := rfl

theorem read_pattern_mem (hw : Boards) (card : Nat) (signal : Int) (mask : Nat) :
    (read_pattern hw card signal mask).2.2 = hw := rfl

theorem read_bit_status (hw : Boards) (card : Nat) (signal : Int) :
    (read_bit hw card signal).1 = 0 := rfl

theorem read_bit_mem (hw : Boards) (card : Nat) (signal : Int) :
    (read_bit hw card signal).2.2 = hw := rfl

theorem ERROR_ne_OK : ERROR ≠ OK := by decide

@[simp] theorem ctrlW_dirst (card v : Nat) (s : Driver) :
    (ctrlW card v s).dirst = s.dirst := rfl

@[simp] theorem ctrlW_present (card v : Nat) (s : Driver) :
    (ctrlW card v s).present = s.present := rfl

@[simp] theorem ctrlW_hw (card v : Nat) (s : Driver) : (ctrlW card v s).hw = s.hw := rfl

@[simp] theorem ctrlW_events (card v : Nat) (s : Driver) :
    (ctrlW card v s).events = s.events := rfl

@[simp] theorem ctrlW_log (card v : Nat) (s : Driver) :
    (ctrlW card v s).log = s.log ++ [Action.ctrlWrite card v] := rfl

@[simp] theorem ctrlR_dirst (env : Env) (card : Nat) (s : Driver) :
    (ctrlR env card s).2.dirst = s.dirst := rfl

@[simp] theorem ctrlR_present (env : Env) (card : Nat) (s : Driver) :
    (ctrlR env card s).2.present = s.present := rfl

@[simp] theorem ctrlR_hw (env : Env) (card : Nat) (s : Driver) :
    (ctrlR env card s).2.hw = s.hw := rfl

@[simp] theorem ctrlR_events (env : Env) (card : Nat) (s : Driver) :
    (ctrlR env card s).2.events = s.events := rfl

@[simp] theorem ctrlR_log (env : Env) (card : Nat) (s : Driver) :
    (ctrlR env card s).2.log = s.log ++ [Action.ctrlRead card] := rfl

@[simp] theorem setEvent_dirst (card signal : Nat) (v : Int) (s : Driver) :
    (setEvent card signal v s).dirst = s.dirst := rfl

@[simp] theorem setEvent_present (card signal : Nat) (v : Int) (s : Driver) :
    (setEvent card signal v s).present = s.present := rfl

@[simp] theorem setEvent_hw (card signal : Nat) (v : Int) (s : Driver) :
    (setEvent card signal v s).hw = s.hw := rfl

@[simp] theorem setEvent_log (card signal : Nat) (v : Int) (s : Driver) :
    (setEvent card signal v s).log = s.log ++ [Action.eventsWrite card signal v] := rfl

theorem config_int_dirst (env : Env) (s : Driver) (card : Nat) (signal event : Int) :
    (config_int env s card signal event).2.dirst = s.dirst := by
  unfold config_int
  simp only []
  split_ifs <;> simp only [ctrlW_dirst, ctrlR_dirst, setEvent_dirst]

theorem config_int_present (env : Env) (s : Driver) (card : Nat) (signal event : Int) :
    (config_int env s card signal event).2.present = s.present := by
  unfold config_int
  simp only []
  split_ifs <;> simp only [ctrlW_present, ctrlR_present, setEvent_present]

theorem config_int_hw (env : Env) (s : Driver) (card : Nat) (signal event : Int) :
    (config_int env s card signal event).2.hw = s.hw := by
  unfold config_int
  simp only []
  split_ifs <;> simp only [ctrlW_hw, ctrlR_hw, setEvent_hw]

theorem config_dir_error (st : DirState) (card : Nat) (signal nobt direction : Int) :
    (config_dir st card signal nobt direction).1 = ERROR ↔
      Conflict st card signal nobt direction := by
  by_cases hc : Conflict st card signal nobt direction
  · rw [config_dir_of_conflict st card signal nobt direction hc]
    simp [hc]
  · have h := (config_dir_status st card signal nobt direction).2 hc
    rw [h]
    simp [hc, OK, ERROR]

/-! ## Long output records -/

/-- C11 (evaluation at the failing input): for a longout record with a VME
address on the present board 0, `init_longout_record` rejects signal 0 and
accepts signal 2 (the groups from signal 64 are requested as output), but it
also rejects signal 1: it returns `ERROR`, marks the record bad and leaves the
direction state untouched. -/
theorem init_longout_record_rejects_signal_1 :
    (init_longout_record drv_board0 (rec_at 0 0)).status = ERROR ∧
      (init_longout_record drv_board0 (rec_at 0 0)).record.dpvt = 1 ∧
      (init_longout_record drv_board0 (rec_at 2 0)).status = OK ∧
      (init_longout_record drv_board0 (rec_at 2 0)).record.dpvt = 0 ∧
      (init_longout_record drv_board0 (rec_at 2 0)).drv.dirst =
        (config_dir drv_board0.dirst 0 64 32 1).2 ∧
      (init_longout_record drv_board0 (rec_at 1 0)).status = ERROR ∧
      (init_longout_record drv_board0 (rec_at 1 0)).record.dpvt = 1 ∧
      (init_longout_record drv_board0 (rec_at 1 0)).drv.dirst = drv_board0.dirst := by
  refine ⟨by decide, by decide, by decide, by decide, rfl, by decide, by decide, rfl⟩

/-! ## Record initialisation: validation and marking -/

/-- C12 (counterexample): with groups 2 and 3 of board 0 configured as output,
the init of a bi record on signal 24 of board 0 returns `ERROR` (the direction
conflict reported by `config_dir`) and leaves the record unmarked (`dpvt = 0`). -/
theorem init_bi_record_conflict_unmarked :
    (init_record RecType.bi env_zero drv_out16 (rec_at 24 1)).status = ERROR ∧
      (init_record RecType.bi env_zero drv_out16 (rec_at 24 1)).record.dpvt = 0 := by
  decide

/-- C12 (amended): for each of the eight record init functions, every driver
state and every record whose board number `card` is not negative (for
`init_bo_record`: every such record with a VME address): whenever the init call returns `ERROR`, either the record is left marked bad
(`dpvt != 0`) and the direction state is untouched, or the address is a VME
address, the `ERROR` is the direction conflict reported by `config_dir`, and
`dpvt` is left 0.  An illegal link type (other than in `init_bo_record`) returns
`ERROR` with the record marked bad. -/
theorem init_record_error_marks (t : RecType) (env : Env) (s : Driver) (r : Record)
    (_hc0 : 0 ≤ r.card) (hl : r.linkType = LinkType.VME_IO ∨ t ≠ RecType.bo) :
    ((init_record t env s r).status = ERROR →
      ((init_record t env s r).record.dpvt ≠ 0 ∧ (init_record t env s r).drv.dirst = s.dirst) ∨
      ((init_record t env s r).record.dpvt = 0 ∧ r.linkType = LinkType.VME_IO ∧
        Conflict s.dirst r.card.toNat (dirRequest t r).1 (dirRequest t r).2.1
          (dirRequest t r).2.2)) ∧
    (r.linkType ≠ LinkType.VME_IO →
      (init_record t env s r).status = ERROR ∧ (init_record t env s r).record.dpvt ≠ 0) := by
  cases hlt : r.linkType
  case OTHER =>
    have ht : t ≠ RecType.bo := by
      rcases hl with h | h
      · rw [hlt] at h; exact absurd h (by decide)
      · exact h
    cases t <;>
      first
      | exact absurd rfl ht
      | simp [init_record, init_bi_record, init_mbbi_record, init_mbbo_record,
          init_mbbiDirect_record, init_mbboDirect_record, init_longin_record,
          init_longout_record, hlt, markBad]
  case VME_IO =>
    refine ⟨?_, fun h => absurd rfl h⟩
    cases t
    case bi =>
      cases hp : r.parm <;>
      simp only [init_record, init_bi_record, hlt, hp, dirRequest] <;>
      split_ifs <;>
      simp_all [markBad, viaConfigDir, config_int_dirst, config_dir_error]
    case bo =>
      simp only [init_record, init_bo_record, hlt, dirRequest, read_bit_status, read_bit_mem]
      split_ifs <;> simp_all [markBad, viaConfigDir, config_dir_error]
    case mbbi =>
      simp only [init_record, init_mbbi_record, hlt, dirRequest]
      split_ifs <;> simp_all [markBad, viaConfigDir, config_dir_error]
    case mbbo =>
      simp only [init_record, init_mbbo_record, hlt, dirRequest, read_pattern_status,
        read_pattern_mem]
      split_ifs <;> simp_all [markBad, viaConfigDir, config_dir_error]
    case mbbiDirect =>
      simp only [init_record, init_mbbiDirect_record, hlt, dirRequest]
      split_ifs <;> simp_all [markBad, viaConfigDir, config_dir_error]
    case mbboDirect =>
      simp only [init_record, init_mbboDirect_record, hlt, dirRequest, read_pattern_status,
        read_pattern_mem]
      split_ifs <;> simp_all [markBad, viaConfigDir, config_dir_error]
    case longin =>
      simp only [init_record, init_longin_record, hlt, dirRequest]
      split_ifs <;> simp_all [markBad, viaConfigDir, config_dir_error]
    case longout =>
      simp only [init_record, init_longout_record, hlt, dirRequest, read_pattern_status,
        read_pattern_mem]
      split_ifs <;> simp_all [markBad, viaConfigDir, config_dir_error]

/-- Instance of C12 (amended): the bi record on signal 24 of board 0 with groups 2
and 3 output. -/
theorem init_record_error_marks_witness :
    ((init_record RecType.bi env_zero drv_out16 (rec_at 24 1)).status = ERROR →
      ((init_record RecType.bi env_zero drv_out16 (rec_at 24 1)).record.dpvt ≠ 0 ∧
        (init_record RecType.bi env_zero drv_out16 (rec_at 24 1)).drv.dirst =
          drv_out16.dirst) ∨
      ((init_record RecType.bi env_zero drv_out16 (rec_at 24 1)).record.dpvt = 0 ∧
        (rec_at 24 1).linkType = LinkType.VME_IO ∧
        Conflict drv_out16.dirst (rec_at 24 1).card.toNat
          (dirRequest RecType.bi (rec_at 24 1)).1 (dirRequest RecType.bi (rec_at 24 1)).2.1
          (dirRequest RecType.bi (rec_at 24 1)).2.2)) ∧
    ((rec_at 24 1).linkType ≠ LinkType.VME_IO →
      (init_record RecType.bi env_zero drv_out16 (rec_at 24 1)).status = ERROR ∧
        (init_record RecType.bi env_zero drv_out16 (rec_at 24 1)).record.dpvt ≠ 0) :=
  init_record_error_marks RecType.bi env_zero drv_out16 (rec_at 24 1) (by decide) (Or.inl rfl)

/-- C13: for each steady-state entry point (`read_bi`, `write_bo`, `read_mbbi`,
`write_mbbo`, `read_mbbiDirect`, `write_mbboDirect`, `read_longin`,
`write_longout`) and every record marked bad (`dpvt != 0`): the call returns
`ERROR` and leaves the record (with its `rval` and `val`) and all driver globals,
port registers and controller log included, unchanged. -/
theorem process_bad_record (t : RecType) (s : Driver) (r : Record) (h : r.dpvt ≠ 0) :
    process t s r = ⟨ERROR, r, s⟩ := by
  cases t <;>
    simp [process, read_bi, write_bo, read_mbbi, write_mbbo, read_mbbiDirect,
      write_mbboDirect, read_longin, write_longout, h]

/-- Instance of C13: `write_bo` on the record that `init_longout_record` marked
bad. -/
theorem process_bad_record_witness :
    process RecType.bo drv_board0 (init_longout_record drv_board0 (rec_at 1 0)).record =
      ⟨ERROR, (init_longout_record drv_board0 (rec_at 1 0)).record, drv_board0⟩ :=
  process_bad_record RecType.bo drv_board0 _ (by decide)

/-- C14: for a record with a VME address whose board number `card` is not
negative and each record type other than longout, init validation passes (the record is left unmarked and the call
returns what its `config_dir` call returns, with the direction state that call
leaves) exactly if `card < 2`, the board is present and signal and width are in
range for the type; otherwise the call returns `ERROR` with the record marked
bad. -/
theorem init_record_validation (t : RecType) (env : Env) (s : Driver) (r : Record)
    (_hc0 : 0 ≤ r.card) (ht : t ≠ RecType.longout) (hl : r.linkType = LinkType.VME_IO) :
    ((init_record t env s r).record.dpvt = 0 ↔ ValidAddr t s r) ∧
    (ValidAddr t s r →
      (init_record t env s r).status =
        (config_dir s.dirst r.card.toNat (dirRequest t r).1 (dirRequest t r).2.1
          (dirRequest t r).2.2).1 ∧
      (init_record t env s r).drv.dirst =
        (config_dir s.dirst r.card.toNat (dirRequest t r).1 (dirRequest t r).2.1
          (dirRequest t r).2.2).2) ∧
    (¬ ValidAddr t s r →
      (init_record t env s r).status = ERROR ∧ (init_record t env s r).record.dpvt ≠ 0 ∧
      (init_record t env s r).drv.dirst = s.dirst) := by
  cases t
  case longout => exact absurd rfl ht
  case bo =>
    simp only [init_record, init_bo_record, hl, ValidAddr, SignalOk, dirRequest,
      ICV196_MAX_CARDS, ICV196_MAX_CHANS, read_bit_status, read_bit_mem]
    split_ifs <;> simp_all [markBad, viaConfigDir] <;> omega
  case bi =>
    cases hp : r.parm <;>
    simp only [init_record, init_bi_record, hl, hp, ValidAddr, SignalOk, dirRequest,
      ICV196_MAX_CARDS, ICV196_MAX_CHANS] <;>
    split_ifs <;> simp_all [markBad, viaConfigDir, DirectiveOk, config_int_dirst] <;> omega
  case mbbi =>
    simp only [init_record, init_mbbi_record, hl, ValidAddr, SignalOk, dirRequest,
      ICV196_MAX_CARDS, ICV196_MAX_CHANS]
    split_ifs <;> simp_all [markBad, viaConfigDir]
  case mbbiDirect =>
    simp only [init_record, init_mbbiDirect_record, hl, ValidAddr, SignalOk, dirRequest,
      ICV196_MAX_CARDS, ICV196_MAX_CHANS]
    split_ifs <;> simp_all [markBad, viaConfigDir]
  case mbbo =>
    simp only [init_record, init_mbbo_record, hl, ValidAddr, SignalOk, dirRequest,
      ICV196_MAX_CARDS, ICV196_MAX_CHANS, read_pattern_status, read_pattern_mem]
    split_ifs <;> simp_all [markBad, viaConfigDir] <;> omega
  case mbboDirect =>
    simp only [init_record, init_mbboDirect_record, hl, ValidAddr, SignalOk, dirRequest,
      ICV196_MAX_CARDS, ICV196_MAX_CHANS, read_pattern_status, read_pattern_mem]
    split_ifs <;> simp_all [markBad, viaConfigDir] <;> omega
  case longin =>
    simp only [init_record, init_longin_record, hl, ValidAddr, SignalOk, dirRequest,
      ICV196_MAX_CARDS, ICV196_MAX_CHANS]
    split_ifs <;> simp_all [markBad, viaConfigDir]

/-- Instance of C14: an mbbo record on signals 16 to 31 of the present board 0. -/
theorem init_record_validation_witness :
    ((init_record RecType.mbbo env_zero drv_board0 (rec_at 16 16)).record.dpvt = 0 ↔
      ValidAddr RecType.mbbo drv_board0 (rec_at 16 16)) ∧
    (ValidAddr RecType.mbbo drv_board0 (rec_at 16 16) →
      (init_record RecType.mbbo env_zero drv_board0 (rec_at 16 16)).status =
        (config_dir drv_board0.dirst (rec_at 16 16).card.toNat
          (dirRequest RecType.mbbo (rec_at 16 16)).1
          (dirRequest RecType.mbbo (rec_at 16 16)).2.1
          (dirRequest RecType.mbbo (rec_at 16 16)).2.2).1 ∧
      (init_record RecType.mbbo env_zero drv_board0 (rec_at 16 16)).drv.dirst =
        (config_dir drv_board0.dirst (rec_at 16 16).card.toNat
          (dirRequest RecType.mbbo (rec_at 16 16)).1
          (dirRequest RecType.mbbo (rec_at 16 16)).2.1
          (dirRequest RecType.mbbo (rec_at 16 16)).2.2).2) ∧
    (¬ ValidAddr RecType.mbbo drv_board0 (rec_at 16 16) →
      (init_record RecType.mbbo env_zero drv_board0 (rec_at 16 16)).status = ERROR ∧
      (init_record RecType.mbbo env_zero drv_board0 (rec_at 16 16)).record.dpvt ≠ 0 ∧
      (init_record RecType.mbbo env_zero drv_board0 (rec_at 16 16)).drv.dirst =
        drv_board0.dirst) :=
  init_record_validation RecType.mbbo env_zero drv_board0 (rec_at 16 16) (by decide)
    (by decide) rfl

/-! ## Record initialisation: shift and mask of the multi-bit records -/

theorem intToU16_tmod (signal : Int) (h0 : 0 ≤ signal) :
    intToU16 (signal.tmod 16) = (signal % 16).toNat := by
  unfold intToU16
  rw [Int.tmod_eq_emod h0 (by decide)]
  have h1 : (2 : Int) ^ 16 = 65536 := by norm_num
  rw [h1]
  omega

theorem toU32_shift_of_lt (mask sh : Nat) (hm : mask < 2 ^ 16) (hs : sh < 16) :
    toU32 (mask <<< sh) = mask <<< sh := by
  unfold toU32
  apply Nat.mod_eq_of_lt
  rw [Nat.shiftLeft_eq]
  calc mask * 2 ^ sh < 2 ^ 16 * 2 ^ sh :=
        Nat.mul_lt_mul_of_pos_right hm (Nat.two_pow_pos sh)
    _ ≤ 2 ^ 16 * 2 ^ 16 :=
        Nat.mul_le_mul_left _ (Nat.pow_le_pow_right (by norm_num) (Nat.le_of_lt hs))
    _ = 2 ^ 32 := by norm_num

/-- Shift and mask after the init of a multi-bit record. -/
theorem init_record_shft_mask_eq (t : RecType) (env : Env) (s : Driver) (r : Record)
    (ht : t = RecType.mbbi ∨ t = RecType.mbbo ∨ t = RecType.mbbiDirect ∨
      t = RecType.mbboDirect) :
    (init_record t env s r).record.shft =
        (if r.linkType = LinkType.VME_IO ∧ ValidAddr t s r then intToU16 (r.signal.tmod 16)
          else r.shft) ∧
      (init_record t env s r).record.mask =
        (if r.linkType = LinkType.VME_IO ∧ ValidAddr t s r then
          toU32 (r.mask <<< intToU16 (r.signal.tmod 16))
          else r.mask) := by
  cases hlt : r.linkType
  case OTHER =>
    rcases ht with h | h | h | h <;> subst h <;>
      simp [init_record, init_mbbi_record, init_mbbo_record, init_mbbiDirect_record,
        init_mbboDirect_record, hlt, markBad]
  case VME_IO =>
    rcases ht with h | h | h | h <;> subst h
    · simp only [init_record, init_mbbi_record, hlt, ValidAddr, SignalOk,
        ICV196_MAX_CARDS, ICV196_MAX_CHANS]
      split_ifs <;> simp_all [markBad, viaConfigDir] <;> omega
    · simp only [init_record, init_mbbo_record, hlt, ValidAddr, SignalOk,
        ICV196_MAX_CARDS, ICV196_MAX_CHANS, read_pattern_status, read_pattern_mem]
      split_ifs <;> simp_all [markBad, viaConfigDir] <;> omega
    · simp only [init_record, init_mbbiDirect_record, hlt, ValidAddr, SignalOk,
        ICV196_MAX_CARDS, ICV196_MAX_CHANS]
      split_ifs <;> simp_all [markBad, viaConfigDir] <;> omega
    · simp only [init_record, init_mbboDirect_record, hlt, ValidAddr, SignalOk,
        ICV196_MAX_CARDS, ICV196_MAX_CHANS, read_pattern_status, read_pattern_mem]
      split_ifs <;> simp_all [markBad, viaConfigDir] <;> omega

/-- C15: for each of `init_mbbi_record`, `init_mbbo_record`,
`init_mbbiDirect_record` and `init_mbboDirect_record` and every record whose
board number `card` and `signal` are not negative: on every path where
validation passes, the `shft` of the record becomes `signal % 16` and its `mask`
becomes the old mask shifted left by `shft` (as a 32 bit word; the shift loses
nothing for a mask below `2^16`); on every path where validation fails, `shft`
and `mask` are unchanged. -/
theorem init_record_shft_mask (t : RecType) (env : Env) (s : Driver) (r : Record)
    (ht : t = RecType.mbbi ∨ t = RecType.mbbo ∨ t = RecType.mbbiDirect ∨
      t = RecType.mbboDirect)
    (_hc0 : 0 ≤ r.card) (h0 : 0 ≤ r.signal) :
    (r.linkType = LinkType.VME_IO ∧ ValidAddr t s r →
      (init_record t env s r).record.shft = intToU16 (r.signal.tmod 16) ∧
      (init_record t env s r).record.shft = (r.signal % 16).toNat ∧
      (init_record t env s r).record.mask =
        toU32 (r.mask <<< (init_record t env s r).record.shft) ∧
      (r.mask < 2 ^ 16 →
        (init_record t env s r).record.mask = r.mask <<< (r.signal % 16).toNat)) ∧
    (¬ (r.linkType = LinkType.VME_IO ∧ ValidAddr t s r) →
      (init_record t env s r).record.shft = r.shft ∧
      (init_record t env s r).record.mask = r.mask) := by
  obtain ⟨e1, e2⟩ := init_record_shft_mask_eq t env s r ht
  constructor
  · intro hv
    rw [if_pos hv] at e1 e2
    have e := intToU16_tmod r.signal h0
    refine ⟨e1, by rw [e1, e], by rw [e1]; exact e2, fun hm => ?_⟩
    rw [e2, e]
    exact toU32_shift_of_lt _ _ hm (by omega)
  · intro hv
    rw [if_neg hv] at e1 e2
    exact ⟨e1, e2⟩

/-- Instance of C15: an mbbo record on signals 20 to 27 of the present board 0. -/
theorem init_record_shft_mask_witness :
    (init_record RecType.mbbo env_zero drv_board0 (rec_at 20 8)).record.shft =
        intToU16 ((rec_at 20 8).signal.tmod 16) ∧
      (init_record RecType.mbbo env_zero drv_board0 (rec_at 20 8)).record.shft =
        ((rec_at 20 8).signal % 16).toNat ∧
      (init_record RecType.mbbo env_zero drv_board0 (rec_at 20 8)).record.mask =
        toU32 ((rec_at 20 8).mask <<<
          (init_record RecType.mbbo env_zero drv_board0 (rec_at 20 8)).record.shft) ∧
      ((rec_at 20 8).mask < 2 ^ 16 →
        (init_record RecType.mbbo env_zero drv_board0 (rec_at 20 8)).record.mask =
          (rec_at 20 8).mask <<< ((rec_at 20 8).signal % 16).toNat) :=
  (init_record_shft_mask RecType.mbbo env_zero drv_board0 (rec_at 20 8)
    (Or.inr (Or.inl rfl)) (by decide) (by decide)).1 ⟨rfl, by decide⟩

/-! ## Signals 0 to 15 stay input -/

theorem config_dir_mask_low_bits (signal nobt : Int) (h : 16 ≤ signal) (i : Nat) (hi : i < 2) :
    (config_dir_mask signal nobt).testBit i = false := by
  unfold config_dir_mask
  simp only [testBit_toU16, Nat.testBit_shiftLeft]
  rw [Int.tdiv_eq_ediv (by omega) (by decide)]
  have hg : ¬ (i ≥ (signal / 8).toNat) := by omega
  simp [hg]

theorem config_dir_dirs_input (st : DirState) (card : Nat) (signal nobt : Int) :
    (config_dir st card signal nobt 0).2.dirs = st.dirs := by
  by_cases hc : Conflict st card signal nobt 0
  · rw [config_dir_of_conflict st card signal nobt 0 hc]
  · unfold Conflict at hc
    unfold config_dir
    simp only []
    rw [if_neg hc, if_neg (by decide)]

/-- A `config_dir` call for input, or for signals from 16 on, keeps the direction
bits of groups 0 and 1 at 0. -/
theorem config_dir_keeps_low_input (st : DirState) (card : Nat) (signal nobt direction : Int)
    (hreq : direction = 0 ∨ 16 ≤ signal)
    (hst : ∀ c i, i < 2 → (st.dirs c).testBit i = false) :
    ∀ c i, i < 2 → ((config_dir st card signal nobt direction).2.dirs c).testBit i = false := by
  intro c i hi
  rcases hreq with h0 | h16
  · subst h0
    rw [config_dir_dirs_input]
    exact hst c i hi
  · by_cases hc : Conflict st card signal nobt direction
    · rw [config_dir_of_conflict st card signal nobt direction hc]
      exact hst c i hi
    · unfold Conflict at hc
      unfold config_dir
      simp only []
      rw [if_neg hc]
      by_cases hd : direction ≠ 0
      · rw [if_pos hd]
        by_cases hcc : c = card
        · subst hcc
          simp only [Function.update_same]
          rw [testBit_toU16, Nat.testBit_or, hst c i hi,
            config_dir_mask_low_bits signal nobt h16 i hi]
          simp
        · simp only [Function.update_noteq hcc]
          exact hst c i hi
      · rw [if_neg hd]
        exact hst c i hi

/-- The direction state after a record init call is the old one or the one its
`config_dir` call leaves, and that call is for input or for a signal from 16 on. -/
theorem init_record_dirst (t : RecType) (env : Env) (s : Driver) (r : Record) :
    (init_record t env s r).drv.dirst = s.dirst ∨
      ((init_record t env s r).drv.dirst =
          (config_dir s.dirst r.card.toNat (dirRequest t r).1 (dirRequest t r).2.1
            (dirRequest t r).2.2).2 ∧
        ((dirRequest t r).2.2 = 0 ∨ 16 ≤ (dirRequest t r).1)) := by
  cases hlt : r.linkType
  case OTHER =>
    cases t <;>
      simp [init_record, init_bi_record, init_bo_record, init_mbbi_record, init_mbbo_record,
        init_mbbiDirect_record, init_mbboDirect_record, init_longin_record,
        init_longout_record, hlt, markBad]
  case VME_IO =>
    cases t
    case bi =>
      cases hp : r.parm <;>
      simp only [init_record, init_bi_record, hlt, hp, dirRequest] <;>
      split_ifs <;> simp_all [markBad, viaConfigDir, config_int_dirst]
    case bo =>
      simp only [init_record, init_bo_record, hlt, dirRequest, read_bit_status, read_bit_mem,
        ICV196_MAX_CHANS]
      split_ifs <;> simp_all [markBad, viaConfigDir] <;> omega
    case mbbi =>
      simp only [init_record, init_mbbi_record, hlt, dirRequest]
      split_ifs <;> simp_all [markBad, viaConfigDir]
    case mbbo =>
      simp only [init_record, init_mbbo_record, hlt, dirRequest, read_pattern_status,
        read_pattern_mem, ICV196_MAX_CHANS]
      split_ifs <;> simp_all [markBad, viaConfigDir] <;> omega
    case mbbiDirect =>
      simp only [init_record, init_mbbiDirect_record, hlt, dirRequest]
      split_ifs <;> simp_all [markBad, viaConfigDir]
    case mbboDirect =>
      simp only [init_record, init_mbboDirect_record, hlt, dirRequest, read_pattern_status,
        read_pattern_mem, ICV196_MAX_CHANS]
      split_ifs <;> simp_all [markBad, viaConfigDir] <;> omega
    case longin =>
      simp only [init_record, init_longin_record, hlt, dirRequest]
      split_ifs <;> simp_all [markBad, viaConfigDir]
    case longout =>
      simp only [init_record, init_longout_record, hlt, dirRequest, read_pattern_status,
        read_pattern_mem]
      split_ifs <;> simp_all [markBad, viaConfigDir] <;> omega

theorem DriverReach.low_input {s : Driver} (h : DriverReach s) :
    ∀ c i, i < 2 → (s.dirst.dirs c).testBit i = false := by
  induction h with
  | start s h0 =>
    intro c i _
    rw [h0]
    simp [DirState.initial]
  | step t env s r _ ih =>
    rcases init_record_dirst t env s r with h | ⟨h, hreq⟩
    · rw [h]; exact ih
    · rw [h]
      exact config_dir_keeps_low_input _ _ _ _ _ hreq ih

theorem and_one_ne_zero_iff (x : Nat) : x &&& 1 ≠ 0 ↔ x.testBit 0 = true := by
  rw [Nat.testBit_zero, Nat.and_one_is_mod]
  simp

theorem shiftRight_and_one_ne_zero_iff (ch k : Nat) :
    (ch >>> k) &&& 1 ≠ 0 ↔ ch.testBit k = true := by
  rw [and_one_ne_zero_iff, Nat.testBit_shiftRight, Nat.add_zero]

/-- The loop of `int_service` posts the events of the set bits with a non-zero
slot, in ascending order. -/
theorem int_service_scan_eq (ev : Nat → Int) (port ch : Nat) (n k : Nat) :
    int_service_scan ev port (List.range' k n) (ch >>> k) =
      (List.range' k n).filterMap
        (fun i => if ch.testBit i = true ∧ ev (i + 8 * port) ≠ 0 then
          some (Action.post (ev (i + 8 * port))) else none) := by
  induction n generalizing k with
  | zero => rfl
  | succ n ih =>
    rw [List.range'_succ, int_service_scan, List.filterMap_cons, ← Nat.shiftRight_add, ih (k + 1)]
    by_cases hc : ch.testBit k = true ∧ ev (k + 8 * port) ≠ 0
    · have hc' : (ch >>> k) &&& 1 ≠ 0 ∧ ev (k + 8 * port) ≠ 0 :=
        ⟨(shiftRight_and_one_ne_zero_iff ch k).2 hc.1, hc.2⟩
      rw [if_pos hc, if_pos hc']
      rfl
    · have hc' : ¬ ((ch >>> k) &&& 1 ≠ 0 ∧ ev (k + 8 * port) ≠ 0) :=
        fun h => hc ⟨(shiftRight_and_one_ne_zero_iff ch k).1 h.1, h.2⟩
      rw [if_neg hc, if_neg hc']
      rfl

theorem int_service_scan_range (ev : Nat → Int) (port ch : Nat) :
    int_service_scan ev port (List.range 8) ch = expectedPosts ev port ch := by
  have h := int_service_scan_eq ev port ch 8 0
  rw [Nat.shiftRight_zero] at h
  rw [List.range_eq_range', h, expectedPosts, List.range_eq_range']

/-- C17: for every `cardPort` in {0,1,2,3} (`card = cardPort/2`,
`port = cardPort mod 2`), every snapshot value of the port and every Event Table
content: `int_service` posts exactly the events `events[card][8*port+i]` for
those `i` in 0..7, in ascending `i`, whose snapshot bit `i` is set and whose slot
is non-zero, then writes the Command and Status register number of the port
(`PCSA` for port 0, `PCSB` for port 1) followed by `0x20`, regardless of the
snapshot; the Event Table and the rest of the driver globals are unchanged.
With event 42 in the slot of signal 3 and `cardPort` 0, the snapshot
`0b00001000` posts 42 once and the snapshot 0 posts nothing. -/
theorem int_service_posts :
    (∀ (s : Driver) (cardPort : Int), 0 ≤ cardPort → cardPort ≤ 3 →
      (int_service s cardPort).log =
          s.log ++
            expectedPosts (s.events (cardPort / 2).toNat) (cardPort % 2).toNat
              (toU8 (if cardPort % 2 = 1 then (s.hw (cardPort / 2).toNat).z8536_portB
                else (s.hw (cardPort / 2).toNat).z8536_portA)) ++
            [Action.ctrlWrite (cardPort / 2).toNat (if cardPort % 2 = 0 then PCSA else PCSB),
              Action.ctrlWrite (cardPort / 2).toNat 0x20] ∧
        (int_service s cardPort).events = s.events ∧
        (int_service s cardPort).hw = s.hw ∧
        (int_service s cardPort).dirst = s.dirst ∧
        (int_service s cardPort).present = s.present) ∧
    (int_service (drv_ev42 0b00001000) 0).log =
      [Action.post 42, Action.ctrlWrite 0 PCSA, Action.ctrlWrite 0 0x20] ∧
    (int_service (drv_ev42 0) 0).log = [Action.ctrlWrite 0 PCSA, Action.ctrlWrite 0 0x20] := by
  refine ⟨?_, by decide, by decide⟩
  intro s cardPort h0 h3
  refine ⟨?_, rfl, rfl, rfl, rfl⟩
  unfold int_service
  simp only [ctrlW_log, int_service_scan_range]
  rw [Int.tdiv_eq_ediv h0 (by decide)]
  have hp : cardPort.toNat &&& 1 = (cardPort % 2).toNat := by
    rw [Nat.and_one_is_mod]; omega
  rw [hp]
  have hcases : cardPort % 2 = 0 ∨ cardPort % 2 = 1 := by omega
  rcases hcases with h | h
  · rw [h]
    simp
  · rw [h]
    simp

/-- Instance of C17: `cardPort` 1 (board 0, port B) with event 42 registered for
signal 3 only. -/
theorem int_service_posts_witness :
    (int_service (drv_ev42 0b00001000) 1).log =
          (drv_ev42 0b00001000).log ++
            expectedPosts ((drv_ev42 0b00001000).events ((1 : Int) / 2).toNat)
              ((1 : Int) % 2).toNat
              (toU8 (if (1 : Int) % 2 = 1 then
                  ((drv_ev42 0b00001000).hw ((1 : Int) / 2).toNat).z8536_portB
                else ((drv_ev42 0b00001000).hw ((1 : Int) / 2).toNat).z8536_portA)) ++
            [Action.ctrlWrite ((1 : Int) / 2).toNat (if (1 : Int) % 2 = 0 then PCSA else PCSB),
              Action.ctrlWrite ((1 : Int) / 2).toNat 0x20] ∧
        (int_service (drv_ev42 0b00001000) 1).events = (drv_ev42 0b00001000).events ∧
        (int_service (drv_ev42 0b00001000) 1).hw = (drv_ev42 0b00001000).hw ∧
        (int_service (drv_ev42 0b00001000) 1).dirst = (drv_ev42 0b00001000).dirst ∧
        (int_service (drv_ev42 0b00001000) 1).present = (drv_ev42 0b00001000).present :=
  int_service_posts.1 (drv_ev42 0b00001000) 1 (by decide) (by decide)

/-! ## Event directive on a signal from 16 on -/

/-- C18 (counterexample): the init of a bi record on signal 16 of the present
board 0 whose parameter string carries `event 5` does not end in an error: it
returns `OK` and leaves the record unmarked. -/
theorem init_bi_record_event_on_signal_16_ok :
    (16 : Int) ≤ (rec_bi_event 16 5).signal ∧ (rec_bi_event 16 5).signal ≤ 95 ∧
      (init_bi_record env_zero drv_board0 (rec_bi_event 16 5)).status = OK ∧
      (init_bi_record env_zero drv_board0 (rec_bi_event 16 5)).record.dpvt = 0 := by
  decide

/-- C18 (amended): for every signal from 16 on, a bi record with a VME address at
that signal whose parameter string carries an event directive is initialised
exactly like one without the directive: `config_int` is not called, the Event
Table and the log of controller accesses are left unchanged, and the return
value and the driver globals are those of the init of the same record without
directive (for a present board with a board number in 0..1 and a signal up to
95: the return value of `config_dir (card, signal, 1, 0)`, the record left
unmarked). -/
theorem init_bi_record_ignores_event_from_16 (env : Env) (s : Driver) (r : Record)
    (hl : r.linkType = LinkType.VME_IO) (h16 : 16 ≤ r.signal) :
    (init_bi_record env s r).status =
        (init_bi_record env s { r with parm := ParmEvent.absent }).status ∧
      (init_bi_record env s r).drv =
        (init_bi_record env s { r with parm := ParmEvent.absent }).drv ∧
      (init_bi_record env s r).record.dpvt =
        (init_bi_record env s { r with parm := ParmEvent.absent }).record.dpvt ∧
      (init_bi_record env s r).drv.events = s.events ∧
      (init_bi_record env s r).drv.log = s.log ∧
      (0 ≤ r.card → r.card < 2 → s.present r.card.toNat = true → r.signal ≤ 95 →
        (init_bi_record env s r).status = (config_dir s.dirst r.card.toNat r.signal 1 0).1 ∧
        (init_bi_record env s r).record.dpvt = 0) := by
  have hlt : ¬ (r.signal < 16) := by omega
  simp only [init_bi_record, hl, ICV196_MAX_CARDS, ICV196_MAX_CHANS]
  split_ifs <;> simp_all [markBad, viaConfigDir] <;> omega

/-- Instance of C18 (amended): the bi record on signal 16 of board 0 with the
directive `event 5`. -/
theorem init_bi_record_ignores_event_from_16_witness :
    (init_bi_record env_zero drv_board0 (rec_bi_event 16 5)).status =
        (init_bi_record env_zero drv_board0
          { rec_bi_event 16 5 with parm := ParmEvent.absent }).status ∧
      (init_bi_record env_zero drv_board0 (rec_bi_event 16 5)).drv =
        (init_bi_record env_zero drv_board0
          { rec_bi_event 16 5 with parm := ParmEvent.absent }).drv ∧
      (init_bi_record env_zero drv_board0 (rec_bi_event 16 5)).record.dpvt =
        (init_bi_record env_zero drv_board0
          { rec_bi_event 16 5 with parm := ParmEvent.absent }).record.dpvt ∧
      (init_bi_record env_zero drv_board0 (rec_bi_event 16 5)).drv.events = drv_board0.events ∧
      (init_bi_record env_zero drv_board0 (rec_bi_event 16 5)).drv.log = drv_board0.log ∧
      (0 ≤ (rec_bi_event 16 5).card → (rec_bi_event 16 5).card < 2 →
        drv_board0.present (rec_bi_event 16 5).card.toNat = true →
        (rec_bi_event 16 5).signal ≤ 95 →
        (init_bi_record env_zero drv_board0 (rec_bi_event 16 5)).status =
          (config_dir drv_board0.dirst (rec_bi_event 16 5).card.toNat
            (rec_bi_event 16 5).signal 1 0).1 ∧
        (init_bi_record env_zero drv_board0 (rec_bi_event 16 5)).record.dpvt = 0) :=
  init_bi_record_ignores_event_from_16 env_zero drv_board0 (rec_bi_event 16 5) rfl (by decide)

/-! ## Phase "after" of the device initialization -/

theorem init_after_card_frame (s : Driver) (card : Nat) :
    (init_after_card s card).dirst = s.dirst ∧ (init_after_card s card).events = s.events ∧
      (init_after_card s card).present = s.present ∧ (init_after_card s card).log = s.log := by
  unfold init_after_card
  split_ifs <;> exact ⟨rfl, rfl, rfl, rfl⟩

theorem init_after_card_hw (s : Driver) (card c : Nat) :
    (init_after_card s card).hw c =
      if c = card ∧ s.present card = true then { s.hw c with dir := s.dirst.dirs c }
      else s.hw c := by
  unfold init_after_card
  by_cases hp : s.present card = true
  · rw [if_pos hp]
    by_cases hc : c = card
    · subst hc
      simp [hp]
    · simp [hc, Function.update_noteq hc]
  · rw [if_neg hp]
    simp [hp]

/-- C19: phase "after" of bring-up: for every driver state, `init (after != 0)`
returns `OK`, sets the direction register of each present board (0 and 1) to
`dirs[card]` of that board, changes no other register of a present board and no
register of any other board, makes no controller access, and leaves `dirs`,
`mdirs`, the Event Table and the presence pointers unchanged. -/
theorem init_after (env : Env) (s : Driver) (after : Int) (h : after ≠ 0) :
    (init env s after).1 = OK ∧
      (∀ c : Nat, (init env s after).2.hw c =
        if c < 2 ∧ s.present c = true then { s.hw c with dir := s.dirst.dirs c } else s.hw c) ∧
      (init env s after).2.dirst = s.dirst ∧
      (init env s after).2.events = s.events ∧
      (init env s after).2.present = s.present ∧
      (init env s after).2.log = s.log := by
  have hr : List.range ICV196_MAX_CARDS = [0, 1] := rfl
  have e : init env s after = (OK, init_after_card (init_after_card s 0) 1) := by
    unfold init
    rw [if_pos h, hr]
    rfl
  obtain ⟨d0, e0, p0, l0⟩ := init_after_card_frame s 0
  obtain ⟨d1, e1, p1, l1⟩ := init_after_card_frame (init_after_card s 0) 1
  rw [e]
  refine ⟨rfl, fun c => ?_, d1.trans d0, e1.trans e0, p1.trans p0, l1.trans l0⟩
  show (init_after_card (init_after_card s 0) 1).hw c = _
  rw [init_after_card_hw, init_after_card_hw, p0, d0]
  by_cases hc0 : c = 0
  · subst hc0
    by_cases hp : s.present 0 = true <;> simp [hp]
  · by_cases hc1 : c = 1
    · subst hc1
      by_cases hp : s.present 1 = true <;> simp [hp]
    · have hc2 : ¬ c < 2 := by omega
      simp [hc0, hc1, hc2]

/-- Instance of C19: `init (1)` after the init of an mbbo record on signals 16 to
31 of board 0. -/
theorem init_after_witness :
    (init env_zero drv_out16 1).1 = OK ∧
      (∀ c : Nat, (init env_zero drv_out16 1).2.hw c =
        if c < 2 ∧ drv_out16.present c = true then
          { drv_out16.hw c with dir := drv_out16.dirst.dirs c }
        else drv_out16.hw c) ∧
      (init env_zero drv_out16 1).2.dirst = drv_out16.dirst ∧
      (init env_zero drv_out16 1).2.events = drv_out16.events ∧
      (init env_zero drv_out16 1).2.present = drv_out16.present ∧
      (init env_zero drv_out16 1).2.log = drv_out16.log :=
  init_after env_zero drv_out16 1 (by decide)

/-! ## Order of Event Table writes and interrupt enabling -/

@[simp] theorem act_log (a : Action) (s : Driver) : (act a s).log = s.log ++ [a] := rfl

@[simp] theorem setPresent_log (card : Nat) (b : Bool) (s : Driver) :
    (setPresent card b s).log = s.log := rfl

@[simp] theorem setNit_log (card v : Nat) (s : Driver) : (setNit card v s).log = s.log := rfl

theorem clearEvents_log (card : Nat) (is : List Nat) (s : Driver) :
    (clearEvents card is s).log = s.log ++ is.map (fun i => Action.eventsWrite card i 0) := by
  induction is generalizing s with
  | nil => simp [clearEvents]
  | cons i is ih => simp [clearEvents, ih]

theorem init_port_mode_log (env : Env) (card pms dpp dd mode : Nat) (s : Driver) :
    (init_port_mode env card pms dpp dd mode s).2.log =
      s.log ++ portModeLog card pms dpp dd mode := by
  unfold init_port_mode
  simp only []
  split_ifs <;>
    simp only [ctrlW_log, ctrlR_log, portModeLog, List.append_assoc, List.cons_append,
      List.nil_append]

theorem init_port_interrupts_log (env : Env) (card pp pt pm iv pcs it : Nat) (s : Driver) :
    (init_port_interrupts env card pp pt pm iv pcs it s).2.log =
      s.log ++ portInterruptsLog card pp pt pm iv pcs it := by
  unfold init_port_interrupts
  simp only []
  split_ifs <;>
    simp only [ctrlW_log, ctrlR_log, portInterruptsLog, List.append_assoc, List.cons_append,
      List.nil_append]

theorem init_common_log (env : Env) (card : Nat) (s : Driver) :
    (init_common env card s).2.log =
      s.log ++ [Action.ctrlWrite card MCC, Action.ctrlWrite card 0x84,
        Action.ctrlWrite card MIC, Action.ctrlWrite card 0x80,
        Action.ctrlWrite card MCC, Action.ctrlRead card] := by
  unfold init_common
  simp only []
  split_ifs <;>
    simp only [ctrlW_log, ctrlR_log, List.append_assoc, List.cons_append, List.nil_append]

theorem init_connect_ok_log (env : Env) (card : Nat) (s : Driver)
    (hok : (init_connect env card s).1 = OK) :
    (init_connect env card s).2.log =
      s.log ++ [Action.connect (IT_VECTOR + 2 * card) (2 * card),
        Action.connect (IT_VECTOR + 2 * card + 1) (2 * card + 1),
        Action.enableLevel IT_LEVEL] := by
  unfold init_connect at hok ⊢
  simp only [] at hok ⊢
  split_ifs at hok ⊢
  · exact absurd hok ERROR_ne_OK
  · exact absurd hok ERROR_ne_OK
  · exact absurd hok ERROR_ne_OK
  · simp only [act_log, List.append_assoc, List.cons_append, List.nil_append]

/-- The log of a bring-up of a present board that succeeds. -/
theorem init_card_ok_log (env : Env) (s : Driver) (card : Nat) (hp : env.probe card = true)
    (hok : (init_card env s card).1 = OK) :
    (init_card env s card).2.log = s.log ++ bringUpLog card := by
  unfold init_card at hok ⊢
  rw [if_pos hp] at hok ⊢
  simp only [] at hok ⊢
  split_ifs at hok ⊢ with h1 h2 h3 h4 h5
  · exact absurd hok h1
  · exact absurd hok h2
  · exact absurd hok h3
  · exact absurd hok h4
  · exact absurd hok h5
  · rw [init_connect_ok_log _ _ _ hok, init_common_log, init_port_interrupts_log,
      init_port_interrupts_log, init_port_mode_log, init_port_mode_log]
    simp only [ctrlW_log, ctrlR_log, setPresent_log, setNit_log, clearEvents_log,
      bringUpLog, List.append_assoc, List.cons_append, List.nil_append]

theorem init_card_log_of_ok (env : Env) (s : Driver) (card : Nat)
    (hok : (init_card env s card).1 = OK) :
    (init_card env s card).2.log =
      s.log ++ (if env.probe card = true then bringUpLog card else []) := by
  by_cases hp : env.probe card = true
  · rw [if_pos hp]
    exact init_card_ok_log env s card hp hok
  · rw [if_neg hp, List.append_nil]
    unfold init_card
    rw [if_neg hp]
    rfl

/-- The log of a phase "before" that returns `OK`. -/
theorem init_before_ok_log (env : Env) (s : Driver) (hok : (init env s 0).1 = OK) :
    (init env s 0).2.log =
      s.log ++ ((if env.probe 0 = true then bringUpLog 0 else []) ++
        (if env.probe 1 = true then bringUpLog 1 else [])) := by
  have hr : List.range ICV196_MAX_CARDS = [0, 1] := rfl
  unfold init at hok ⊢
  rw [if_neg (by decide), hr] at hok ⊢
  by_cases hm : env.mapAddr ≠ true
  · rw [if_pos hm] at hok
    exact absurd hok ERROR_ne_OK
  · rw [if_neg hm] at hok ⊢
    simp only [init_cards] at hok ⊢
    by_cases h0 : (init_card env s 0).1 ≠ OK
    · rw [if_pos h0] at hok
      exact absurd hok h0
    · rw [if_neg h0] at hok ⊢
      by_cases h1 : (init_card env (init_card env s 0).2 1).1 ≠ OK
      · rw [if_pos h1] at hok
        exact absurd hok h1
      · rw [if_neg h1]
        rw [init_card_log_of_ok env _ 1 (not_not.1 h1),
          init_card_log_of_ok env s 0 (not_not.1 h0), List.append_assoc]

/-- The Event Table write of `config_int` is its first action; the controller
accesses that arm the signal follow. -/
theorem config_int_log (env : Env) (s : Driver) (card : Nat) (signal event : Int) :
    ∃ pt pm : Nat, (config_int env s card signal event).2.log =
      s.log ++ Action.eventsWrite card signal.toNat (toShort event) ::
        armLog card signal pt pm := by
  unfold config_int armLog
  by_cases hg : signal.tdiv 8 = 0
  · simp only [if_pos hg]
    split_ifs <;>
      simp only [ctrlW_log, ctrlR_log, setEvent_log, List.append_assoc, List.cons_append,
        List.nil_append] <;> exact ⟨_, _, rfl⟩
  · simp only [if_neg hg]
    split_ifs <;>
      simp only [ctrlW_log, ctrlR_log, setEvent_log, List.append_assoc, List.cons_append,
        List.nil_append] <;> exact ⟨_, _, rfl⟩

theorem armLog_isTableOrCtrl (card : Nat) (signal : Int) (pt pm : Nat) :
    ∀ a ∈ armLog card signal pt pm, a.isTableOrCtrl = true := by
  unfold armLog
  simp only []
  split_ifs <;>
    simp only [List.mem_cons, List.mem_singleton, List.not_mem_nil, or_false, forall_eq_or_imp,
      forall_eq, Action.isTableOrCtrl, and_self]

/-- A record init call leaves the log alone or adds the log of one `config_int`
call. -/
theorem init_record_log_cases (t : RecType) (env : Env) (s : Driver) (r : Record) :
    (init_record t env s r).drv.log = s.log ∨
      ∃ event : Int, (init_record t env s r).drv.log =
        (config_int env s r.card.toNat r.signal event).2.log := by
  cases hlt : r.linkType
  case OTHER =>
    left
    cases t <;>
      simp [init_record, init_bi_record, init_bo_record, init_mbbi_record, init_mbbo_record,
        init_mbbiDirect_record, init_mbboDirect_record, init_longin_record,
        init_longout_record, hlt, markBad]
  case VME_IO =>
    cases t
    case bi =>
      cases hp : r.parm
      case value n =>
        simp only [init_record, init_bi_record, hlt, hp]
        split_ifs
        · left; rfl
        · left; rfl
        · left; rfl
        · left; rfl
        · right; exact ⟨n, rfl⟩
        · left; rfl
      all_goals
        left
        simp only [init_record, init_bi_record, hlt, hp]
        split_ifs <;> rfl
    case bo =>
      left
      simp only [init_record, init_bo_record, hlt, read_bit_status, read_bit_mem]
      split_ifs <;> rfl
    case mbbi =>
      left
      simp only [init_record, init_mbbi_record, hlt]
      split_ifs <;> rfl
    case mbbo =>
      left
      simp only [init_record, init_mbbo_record, hlt, read_pattern_status, read_pattern_mem]
      split_ifs <;> rfl
    case mbbiDirect =>
      left
      simp only [init_record, init_mbbiDirect_record, hlt]
      split_ifs <;> rfl
    case mbboDirect =>
      left
      simp only [init_record, init_mbboDirect_record, hlt, read_pattern_status,
        read_pattern_mem]
      split_ifs <;> rfl
    case longin =>
      left
      simp only [init_record, init_longin_record, hlt]
      split_ifs <;> rfl
    case longout =>
      left
      simp only [init_record, init_longout_record, hlt, read_pattern_status, read_pattern_mem]
      split_ifs <;> rfl

/-- A record init call adds only Event Table writes and controller accesses to
the log. -/
theorem init_record_log (t : RecType) (env : Env) (s : Driver) (r : Record) :
    ∃ l, (init_record t env s r).drv.log = s.log ++ l ∧ ∀ a ∈ l, a.isTableOrCtrl = true := by
  rcases init_record_log_cases t env s r with h | ⟨event, h⟩
  · exact ⟨[], by rw [h, List.append_nil], fun a ha => absurd ha (List.not_mem_nil a)⟩
  · obtain ⟨pt, pm, hl⟩ := config_int_log env s r.card.toNat r.signal event
    refine ⟨_, h.trans hl, fun a ha => ?_⟩
    rcases List.mem_cons.1 ha with h1 | h1
    · rw [h1]; rfl
    · exact armLog_isTableOrCtrl _ _ _ _ a h1

theorem init_records_log (env : Env) (recs : List (RecType × Record)) (s : Driver) :
    ∃ l, (recs.foldl (fun s tr => (init_record tr.1 env s tr.2).drv) s).log = s.log ++ l ∧
      ∀ a ∈ l, a.isTableOrCtrl = true := by
  induction recs generalizing s with
  | nil => exact ⟨[], by simp, fun a ha => absurd ha (List.not_mem_nil a)⟩
  | cons tr recs ih =>
    obtain ⟨l1, h1, a1⟩ := init_record_log tr.1 env s tr.2
    obtain ⟨l2, h2, a2⟩ := ih (init_record tr.1 env s tr.2).drv
    refine ⟨l1 ++ l2, ?_, fun a ha => ?_⟩
    · rw [List.foldl_cons, h2, h1, List.append_assoc]
    · rcases List.mem_append.1 ha with h | h
      · exact a1 a h
      · exact a2 a h

set_option maxRecDepth 100000

/-- C20 (counterexample): bring-up of board 0 with an ideal Z8536, then the init
of a bi record on signal 3 with the directive `event 42`, then `init (1)`.
`init (0)` returns `OK`; in the log of the lifecycle the port interrupt enable
(`0xc0` to `PCSA`, actions 52 and 53), the master interrupt enable (`0x80` to
`MIC`, actions 82 and 83) and the bus interrupt level enable (action 88) all
precede the `config_int` write of 42 to `events[0][3]` (action 89). -/
theorem lifecycle_enables_before_event_write :
    (init env_ideal drv_boot 0).1 = OK ∧
      (lifecycle env_ideal drv_boot [(RecType.bi, rec_bi_event 3 42)]).log[52]? =
        some (Action.ctrlWrite 0 PCSA) ∧
      (lifecycle env_ideal drv_boot [(RecType.bi, rec_bi_event 3 42)]).log[53]? =
        some (Action.ctrlWrite 0 0xc0) ∧
      (lifecycle env_ideal drv_boot [(RecType.bi, rec_bi_event 3 42)]).log[82]? =
        some (Action.ctrlWrite 0 MIC) ∧
      (lifecycle env_ideal drv_boot [(RecType.bi, rec_bi_event 3 42)]).log[83]? =
        some (Action.ctrlWrite 0 0x80) ∧
      (lifecycle env_ideal drv_boot [(RecType.bi, rec_bi_event 3 42)]).log[88]? =
        some (Action.enableLevel IT_LEVEL) ∧
      (lifecycle env_ideal drv_boot [(RecType.bi, rec_bi_event 3 42)]).log[89]? =
        some (Action.eventsWrite 0 3 42) := by
  decide

/-- C20 (amended): in the lifecycle order fixed by the framework (`init (0)`,
then the record init calls, then `init (1)`) with an `init (0)` that returns
`OK`: the log starts with the bring-up of the boards found present, in which the
Event Table of the board is cleared first and the interrupts are enabled
afterwards, with all pattern bits masked off (`bringUpLog`); all that follows,
the `config_int` writes to the Event Table included, are Event Table writes and
controller accesses of the record init calls.  Each `config_int` call writes
`events[card][signal]` as its first action, before the controller accesses that
arm the signal (Pattern Transition and Pattern Mask registers of its port). -/
theorem lifecycle_order :
    (∀ (env : Env) (s : Driver) (recs : List (RecType × Record)),
      (init env s 0).1 = OK →
      ∃ rest, (lifecycle env s recs).log =
          s.log ++ ((if env.probe 0 = true then bringUpLog 0 else []) ++
            (if env.probe 1 = true then bringUpLog 1 else [])) ++ rest ∧
        ∀ a ∈ rest, a.isTableOrCtrl = true) ∧
    (∀ (env : Env) (s : Driver) (card : Nat) (signal event : Int),
      ∃ pt pm : Nat, (config_int env s card signal event).2.log =
        s.log ++ Action.eventsWrite card signal.toNat (toShort event) ::
          armLog card signal pt pm) := by
  refine ⟨fun env s recs hok => ?_, config_int_log⟩
  obtain ⟨l, hl, hall⟩ := init_records_log env recs (init env s 0).2
  refine ⟨l, ?_, hall⟩
  unfold lifecycle
  simp only []
  rw [(init_after env _ 1 (by decide)).2.2.2.2.2, hl, init_before_ok_log env s hok]

/-- Instance of C20 (amended): the lifecycle with board 0, an ideal Z8536 and a
bi record on signal 3 with the directive `event 42`. -/
theorem lifecycle_order_witness :
    ∃ rest, (lifecycle env_ideal drv_boot [(RecType.bi, rec_bi_event 3 42)]).log =
        drv_boot.log ++ ((if env_ideal.probe 0 = true then bringUpLog 0 else []) ++
          (if env_ideal.probe 1 = true then bringUpLog 1 else [])) ++ rest ∧
      ∀ a ∈ rest, a.isTableOrCtrl = true :=
  lifecycle_order.1 env_ideal drv_boot [(RecType.bi, rec_bi_event 3 42)] (by decide)

/-! ## Failure of `config_dir` and well-formedness of the direction state -/

/-- C24: `config_dir` is atomic on failure: for every direction state and every
request (board, signal, width, direction) on which `config_dir` returns `ERROR`,
the direction state after the call is the state before it, so for both boards
`dirs` and `mdirs` are exactly what they were. -/
theorem config_dir_error_atomic (st : DirState) (card : Nat) (signal nobt direction : Int)
    (h : (config_dir st card signal nobt direction).1 = ERROR) :
    (config_dir st card signal nobt direction).2 = st ∧
      ∀ c : Nat, (config_dir st card signal nobt direction).2.dirs c = st.dirs c ∧
        (config_dir st card signal nobt direction).2.mdirs c = st.mdirs c := by
  have hc := (config_dir_error st card signal nobt direction).1 h
  rw [config_dir_of_conflict st card signal nobt direction hc]
  exact ⟨rfl, fun _ => ⟨rfl, rfl⟩⟩

/-- Instance of C24: with group 2 of board 0 configured as input, the request
(signal 16, width 1, output) fails and leaves the direction state untouched. -/
theorem config_dir_error_atomic_witness :
    (config_dir st_in16 0 16 1 1).1 = ERROR ∧
      ((config_dir st_in16 0 16 1 1).2 = st_in16 ∧
        ∀ c : Nat, (config_dir st_in16 0 16 1 1).2.dirs c = st_in16.dirs c ∧
          (config_dir st_in16 0 16 1 1).2.mdirs c = st_in16.mdirs c) :=
  ⟨by decide, config_dir_error_atomic st_in16 0 16 1 1 (by decide)⟩

/-- C25: in every direction state reachable from `dirs = mdirs = 0` by
`config_dir` calls with `0 <= signal`, `1 <= nobt`, `signal + nobt <= 96` and
`direction` 0 or 1, for every board each set bit of `dirs[card]` is set in
`mdirs[card]` and `mdirs[card] < 2^12`. -/
theorem reachable_dirs_within_mdirs (st : DirState) (h : Reachable st) (card : Nat) :
    (∀ i : Nat, (st.dirs card).testBit i = true → (st.mdirs card).testBit i = true) ∧
      st.mdirs card < 2 ^ 12 :=
  ⟨(h.inv card).1, (h.inv card).2.2⟩

/-- Instance of C25: the state after an input request on signal 16 and an output
request on signal 24 of board 0. -/
theorem reachable_dirs_within_mdirs_witness :
    (∀ i : Nat, (st_mixed.dirs 0).testBit i = true → (st_mixed.mdirs 0).testBit i = true) ∧
      st_mixed.mdirs 0 < 2 ^ 12 :=
  reachable_dirs_within_mdirs st_mixed st_mixed_reachable 0

/-! ## `config_int` on an ideal controller -/

theorem config_int_eq_port (env : Env) (s : Driver) (card : Nat) (signal event : Int) :
    config_int env s card signal event =
      if signal.tdiv 8 = 0 then
        config_int_port env card PTA PMA (toU8 (1 <<< (signal - signal.tdiv 8 * 8).toNat))
          (ctrlR env card (setEvent card signal.toNat (toShort event) s)).2
      else
        config_int_port env card PTB PMB (toU8 (1 <<< (signal - signal.tdiv 8 * 8).toNat))
          (setEvent card signal.toNat (toShort event) s) := by
  unfold config_int config_int_port
  rfl

theorem chip_append (card : Nat) (log : List Action) (a : Action) :
    chip card (log ++ [a]) = Z8536.step card (chip card log) a := by
  unfold chip
  rw [List.foldl_append]
  rfl

theorem chip_other (card c : Nat) (h : c ≠ card) (log : List Action) (a : Action)
    (ha : a = Action.ctrlRead card ∨ (∃ v, a = Action.ctrlWrite card v) ∨
      ∃ i v, a = Action.eventsWrite card i v) :
    chip c (log ++ [a]) = chip c log := by
  rw [chip_append]
  have h' : card ≠ c := fun e => h e.symm
  rcases ha with rfl | ⟨v, rfl⟩ | ⟨i, v, rfl⟩
  · simp [Z8536.step, h']
  · simp [Z8536.step, h']
  · simp [Z8536.step]

theorem chipAt_setEvent {card : Nat} {s : Driver} {regs : Nat → Nat} (c i : Nat) (v : Int)
    (h : ChipAt card s.log regs) : ChipAt card (setEvent c i v s).log regs := by
  unfold ChipAt at *
  rw [setEvent_log, chip_append]
  exact h

theorem chipAt_read {card : Nat} {s : Driver} {regs : Nat → Nat} (env : Env)
    (h : ChipAt card s.log regs) : ChipAt card (ctrlR env card s).2.log regs := by
  unfold ChipAt at *
  rw [ctrlR_log, chip_append]
  simp [Z8536.step, Z8536.read, h.1, h.2]

theorem chipAt_regRead {card : Nat} {s : Driver} {regs : Nat → Nat} (env : Env)
    (hideal : IdealCtrl env) (R : Nat) (h : ChipAt card s.log regs) :
    (ctrlR env card (ctrlW card R s)).1 = toU8 (regs R) ∧
      ChipAt card (ctrlR env card (ctrlW card R s)).2.log regs := by
  unfold ChipAt at *
  obtain ⟨hm, hr⟩ := h
  have hw : chip card (ctrlW card R s).log = { chip card s.log with mode := 1, ptr := R } := by
    rw [ctrlW_log, chip_append]
    simp [Z8536.step, Z8536.write, hm]
  constructor
  · show toU8 (env.ctrl card (ctrlW card R s).log) = _
    rw [hideal, hw]
    simp [Z8536.read, hr]
  · rw [ctrlR_log, chip_append, hw]
    simp [Z8536.step, Z8536.read, hr]

theorem chipAt_regWrite {card : Nat} {s : Driver} {regs : Nat → Nat} (R v : Nat)
    (hR : R ≠ MIC) (h : ChipAt card s.log regs) :
    ChipAt card (ctrlW card v (ctrlW card R s)).log (Function.update regs R v) := by
  unfold ChipAt at *
  obtain ⟨hm, hr⟩ := h
  rw [ctrlW_log, chip_append, ctrlW_log, chip_append]
  simp [Z8536.step, Z8536.write, hm, hr, hR]
theorem toU8_lt (n : Nat) : toU8 n < 2 ^ 8 := Nat.mod_lt _ (by norm_num)

theorem toU8_of_lt {n : Nat} (h : n < 2 ^ 8) : toU8 n = n := Nat.mod_eq_of_lt h

theorem config_int_mask_eq (signal : Int) (h0 : 0 ≤ signal) :
    toU8 (1 <<< (signal - signal.tdiv 8 * 8).toNat) = 2 ^ (signal % 8).toNat := by
  rw [Int.tdiv_eq_ediv h0 (by decide)]
  have e : (signal - signal / 8 * 8).toNat = (signal % 8).toNat := by omega
  have hb : (signal % 8).toNat < 8 := by omega
  rw [e, Nat.one_shiftLeft]
  exact toU8_of_lt (Nat.pow_lt_pow_right (by norm_num) hb)

theorem config_int_port_ideal (env : Env) (hideal : IdealCtrl env) (card ptr pmr mask : Nat)
    (s : Driver) (regs : Nat → Nat) (hpt : ptr ≠ MIC) (hpm : pmr ≠ MIC) (hne : pmr ≠ ptr)
    (hmask : mask < 2 ^ 8) (h : ChipAt card s.log regs) :
    (config_int_port env card ptr pmr mask s).1 = OK ∧
      ChipAt card (config_int_port env card ptr pmr mask s).2.log
        (Function.update (Function.update regs ptr (toU8 (regs ptr) ||| mask)) pmr
          (toU8 (regs pmr) ||| mask)) := by
  have e8 : ∀ x : Nat, toU8 (toU8 x ||| mask) = toU8 x ||| mask := fun x =>
    toU8_of_lt (Nat.or_lt_two_pow (toU8_lt x) hmask)
  obtain ⟨v1, h1⟩ := chipAt_regRead env hideal ptr h
  have h2 := chipAt_regWrite ptr (toU8 ((ctrlR env card (ctrlW card ptr s)).1 ||| mask)) hpt h1
  obtain ⟨v3, h3⟩ := chipAt_regRead env hideal pmr h2
  have h4 := chipAt_regWrite pmr
    (toU8 ((ctrlR env card (ctrlW card pmr (ctrlW card
      (toU8 ((ctrlR env card (ctrlW card ptr s)).1 ||| mask))
      (ctrlW card ptr (ctrlR env card (ctrlW card ptr s)).2)))).1 ||| mask)) hpm h3
  obtain ⟨v5, h5⟩ := chipAt_regRead env hideal ptr h4
  obtain ⟨v6, h6⟩ := chipAt_regRead env hideal pmr h5
  rw [Function.update_noteq hne] at v3
  rw [Function.update_noteq hne.symm, Function.update_same] at v5
  rw [Function.update_same] at v6
  unfold config_int_port
  simp only []
  rw [v1, e8] at h2 h3 h4 h5 h6 v5 v6 v3 ⊢
  rw [v3, e8] at h4 h5 h6 v5 v6 ⊢
  rw [v5, v6, e8, e8]
  simp only [ne_eq, not_true_eq_false, or_self, if_false]
  exact ⟨trivial, h6⟩
theorem setEvent_events (card signal : Nat) (v : Int) (s : Driver) :
    (setEvent card signal v s).events =
      Function.update s.events card (Function.update (s.events card) signal v) := rfl

theorem config_int_events (env : Env) (s : Driver) (card : Nat) (signal event : Int) :
    (config_int env s card signal event).2.events =
      Function.update s.events card
        (Function.update (s.events card) signal.toNat (toShort event)) := by
  unfold config_int
  simp only []
  split_ifs <;> simp only [ctrlW_events, ctrlR_events, setEvent_events]

theorem toShort_of_range (n : Int) (h : -32768 ≤ n ∧ n ≤ 32767) : toShort n = n := by
  unfold toShort
  omega

theorem chip_foldl_other (card c : Nat) (h : c ≠ card) (l : List Action)
    (hl : ∀ a ∈ l, a = Action.ctrlRead card ∨ (∃ v, a = Action.ctrlWrite card v) ∨
      ∃ i v, a = Action.eventsWrite card i v) (log : List Action) :
    chip c (log ++ l) = chip c log := by
  induction l generalizing log with
  | nil => rw [List.append_nil]
  | cons a l ih =>
    have e : log ++ a :: l = (log ++ [a]) ++ l := by simp
    rw [e, ih (fun b hb => hl b (List.mem_cons_of_mem a hb)),
      chip_other card c h log a (hl a (List.mem_cons_self a l))]

theorem config_int_chip_other (env : Env) (s : Driver) (card : Nat) (signal event : Int)
    (c : Nat) (h : c ≠ card) :
    chip c (config_int env s card signal event).2.log = chip c s.log := by
  obtain ⟨pt, pm, e⟩ := config_int_log env s card signal event
  rw [e]
  apply chip_foldl_other card c h
  unfold armLog
  split_ifs <;>
    simp only [List.mem_cons, List.mem_singleton, List.not_mem_nil, or_false,
      forall_eq_or_imp, forall_eq] <;>
    simp

/-- C21: with controller reads that are those of ideal Z8536s, for every board,
every signal in 0..15, every event number (a `short`) and a Z8536 of the board
in State 0 with internal registers `regs`: `config_int` returns `OK`, stores the
event number in `events[card][signal]` and leaves the other slots of the Event
Table unchanged; afterwards the Z8536 is in State 0 again, its Pattern
Transition and Pattern Mask registers of port A (signal below 8) or port B hold
their old 8 bit values OR `1 << (signal mod 8)`, every other register of it and
the Z8536 of any other board are unchanged; each bit that was set in one of the
two registers is still set. -/
theorem config_int_arms (env : Env) (hideal : IdealCtrl env) (s : Driver) (card : Nat)
    (signal event : Int) (regs : Nat → Nat) (h0 : 0 ≤ signal) (h15 : signal ≤ 15)
    (hev : -32768 ≤ event ∧ event ≤ 32767) (hchip : ChipAt card s.log regs) :
    (config_int env s card signal event).1 = OK ∧
      (config_int env s card signal event).2.events card signal.toNat = event ∧
      (∀ c i : Nat, ¬ (c = card ∧ i = signal.toNat) →
        (config_int env s card signal event).2.events c i = s.events c i) ∧
      (chip card (config_int env s card signal event).2.log).mode = 0 ∧
      (chip card (config_int env s card signal event).2.log).regs
          (if signal < 8 then PTA else PTB) =
        toU8 (regs (if signal < 8 then PTA else PTB)) ||| 2 ^ (signal % 8).toNat ∧
      (chip card (config_int env s card signal event).2.log).regs
          (if signal < 8 then PMA else PMB) =
        toU8 (regs (if signal < 8 then PMA else PMB)) ||| 2 ^ (signal % 8).toNat ∧
      (∀ q : Nat, q ≠ (if signal < 8 then PTA else PTB) → q ≠ (if signal < 8 then PMA else PMB) →
        (chip card (config_int env s card signal event).2.log).regs q = regs q) ∧
      (∀ c : Nat, c ≠ card →
        chip c (config_int env s card signal event).2.log = chip c s.log) ∧
      (∀ i : Nat, i < 8 →
        ((regs (if signal < 8 then PTA else PTB)).testBit i = true →
          ((chip card (config_int env s card signal event).2.log).regs
            (if signal < 8 then PTA else PTB)).testBit i = true) ∧
        ((regs (if signal < 8 then PMA else PMB)).testBit i = true →
          ((chip card (config_int env s card signal event).2.log).regs
            (if signal < 8 then PMA else PMB)).testBit i = true)) := by
  have hmask : (2 : Nat) ^ (signal % 8).toNat < 2 ^ 8 :=
    Nat.pow_lt_pow_right (by norm_num) (by omega)
  have hev1 : (config_int env s card signal event).2.events card signal.toNat = event := by
    rw [config_int_events, Function.update_same, Function.update_same, toShort_of_range event hev]
  have hev2 : ∀ c i : Nat, ¬ (c = card ∧ i = signal.toNat) →
      (config_int env s card signal event).2.events c i = s.events c i := by
    intro c i hci
    rw [config_int_events]
    by_cases hc : c = card
    · subst hc
      rw [Function.update_same, Function.update_noteq (fun e => hci ⟨rfl, e⟩)]
    · rw [Function.update_noteq hc]
  have main : ∀ ptr pmr : Nat, ptr ≠ MIC → pmr ≠ MIC → pmr ≠ ptr →
      ∀ s0 : Driver, ChipAt card s0.log regs →
      config_int env s card signal event =
        config_int_port env card ptr pmr (2 ^ (signal % 8).toNat) s0 →
      (config_int env s card signal event).1 = OK ∧
        (chip card (config_int env s card signal event).2.log).mode = 0 ∧
        (chip card (config_int env s card signal event).2.log).regs ptr =
          toU8 (regs ptr) ||| 2 ^ (signal % 8).toNat ∧
        (chip card (config_int env s card signal event).2.log).regs pmr =
          toU8 (regs pmr) ||| 2 ^ (signal % 8).toNat ∧
        (∀ q : Nat, q ≠ ptr → q ≠ pmr →
          (chip card (config_int env s card signal event).2.log).regs q = regs q) := by
    intro ptr pmr hpt hpm hne s0 hs0 e
    obtain ⟨hok, hm, hr⟩ := config_int_port_ideal env hideal card ptr pmr _ s0 regs hpt hpm hne
      hmask hs0
    rw [e]
    refine ⟨hok, hm, ?_, ?_, ?_⟩
    · rw [hr, Function.update_noteq hne.symm, Function.update_same]
    · rw [hr, Function.update_same]
    · intro q hq1 hq2
      rw [hr, Function.update_noteq hq2, Function.update_noteq hq1]
  have bits : ∀ (x : Nat) (i : Nat), i < 8 → x.testBit i = true →
      (toU8 x ||| 2 ^ (signal % 8).toNat).testBit i = true := by
    intro x i hi hx
    rw [Nat.testBit_or, toU8, Nat.testBit_mod_two_pow, hx]
    simp [hi]
  have hcfg := config_int_eq_port env s card signal event
  rw [config_int_mask_eq signal h0, Int.tdiv_eq_ediv h0 (by decide)] at hcfg
  by_cases hlt : signal < 8
  · have hg : signal / 8 = 0 := by omega
    rw [if_pos hg] at hcfg
    simp only [if_pos hlt]
    obtain ⟨a, b, c, d, e⟩ := main PTA PMA (by decide) (by decide) (by decide) _
      (chipAt_read env (chipAt_setEvent card signal.toNat (toShort event) hchip)) hcfg
    exact ⟨a, hev1, hev2, b, c, d, e, config_int_chip_other env s card signal event,
      fun i hi => ⟨fun hx => c ▸ bits _ i hi hx, fun hx => d ▸ bits _ i hi hx⟩⟩
  · have hg : ¬ signal / 8 = 0 := by omega
    rw [if_neg hg] at hcfg
    simp only [if_neg hlt]
    obtain ⟨a, b, c, d, e⟩ := main PTB PMB (by decide) (by decide) (by decide) _
      (chipAt_setEvent card signal.toNat (toShort event) hchip) hcfg
    exact ⟨a, hev1, hev2, b, c, d, e, config_int_chip_other env s card signal event,
      fun i hi => ⟨fun hx => c ▸ bits _ i hi hx, fun hx => d ▸ bits _ i hi hx⟩⟩

/-- Instance of C21: after the bring-up of board 0 with an ideal Z8536,
`config_int (0, 3, 42)` returns `OK`, registers event 42 for signal 3 and sets
bit 3 of the Pattern Transition and Pattern Mask registers of port A; a following
`config_int (0, 5, 7)` leaves bit 3 set: both registers hold `0x28`. -/
theorem config_int_arms_witness :
    (config_int env_ideal drv_up 0 3 42).1 = OK ∧
      (config_int env_ideal drv_up 0 3 42).2.events 0 3 = 42 ∧
      (chip 0 (config_int env_ideal drv_up 0 3 42).2.log).regs PTA =
        toU8 ((chip 0 drv_up.log).regs PTA) ||| 2 ^ 3 ∧
      (chip 0 (config_int env_ideal drv_up 0 3 42).2.log).regs PMA =
        toU8 ((chip 0 drv_up.log).regs PMA) ||| 2 ^ 3 ∧
      (chip 0 (config_int env_ideal (config_int env_ideal drv_up 0 3 42).2 0 5 7).2.log).regs
        PTA = 0x28 ∧
      (chip 0 (config_int env_ideal (config_int env_ideal drv_up 0 3 42).2 0 5 7).2.log).regs
        PMA = 0x28 :=
  have h := config_int_arms env_ideal (fun _ _ => rfl) drv_up 0 3 42 (chip 0 drv_up.log).regs
    (by decide) (by decide) (by decide) ⟨by decide, rfl⟩
  ⟨h.1, h.2.1, h.2.2.2.2.1, h.2.2.2.2.2.1, by decide, by decide⟩

/-! ## Presence of a board whose bring-up fails -/

@[simp] theorem act_present (a : Action) (s : Driver) : (act a s).present = s.present := rfl

@[simp] theorem setNit_present (card v : Nat) (s : Driver) :
    (setNit card v s).present = s.present := rfl

@[simp] theorem setPresent_present (card : Nat) (b : Bool) (s : Driver) :
    (setPresent card b s).present = Function.update s.present card b := rfl

theorem clearEvents_present (card : Nat) (is : List Nat) (s : Driver) :
    (clearEvents card is s).present = s.present := by
  induction is generalizing s with
  | nil => rfl
  | cons i is ih => simp [clearEvents, ih]

theorem init_port_mode_present (env : Env) (card pms dpp dd mode : Nat) (s : Driver) :
    (init_port_mode env card pms dpp dd mode s).2.present = s.present := by
  unfold init_port_mode
  simp only []
  split_ifs <;> simp only [ctrlW_present, ctrlR_present]

theorem init_port_interrupts_present (env : Env) (card pp pt pm iv pcs it : Nat) (s : Driver) :
    (init_port_interrupts env card pp pt pm iv pcs it s).2.present = s.present := by
  unfold init_port_interrupts
  simp only []
  split_ifs <;> simp only [ctrlW_present, ctrlR_present]

theorem init_common_present (env : Env) (card : Nat) (s : Driver) :
    (init_common env card s).2.present = s.present := by
  unfold init_common
  simp only []
  split_ifs <;> simp only [ctrlW_present, ctrlR_present]

theorem init_connect_present (env : Env) (card : Nat) (s : Driver) :
    (init_connect env card s).2.present = s.present := by
  unfold init_connect
  simp only []
  split_ifs <;> simp only [act_present]

theorem init_port_mode_status (env : Env) (card pms dpp dd mode : Nat) (s : Driver) :
    (init_port_mode env card pms dpp dd mode s).1 = OK ∨
      (init_port_mode env card pms dpp dd mode s).1 = ERROR := by
  unfold init_port_mode
  simp only []
  split_ifs
  · exact Or.inr rfl
  · exact Or.inl rfl

theorem init_port_interrupts_status (env : Env) (card pp pt pm iv pcs it : Nat) (s : Driver) :
    (init_port_interrupts env card pp pt pm iv pcs it s).1 = OK ∨
      (init_port_interrupts env card pp pt pm iv pcs it s).1 = ERROR := by
  unfold init_port_interrupts
  simp only []
  split_ifs
  · exact Or.inr rfl
  · exact Or.inl rfl

theorem init_common_status (env : Env) (card : Nat) (s : Driver) :
    (init_common env card s).1 = OK ∨ (init_common env card s).1 = ERROR := by
  unfold init_common
  simp only []
  split_ifs
  · exact Or.inr rfl
  · exact Or.inl rfl

theorem init_connect_status (env : Env) (card : Nat) (s : Driver) :
    (init_connect env card s).1 = OK ∨ (init_connect env card s).1 = ERROR := by
  unfold init_connect
  simp only []
  split_ifs
  · exact Or.inr rfl
  · exact Or.inr rfl
  · exact Or.inr rfl
  · exact Or.inl rfl

theorem init_card_present (env : Env) (s : Driver) (card : Nat) :
    (init_card env s card).2.present = Function.update s.present card (env.probe card) := by
  unfold init_card
  by_cases hp : env.probe card = true
  · rw [if_pos hp, hp]
    simp only []
    split_ifs <;>
      simp only [init_port_mode_present, init_port_interrupts_present, init_common_present,
        init_connect_present, ctrlW_present, ctrlR_present, clearEvents_present, setNit_present,
        setPresent_present]
  · rw [if_neg hp]
    have hf : env.probe card = false := by simpa using hp
    rw [hf]
    rfl

theorem init_card_status (env : Env) (s : Driver) (card : Nat) :
    (init_card env s card).1 = OK ∨ (init_card env s card).1 = ERROR := by
  unfold init_card
  by_cases hp : env.probe card = true
  · rw [if_pos hp]
    simp only []
    split_ifs
    · exact init_port_mode_status _ _ _ _ _ _ _
    · exact init_port_mode_status _ _ _ _ _ _ _
    · exact init_port_interrupts_status _ _ _ _ _ _ _ _ _
    · exact init_port_interrupts_status _ _ _ _ _ _ _ _ _
    · exact init_common_status _ _ _
    · exact init_connect_status _ _ _
  · rw [if_neg hp]
    exact Or.inl rfl
theorem init_before_eq (env : Env) (s : Driver) (hmap : env.mapAddr = true) :
    init env s 0 =
      if (init_card env s 0).1 ≠ OK then init_card env s 0
      else if (init_card env (init_card env s 0).2 1).1 ≠ OK then
        init_card env (init_card env s 0).2 1
      else (OK, (init_card env (init_card env s 0).2 1).2) := by
  unfold init
  rw [if_neg (by decide), if_neg (by simp [hmap])]
  rfl

theorem init_bi_record_plain (env : Env) (s : Driver) (r : Record)
    (hl : r.linkType = LinkType.VME_IO) (hc : r.card < 2) (hp : s.present r.card.toNat = true)
    (h95 : r.signal ≤ 95) (hparm : r.parm = ParmEvent.absent) :
    (init_bi_record env s r).status = (config_dir s.dirst r.card.toNat r.signal 1 0).1 ∧
      (init_bi_record env s r).record.dpvt = 0 := by
  simp only [init_bi_record, hl, ICV196_MAX_CARDS, ICV196_MAX_CHANS, hparm]
  split_ifs <;> simp_all [markBad, viaConfigDir] <;> omega

theorem ctrlR_val (env : Env) (card : Nat) (s : Driver) :
    (ctrlR env card s).1 = toU8 (env.ctrl card s.log) := rfl

theorem init_port_mode_ok_iff (env : Env) (card pms dpp dd mode : Nat) (s : Driver) :
    (init_port_mode env card pms dpp dd mode s).1 = OK ↔
      (toU8 (env.ctrl card (s.log ++ (portModeLog card pms dpp dd mode).take 7)) = mode ∧
        toU8 (env.ctrl card (s.log ++ (portModeLog card pms dpp dd mode).take 9)) = 0x00 ∧
        toU8 (env.ctrl card (s.log ++ (portModeLog card pms dpp dd mode).take 11)) = 0xff) := by
  unfold init_port_mode
  simp only []
  split_ifs with hc
  · simp only [not_or, not_not, ne_eq, ctrlR_val, ctrlW_log, ctrlR_log, List.append_assoc,
      List.cons_append, List.nil_append] at hc
    constructor
    · intro h
      exact absurd h ERROR_ne_OK
    · intro h
      exact absurd h (by
        intro h'
        rcases hc with h1 | h1 | h1
        · exact h1 h'.1
        · exact h1 h'.2.1
        · exact h1 h'.2.2)
  · simp only [not_or, not_not, ctrlR_val, ctrlW_log, ctrlR_log, List.append_assoc,
      List.cons_append, List.nil_append] at hc
    exact ⟨fun _ => hc, fun _ => rfl⟩

theorem init_port_interrupts_ok_iff (env : Env) (card pp pt pm iv pcs it : Nat) (s : Driver) :
    (init_port_interrupts env card pp pt pm iv pcs it s).1 = OK ↔
      (toU8 (env.ctrl card (s.log ++ (portInterruptsLog card pp pt pm iv pcs it).take 11)) =
          0xff ∧
        toU8 (env.ctrl card (s.log ++ (portInterruptsLog card pp pt pm iv pcs it).take 13)) =
          0x00 ∧
        toU8 (env.ctrl card (s.log ++ (portInterruptsLog card pp pt pm iv pcs it).take 15)) =
          0x00 ∧
        toU8 (env.ctrl card (s.log ++ (portInterruptsLog card pp pt pm iv pcs it).take 17)) =
          it) := by
  unfold init_port_interrupts
  simp only []
  split_ifs with hc
  · simp only [ne_eq, ctrlR_val, ctrlW_log, ctrlR_log, List.append_assoc,
      List.cons_append, List.nil_append] at hc
    constructor
    · intro h
      exact absurd h ERROR_ne_OK
    · intro h'
      rcases hc with h1 | h1 | h1 | h1
      · exact absurd h'.1 h1
      · exact absurd h'.2.1 h1
      · exact absurd h'.2.2.1 h1
      · exact absurd h'.2.2.2 h1
  · simp only [not_or, not_not, ctrlR_val, ctrlW_log, ctrlR_log, List.append_assoc,
      List.cons_append, List.nil_append] at hc
    exact ⟨fun _ => hc, fun _ => rfl⟩

theorem init_common_ok_iff (env : Env) (card : Nat) (s : Driver) :
    (init_common env card s).1 = OK ↔
      toU8 (env.ctrl card (s.log ++ [Action.ctrlWrite card MCC, Action.ctrlWrite card 0x84,
        Action.ctrlWrite card MIC, Action.ctrlWrite card 0x80,
        Action.ctrlWrite card MCC])) = 0x84 := by
  unfold init_common
  simp only []
  split_ifs with hc
  · simp only [ne_eq, ctrlR_val, ctrlW_log, List.append_assoc,
      List.cons_append, List.nil_append] at hc
    exact ⟨fun h => absurd h ERROR_ne_OK, fun h => absurd h hc⟩
  · simp only [not_not, ctrlR_val, ctrlW_log, List.append_assoc,
      List.cons_append, List.nil_append] at hc
    exact ⟨fun _ => hc, fun _ => rfl⟩

theorem init_connect_ok_iff (env : Env) (card : Nat) (s : Driver) :
    (init_connect env card s).1 = OK ↔
      (env.connect (IT_VECTOR + 2 * card) = true ∧
        env.connect (IT_VECTOR + 2 * card + 1) = true ∧ env.enable = true) := by
  unfold init_connect
  simp only []
  split_ifs with h1 h2 h3
  · exact ⟨fun h => absurd h ERROR_ne_OK, fun h => absurd h.1 h1⟩
  · exact ⟨fun h => absurd h ERROR_ne_OK, fun h => absurd h.2.1 h2⟩
  · exact ⟨fun h => absurd h ERROR_ne_OK, fun h => absurd h.2.2 h3⟩
  · exact ⟨fun _ => ⟨not_not.1 h1, not_not.1 h2, not_not.1 h3⟩, fun _ => rfl⟩

/-- The bring-up of a board found present goes through exactly if all its checks
pass. -/
theorem init_card_ok_iff (env : Env) (s : Driver) (card : Nat) (hp : env.probe card = true) :
    (init_card env s card).1 = OK ↔ BringUpChecks env s.log card := by
  unfold BringUpChecks readback
  unfold init_card
  rw [if_pos hp]
  simp only []
  split_ifs with h1 h2 h3 h4 h5
  · refine ⟨fun h => absurd h h1, fun hB => absurd ?_ h1⟩
    rw [init_port_mode_ok_iff]
    simp only [ctrlW_log, ctrlR_log, setPresent_log, setNit_log, clearEvents_log,
      List.append_assoc]
    exact hB.1
  · refine ⟨fun h => absurd h h2, fun hB => absurd ?_ h2⟩
    rw [init_port_mode_ok_iff]
    simp only [init_port_mode_log, ctrlW_log, ctrlR_log, setPresent_log, setNit_log,
      clearEvents_log, List.append_assoc]
    exact hB.2.1
  · refine ⟨fun h => absurd h h3, fun hB => absurd ?_ h3⟩
    rw [init_port_interrupts_ok_iff]
    simp only [init_port_mode_log, ctrlW_log, ctrlR_log, setPresent_log, setNit_log,
      clearEvents_log, List.append_assoc]
    exact hB.2.2.1
  · refine ⟨fun h => absurd h h4, fun hB => absurd ?_ h4⟩
    rw [init_port_interrupts_ok_iff]
    simp only [init_port_interrupts_log, init_port_mode_log, ctrlW_log, ctrlR_log,
      setPresent_log, setNit_log, clearEvents_log, List.append_assoc]
    exact hB.2.2.2.1
  · refine ⟨fun h => absurd h h5, fun hB => absurd ?_ h5⟩
    rw [init_common_ok_iff]
    simp only [init_port_interrupts_log, init_port_mode_log, ctrlW_log, ctrlR_log,
      setPresent_log, setNit_log, clearEvents_log, List.append_assoc]
    exact hB.2.2.2.2.1
  · have a := (init_port_mode_ok_iff _ _ _ _ _ _ _).1 (not_not.1 h1)
    have b := (init_port_mode_ok_iff _ _ _ _ _ _ _).1 (not_not.1 h2)
    have c := (init_port_interrupts_ok_iff _ _ _ _ _ _ _ _ _).1 (not_not.1 h3)
    have d := (init_port_interrupts_ok_iff _ _ _ _ _ _ _ _ _).1 (not_not.1 h4)
    have e := (init_common_ok_iff _ _ _).1 (not_not.1 h5)
    simp only [init_port_interrupts_log, init_port_mode_log, ctrlW_log, ctrlR_log,
      setPresent_log, setNit_log, clearEvents_log, List.append_assoc] at a b c d e
    rw [init_connect_ok_iff]
    exact ⟨fun hc => ⟨a, b, c, d, e, hc⟩, fun hB => hB.2.2.2.2.2⟩

/-- C22: for every behaviour of the hardware and of the EPICS calls in phase
"before" (with the address mapping done) and every board `c` found present whose
section of the loop is executed (the sections of the boards before it went
through; the section starts after the actions of the bring-up of these boards):
after `init (0)` the presence pointer of board `c` is set, whatever the outcome;
the section of board `c` goes through exactly if all its checks pass
(`BringUpChecks`: the fifteen verify readbacks, which are the reads at the listed
positions of `bringUpLog`, are the values written, the two interrupt routines
are installed and the interrupt level is enabled); if one of
the checks fails, `init (0)` returns `ERROR`; a later init of a bi record on a
signal up to 95 of board `c` passes the presence check: it is left unmarked and
returns what `config_dir` returns. -/
theorem init_error_leaves_present (env : Env) (s : Driver) (c : Nat)
    (hc : c < ICV196_MAX_CARDS) (hmap : env.mapAddr = true) (hp : env.probe c = true)
    (hreach : (init_cards env (List.range c) s).1 = OK) :
    (init env s 0).2.present c = true ∧
      (init_cards env (List.range c) s).2.log =
        s.log ++ (if c = 1 ∧ env.probe 0 = true then bringUpLog 0 else []) ∧
      ((init_card env (init_cards env (List.range c) s).2 c).1 = OK ↔
        BringUpChecks env (init_cards env (List.range c) s).2.log c) ∧
      (¬ BringUpChecks env (init_cards env (List.range c) s).2.log c →
        (init env s 0).1 = ERROR) ∧
      ((init_card env (init_cards env (List.range c) s).2 c).1 ≠ OK →
        (init env s 0).1 = ERROR) ∧
      (∀ (env' : Env) (r : Record), r.linkType = LinkType.VME_IO → r.card = (c : Int) →
        r.signal ≤ 95 → r.parm = ParmEvent.absent →
        (init_bi_record env' (init env s 0).2 r).status =
            (config_dir (init env s 0).2.dirst c r.signal 1 0).1 ∧
          (init_bi_record env' (init env s 0).2 r).record.dpvt = 0) ∧
      (∀ k ∈ [27, 29, 31, 39, 41, 43, 55, 57, 59, 61, 73, 75, 77, 79, 85],
        (bringUpLog c)[k]? = some (Action.ctrlRead c)) := by
  have hpres : (init env s 0).2.present c = true := by
    rw [init_before_eq env s hmap]
    have hc' : c = 0 ∨ c = 1 := by unfold ICV196_MAX_CARDS at hc; omega
    rcases hc' with rfl | rfl
    · split_ifs
      · rw [init_card_present, Function.update_same, hp]
      · rw [init_card_present, Function.update_noteq (by decide), init_card_present,
          Function.update_same, hp]
      · show (init_card env (init_card env s 0).2 1).2.present 0 = true
        rw [init_card_present, Function.update_noteq (by decide), init_card_present,
          Function.update_same, hp]
    · have h0 : (init_card env s 0).1 = OK := by
        have e : init_cards env (List.range 1) s =
            if (init_card env s 0).1 ≠ OK then init_card env s 0
            else (OK, (init_card env s 0).2) := rfl
        rw [e] at hreach
        by_contra hne
        rw [if_pos hne] at hreach
        exact hne hreach
      rw [if_neg (by simp [h0])]
      split_ifs
      · rw [init_card_present, Function.update_same, hp]
      · show (init_card env (init_card env s 0).2 1).2.present 1 = true
        rw [init_card_present, Function.update_same, hp]
  have hfailed : (init_card env (init_cards env (List.range c) s).2 c).1 ≠ OK →
      (init env s 0).1 = ERROR := by
    intro hfail
    rw [init_before_eq env s hmap]
    have hc' : c = 0 ∨ c = 1 := by unfold ICV196_MAX_CARDS at hc; omega
    rcases hc' with rfl | rfl
    · have e : init_cards env (List.range 0) s = (OK, s) := rfl
      rw [e] at hfail
      rw [if_pos hfail]
      exact (init_card_status env s 0).resolve_left hfail
    · have e : init_cards env (List.range 1) s =
          if (init_card env s 0).1 ≠ OK then init_card env s 0
          else (OK, (init_card env s 0).2) := rfl
      rw [e] at hreach hfail
      by_cases h0 : (init_card env s 0).1 ≠ OK
      · rw [if_pos h0] at hreach
        exact absurd hreach h0
      · rw [if_neg h0] at hfail
        rw [if_neg h0, if_pos hfail]
        exact (init_card_status env _ 1).resolve_left hfail
  have hlog : (init_cards env (List.range c) s).2.log =
      s.log ++ (if c = 1 ∧ env.probe 0 = true then bringUpLog 0 else []) := by
    have hc' : c = 0 ∨ c = 1 := by unfold ICV196_MAX_CARDS at hc; omega
    rcases hc' with rfl | rfl
    · have e : init_cards env (List.range 0) s = (OK, s) := rfl
      rw [e, if_neg (fun h => absurd h.1 (by decide)), List.append_nil]
    · have e : init_cards env (List.range 1) s =
          if (init_card env s 0).1 ≠ OK then init_card env s 0
          else (OK, (init_card env s 0).2) := rfl
      rw [e] at hreach ⊢
      by_cases h0 : (init_card env s 0).1 ≠ OK
      · rw [if_pos h0] at hreach
        exact absurd hreach h0
      · rw [if_neg h0]
        show (init_card env s 0).2.log = _
        rw [init_card_log_of_ok env s 0 (not_not.1 h0)]
        by_cases hp0 : env.probe 0 = true
        · rw [if_pos hp0, if_pos ⟨rfl, hp0⟩]
        · rw [if_neg hp0, if_neg (fun h => hp0 h.2)]
  have hiff := init_card_ok_iff env (init_cards env (List.range c) s).2 c hp
  refine ⟨hpres, hlog, hiff, fun hB => hfailed (fun hok => hB (hiff.1 hok)), hfailed, ?_, ?_⟩
  · intro env' r hl hcard h95 hparm
    have hcn : r.card.toNat = c := by omega
    have := init_bi_record_plain env' (init env s 0).2 r hl
      (by unfold ICV196_MAX_CARDS at hc; omega) (by rw [hcn]; exact hpres) h95 hparm
    rw [hcn] at this
    exact this
  · intro k hk
    simp only [List.mem_cons, List.mem_singleton, List.not_mem_nil, or_false] at hk
    rcases hk with h | h | h | h | h | h | h | h | h | h | h | h | h | h | h <;> subst h <;> rfl

/-- Instance of C22: board 0 found present, every controller read delivering 0, so
that the first verify (Port A Mode Specification, `0x05` written) fails:
`init (0)` returns `ERROR`, board 0 is left present and the init of a bi record
on signal 20 of board 0 leaves the record unmarked. -/
theorem init_error_leaves_present_witness :
    ¬ BringUpChecks env_zero drv_boot.log 0 ∧
      (init env_zero drv_boot 0).1 = ERROR ∧ (init env_zero drv_boot 0).2.present 0 = true ∧
      (init_bi_record env_zero (init env_zero drv_boot 0).2 (rec_at 20 1)).record.dpvt = 0 :=
  have h := init_error_leaves_present env_zero drv_boot 0 (by decide) rfl rfl (by decide)
  ⟨by decide, h.2.2.2.1 (by decide), h.1,
    (h.2.2.2.2.2.1 env_zero (rec_at 20 1) rfl rfl (by decide) rfl).2⟩

/-! ## Modes of port A and port B -/

theorem init_port_mode_ok (env : Env) (card pms dpp dd mode : Nat) (s : Driver)
    (h : (init_port_mode env card pms dpp dd mode s).1 = OK) :
    toU8 (env.ctrl card (s.log ++ (portModeLog card pms dpp dd mode).take 7)) = mode ∧
      toU8 (env.ctrl card (s.log ++ (portModeLog card pms dpp dd mode).take 9)) = 0x00 ∧
      toU8 (env.ctrl card (s.log ++ (portModeLog card pms dpp dd mode).take 11)) = 0xff := by
  unfold init_port_mode at h
  simp only [] at h
  split_ifs at h with hc
  · exact absurd h ERROR_ne_OK
  · simp only [not_or, not_not, ctrlR_val, ctrlW_log, ctrlR_log, List.append_assoc,
      List.cons_append, List.nil_append] at hc
    exact hc

theorem init_card_modes_ok (env : Env) (s : Driver) (card : Nat) (hp : env.probe card = true)
    (hok : (init_card env s card).1 = OK) :
    (init_port_mode env card PMSA DPPA DDA 0x05
        (ctrlW card 0x00 (ctrlW card 0x01 (ctrlW card MIC
          (ctrlR env card (clearEvents card (List.range 16)
            (setNit card (toU8 (compl32 (1 <<< IT_LEVEL))) (setPresent card true s)))).2)))).1 = OK ∧
      (init_port_mode env card PMSB DPPB DDB 0x04
        (init_port_mode env card PMSA DPPA DDA 0x05
          (ctrlW card 0x00 (ctrlW card 0x01 (ctrlW card MIC
            (ctrlR env card (clearEvents card (List.range 16)
              (setNit card (toU8 (compl32 (1 <<< IT_LEVEL)))
                (setPresent card true s)))).2)))).2).1 = OK := by
  unfold init_card at hok
  rw [if_pos hp] at hok
  simp only [] at hok
  split_ifs at hok with h1 h2 h3 h4 h5
  · exact absurd hok h1
  · exact absurd hok h2
  · exact absurd hok h3
  · exact absurd hok h4
  · exact absurd hok h5
  · exact ⟨not_not.1 h1, not_not.1 h2⟩
/-- C23 (counterexample): bring-up of board 0 with an ideal Z8536.  `init (0)`
returns `OK`; it writes `0x05` to the Port A Mode Specification register
(actions 20 and 21 of the log) and `0x04` to the Port B Mode Specification
register (actions 32 and 33), and these are the values the two registers hold
afterwards.  The two values differ in bit 0, the bit the source names "Latch on
Pattern Match": it is set for port A and clear for port B. -/
theorem init_port_b_mode_without_latch :
    (init env_ideal drv_boot 0).1 = OK ∧
      drv_up.log[20]? = some (Action.ctrlWrite 0 PMSA) ∧
      drv_up.log[21]? = some (Action.ctrlWrite 0 0x05) ∧
      drv_up.log[32]? = some (Action.ctrlWrite 0 PMSB) ∧
      drv_up.log[33]? = some (Action.ctrlWrite 0 0x04) ∧
      (chip 0 drv_up.log).regs PMSA = 0x05 ∧ (chip 0 drv_up.log).regs PMSB = 0x04 ∧
      Nat.testBit 0x05 0 = true ∧ Nat.testBit 0x04 0 = false := by
  decide

/-- C23 (amended): in phase "before", for every board found present whose
bring-up goes through, whatever the hardware delivers otherwise: the controller
accesses are those of `bringUpLog`, in which the section "Port A" (actions 20 to
31) writes `0x05` (bit port, OR mode, latch on pattern match) to the Port A Mode
Specification register, `0x00` to the Port A Data Path Polarity register and
`0xff` to the Port A Data Direction register and reads the three registers back,
and the section "Port B" (actions 32 to 43) writes `0x04` (bit port, OR mode,
without latch on pattern match) to the Port B Mode Specification register,
`0x00` to the Port B Data Path Polarity register and `0xff` to the Port B Data
Direction register and reads them back; the six readbacks delivered `0x05`,
`0x00`, `0xff` and `0x04`, `0x00`, `0xff`. -/
theorem init_port_modes (env : Env) (s : Driver) (card : Nat) (hp : env.probe card = true)
    (hok : (init_card env s card).1 = OK) :
    (init_card env s card).2.log = s.log ++ bringUpLog card ∧
      ((bringUpLog card).drop 20).take 12 =
        [Action.ctrlWrite card PMSA, Action.ctrlWrite card 0x05,
          Action.ctrlWrite card DPPA, Action.ctrlWrite card 0x00,
          Action.ctrlWrite card DDA, Action.ctrlWrite card 0xff,
          Action.ctrlWrite card PMSA, Action.ctrlRead card,
          Action.ctrlWrite card DPPA, Action.ctrlRead card,
          Action.ctrlWrite card DDA, Action.ctrlRead card] ∧
      ((bringUpLog card).drop 32).take 12 =
        [Action.ctrlWrite card PMSB, Action.ctrlWrite card 0x04,
          Action.ctrlWrite card DPPB, Action.ctrlWrite card 0x00,
          Action.ctrlWrite card DDB, Action.ctrlWrite card 0xff,
          Action.ctrlWrite card PMSB, Action.ctrlRead card,
          Action.ctrlWrite card DPPB, Action.ctrlRead card,
          Action.ctrlWrite card DDB, Action.ctrlRead card] ∧
      toU8 (env.ctrl card (s.log ++ (bringUpLog card).take 27)) = 0x05 ∧
      toU8 (env.ctrl card (s.log ++ (bringUpLog card).take 29)) = 0x00 ∧
      toU8 (env.ctrl card (s.log ++ (bringUpLog card).take 31)) = 0xff ∧
      toU8 (env.ctrl card (s.log ++ (bringUpLog card).take 39)) = 0x04 ∧
      toU8 (env.ctrl card (s.log ++ (bringUpLog card).take 41)) = 0x00 ∧
      toU8 (env.ctrl card (s.log ++ (bringUpLog card).take 43)) = 0xff := by
  obtain ⟨hA, hB⟩ := init_card_modes_ok env s card hp hok
  obtain ⟨a1, a2, a3⟩ := init_port_mode_ok _ _ _ _ _ _ _ hA
  obtain ⟨b1, b2, b3⟩ := init_port_mode_ok _ _ _ _ _ _ _ hB
  simp only [init_port_mode_log, ctrlW_log, ctrlR_log, setPresent_log, setNit_log,
    clearEvents_log, List.append_assoc] at a1 a2 a3 b1 b2 b3
  exact ⟨init_card_ok_log env s card hp hok, rfl, rfl, a1, a2, a3, b1, b2, b3⟩

/-- Instance of C23 (amended): bring-up of board 0 with an ideal Z8536. -/
theorem init_port_modes_witness :
    toU8 (env_ideal.ctrl 0 (drv_boot.log ++ (bringUpLog 0).take 27)) = 0x05 ∧
      toU8 (env_ideal.ctrl 0 (drv_boot.log ++ (bringUpLog 0).take 39)) = 0x04 :=
  have h := init_port_modes env_ideal drv_boot 0 rfl (by decide)
  ⟨h.2.2.2.1, h.2.2.2.2.2.2.1⟩

/-! ## Event directive of a bi record on a signal below 16 -/

theorem init_bi_record_event (env : Env) (s : Driver) (r : Record) (n : Int)
    (hl : r.linkType = LinkType.VME_IO) (hc : r.card < 2) (hp : s.present r.card.toNat = true)
    (h16 : r.signal < 16) (hparm : r.parm = ParmEvent.value n) (hn : 0 ≤ n ∧ n ≤ 255) :
    init_bi_record env s r =
      viaConfigDir { r with dpvt := 0 } (config_int env s r.card.toNat r.signal n).2
        r.signal 1 0 := by
  simp only [init_bi_record, hl, ICV196_MAX_CARDS, ICV196_MAX_CHANS, hparm]
  have h1 : ¬ (r.card ≥ ((2 : Nat) : Int)) := by omega
  have h2 : ¬ (r.signal ≥ ((96 : Nat) : Int)) := by omega
  have h3 : ¬ (n < 0 ∨ n > 255) := by omega
  rw [if_neg h1, if_neg (by simp [hp]), if_neg h2, if_pos ⟨h16, by simp⟩, if_neg h3]

/-- C27: for every behaviour of the hardware, every driver state and every bi
record with a VME address on a present board (`card` in 0..1), a signal in 0..15 and
a directive `event n` with `n` in 0..255: `init_bi_record` returns what
`config_dir (card, signal, 1, 0)` returns, with the direction state that call
leaves, and leaves the record unmarked (`dpvt = 0`), whatever `config_int`
returned; in particular when `config_int` returned `ERROR`.  The event number is
stored in the Event Table. -/
theorem init_bi_record_ignores_config_int (env : Env) (s : Driver) (r : Record) (n : Int)
    (hl : r.linkType = LinkType.VME_IO) (_hc0 : 0 ≤ r.card) (hc : r.card < 2)
    (hp : s.present r.card.toNat = true)
    (_h0 : 0 ≤ r.signal) (h16 : r.signal < 16) (hparm : r.parm = ParmEvent.value n) (hn : 0 ≤ n ∧ n ≤ 255) :
    (init_bi_record env s r).status = (config_dir s.dirst r.card.toNat r.signal 1 0).1 ∧
      (init_bi_record env s r).drv.dirst = (config_dir s.dirst r.card.toNat r.signal 1 0).2 ∧
      (init_bi_record env s r).record.dpvt = 0 ∧
      ((config_int env s r.card.toNat r.signal n).1 = ERROR →
        (init_bi_record env s r).status = (config_dir s.dirst r.card.toNat r.signal 1 0).1 ∧
        (init_bi_record env s r).record.dpvt = 0) ∧
      (init_bi_record env s r).drv.events r.card.toNat r.signal.toNat = n := by
  rw [init_bi_record_event env s r n hl hc hp h16 hparm hn]
  simp only [viaConfigDir, config_int_dirst, config_int_events, Function.update_same,
    toShort_of_range n (by omega), and_self, implies_true, true_and, and_true]

/-- Instance of C27: board 0 present, every controller read delivering 0, a bi
record on signal 3 with the directive `event 42`: `config_int` returns `ERROR`
(the readback of the Pattern Transition register is 0, not `0x08`), the record
init returns `OK` and leaves the record unmarked, and event 42 is stored. -/
theorem init_bi_record_ignores_config_int_witness :
    (config_int env_zero drv_board0 0 3 42).1 = ERROR ∧
      (init_bi_record env_zero drv_board0 (rec_bi_event 3 42)).status = OK ∧
      (init_bi_record env_zero drv_board0 (rec_bi_event 3 42)).record.dpvt = 0 ∧
      (init_bi_record env_zero drv_board0 (rec_bi_event 3 42)).drv.events 0 3 = 42 :=
  have h := init_bi_record_ignores_config_int env_zero drv_board0 (rec_bi_event 3 42) 42 rfl
    (by decide) (by decide) rfl (by decide) (by decide) rfl (by decide)
  ⟨by decide, h.1.trans (by decide), h.2.2.1, h.2.2.2.2⟩

/-! ## The directive `event 0` -/

theorem config_dir_low_input_ok (st : DirState) (card : Nat) (signal : Int)
    (hlow : ∀ i, i < 2 → (st.dirs card).testBit i = false) (h0 : 0 ≤ signal)
    (h16 : signal < 16) : (config_dir st card signal 1 0).1 = OK := by
  rw [config_dir_status]
  intro hc
  have hne : st.dirs card &&& config_dir_mask signal 1 ≠ 0 := by
    by_contra h
    exact hc.2 (if_neg (not_not.2 h))
  obtain ⟨i, hi1, hi2⟩ := (and_ne_zero_iff _ _).1 hne
  have hb := (testBit_config_dir_mask signal 1 h0 (by decide) (by omega) i).1 hi2
  have hi : i < 2 := by omega
  rw [hlow i hi] at hi1
  exact Bool.false_ne_true hi1

theorem testBit_toU8_or_bit (x b : Nat) (hb : b < 8) :
    (toU8 (x ||| 2 ^ b)).testBit b = true := by
  rw [toU8, Nat.testBit_mod_two_pow, Nat.testBit_or, Nat.testBit_two_pow_self]
  simp [hb]

/-- The values `config_int` writes to the Pattern Transition and Pattern Mask
registers have the bit of the signal set. -/
theorem config_int_log_bits (env : Env) (s : Driver) (card : Nat) (signal event : Int)
    (h0 : 0 ≤ signal) :
    ∃ pt pm : Nat, (config_int env s card signal event).2.log =
        s.log ++ Action.eventsWrite card signal.toNat (toShort event) ::
          armLog card signal pt pm ∧
      pt.testBit (signal % 8).toNat = true ∧ pm.testBit (signal % 8).toNat = true := by
  have hb : (signal % 8).toNat < 8 := by omega
  have hm := config_int_mask_eq signal h0
  unfold config_int armLog
  by_cases hg : signal.tdiv 8 = 0
  · simp only [if_pos hg, hm]
    split_ifs <;>
      simp only [ctrlW_log, ctrlR_log, setEvent_log, List.append_assoc, List.cons_append,
        List.nil_append] <;>
      exact ⟨_, _, rfl, testBit_toU8_or_bit _ _ hb, testBit_toU8_or_bit _ _ hb⟩
  · simp only [if_neg hg, hm]
    split_ifs <;>
      simp only [ctrlW_log, ctrlR_log, setEvent_log, List.append_assoc, List.cons_append,
        List.nil_append] <;>
      exact ⟨_, _, rfl, testBit_toU8_or_bit _ _ hb, testBit_toU8_or_bit _ _ hb⟩

/-- With an empty slot for bit `b` of the port, the events `int_service` has to
post are those of the other bits. -/
theorem expectedPosts_skip (ev : Nat → Int) (port ch b : Nat) (h : ev (b + 8 * port) = 0) :
    expectedPosts ev port ch =
      (List.range 8).filterMap
        (fun i => if i ≠ b ∧ ch.testBit i = true ∧ ev (i + 8 * port) ≠ 0 then
          some (Action.post (ev (i + 8 * port))) else none) := by
  unfold expectedPosts
  congr 1
  funext i
  by_cases hi : i = b
  · subst hi
    simp [h]
  · simp [hi]
theorem int_service_log (s : Driver) (card port : Nat) (hport : port < 2) :
    (int_service s (2 * (card : Int) + (port : Int))).log =
      s.log ++
        expectedPosts (s.events card) port
          (toU8 (if port = 1 then (s.hw card).z8536_portB else (s.hw card).z8536_portA)) ++
        [Action.ctrlWrite card (if port = 1 then PCSB else PCSA), Action.ctrlWrite card 0x20] := by
  unfold int_service
  simp only [ctrlW_log, int_service_scan_range]
  have h0 : (0 : Int) ≤ 2 * (card : Int) + (port : Int) := by omega
  rw [Int.tdiv_eq_ediv h0 (by decide)]
  have hcard : ((2 * (card : Int) + (port : Int)) / 2).toNat = card := by omega
  have hp : (2 * (card : Int) + (port : Int)).toNat &&& 1 = port := by
    rw [Nat.and_one_is_mod]; omega
  rw [hcard, hp]
  have hcases : port = 0 ∨ port = 1 := by omega
  rcases hcases with h | h
  · subst h
    simp
  · subst h
    simp

/-- C29: in a driver state reached by record init calls from `dirs = mdirs = 0`,
for every behaviour of the hardware and every bi record with a VME address on a
present board, a signal in 0..15 and a directive that parses to event 0:
`init_bi_record` accepts the record (it returns `OK` and leaves it unmarked);
`config_int` writes values with the bit of the signal set to the Pattern
Transition and Pattern Mask registers of the port, while `events[card][signal]`
is 0 afterwards; for every snapshot value of the port, the events `int_service`
posts then are those of the other bits of the port only. -/
theorem event_0_arms_but_never_posts (env : Env) (s : Driver) (r : Record)
    (hr : DriverReach s) (hl : r.linkType = LinkType.VME_IO) (hc0 : 0 ≤ r.card)
    (hc : r.card < 2) (hp : s.present r.card.toNat = true) (h0 : 0 ≤ r.signal)
    (h16 : r.signal < 16) (hparm : r.parm = ParmEvent.value 0) :
    (init_bi_record env s r).status = OK ∧
      (init_bi_record env s r).record.dpvt = 0 ∧
      (∃ pt pm : Nat, (init_bi_record env s r).drv.log =
          s.log ++ Action.eventsWrite r.card.toNat r.signal.toNat 0 ::
            armLog r.card.toNat r.signal pt pm ∧
        pt.testBit (r.signal % 8).toNat = true ∧ pm.testBit (r.signal % 8).toNat = true) ∧
      (init_bi_record env s r).drv.events r.card.toNat r.signal.toNat = 0 ∧
      ∀ hw : Boards,
        (int_service { (init_bi_record env s r).drv with hw := hw }
            (2 * r.card + r.signal / 8)).log =
          (init_bi_record env s r).drv.log ++
            (List.range 8).filterMap
              (fun i =>
                if i ≠ (r.signal % 8).toNat ∧
                    (toU8 (if (r.signal / 8).toNat = 1 then (hw r.card.toNat).z8536_portB
                      else (hw r.card.toNat).z8536_portA)).testBit i = true ∧
                    (init_bi_record env s r).drv.events r.card.toNat
                      (i + 8 * (r.signal / 8).toNat) ≠ 0 then
                  some (Action.post ((init_bi_record env s r).drv.events r.card.toNat
                    (i + 8 * (r.signal / 8).toNat)))
                else none) ++
            [Action.ctrlWrite r.card.toNat (if (r.signal / 8).toNat = 1 then PCSB else PCSA),
              Action.ctrlWrite r.card.toNat 0x20] := by
  have hinit := init_bi_record_event env s r 0 hl hc hp h16 hparm (by decide)
  have hev : (init_bi_record env s r).drv.events r.card.toNat r.signal.toNat = 0 := by
    rw [hinit]
    simp only [viaConfigDir, config_int_events, Function.update_same]
    rfl
  refine ⟨?_, ?_, ?_, hev, ?_⟩
  · rw [hinit]
    simp only [viaConfigDir, config_int_dirst]
    exact config_dir_low_input_ok _ _ _ (hr.low_input r.card.toNat) h0 h16
  · rw [hinit]
    rfl
  · obtain ⟨pt, pm, e, h1, h2⟩ := config_int_log_bits env s r.card.toNat r.signal 0 h0
    refine ⟨pt, pm, ?_, h1, h2⟩
    rw [hinit]
    simp only [viaConfigDir]
    exact e
  · intro hw
    have hport : (r.signal / 8).toNat < 2 := by omega
    have hcp : 2 * r.card + r.signal / 8 =
        2 * ((r.card.toNat : Nat) : Int) + (((r.signal / 8).toNat : Nat) : Int) := by omega
    have hslot : (r.signal % 8).toNat + 8 * (r.signal / 8).toNat = r.signal.toNat := by omega
    rw [hcp, int_service_log _ _ _ hport]
    rw [expectedPosts_skip _ _ _ (r.signal % 8).toNat (by rw [hslot]; exact hev)]

/-- Instance of C29: after the bring-up of board 0 with an ideal Z8536, a bi
record on signal 3 with the directive `event 0`. -/
theorem event_0_arms_but_never_posts_witness :
    (init_bi_record env_ideal drv_up (rec_bi_event 3 0)).status = OK ∧
      (init_bi_record env_ideal drv_up (rec_bi_event 3 0)).drv.events 0 3 = 0 ∧
      (chip 0 (init_bi_record env_ideal drv_up (rec_bi_event 3 0)).drv.log).regs PTA = 0x08 ∧
      (chip 0 (init_bi_record env_ideal drv_up (rec_bi_event 3 0)).drv.log).regs PMA = 0x08 ∧
      (int_service { (init_bi_record env_ideal drv_up (rec_bi_event 3 0)).drv with
          hw := fun _ => { regs_zero with z8536_portA := 0x08 } } 0).log =
        (init_bi_record env_ideal drv_up (rec_bi_event 3 0)).drv.log ++
          [Action.ctrlWrite 0 PCSA, Action.ctrlWrite 0 0x20] :=
  have h := event_0_arms_but_never_posts env_ideal drv_up (rec_bi_event 3 0)
    (DriverReach.start drv_up rfl) rfl (by decide) (by decide) (by decide) (by decide)
    (by decide) rfl
  ⟨h.1, h.2.2.2.1, by decide, by decide, by decide⟩

/-! ## Masks of validated multi-bit records -/

theorem write_pattern_top (hw : Boards) (card : Nat) (signal : Int) (mask value : Nat)
    (h0 : 0 ≤ signal) (hp : signal / 16 = 5) :
    write_pattern hw card signal mask value =
      (OK, setPort hw card 5
        (toU16 (toU32 ((pattern_work hw card (signal.tdiv 16) &&& compl32 mask) |||
          (value &&& mask)) &&& 0x0000ffff))) := by
  have hp' : ¬ signal.tdiv 16 < 5 := by rw [Int.tdiv_eq_ediv h0 (by decide), hp]; decide
  have e' : (signal.tdiv 16).toNat = 5 := by
    rw [Int.tdiv_eq_ediv h0 (by decide), hp]; rfl
  unfold write_pattern
  simp only []
  rw [if_neg hp', e']

theorem mod_and_of_lt (w m : Nat) (hm : m < 2 ^ 16) : w % 2 ^ 16 &&& m = w &&& m := by
  apply Nat.eq_of_testBit_eq
  intro i
  rw [Nat.testBit_and, Nat.testBit_and, Nat.testBit_mod_two_pow]
  by_cases hi : i < 16
  · simp [hi]
  · rw [testBit_of_lt_two_pow hm (by omega)]
    simp

/-- In port 5, reading with the written mask sees the written bits if the mask
has 16 bits. -/
theorem read_after_write_pattern_top (hw : Boards) (card : Nat) (signal : Int)
    (mask value : Nat) (h0 : 0 ≤ signal) (hp : signal / 16 = 5) (hm : mask < 2 ^ 16) :
    (read_pattern (write_pattern hw card signal mask value).2 card signal mask).2.1 =
      value &&& mask := by
  show pattern_work _ card (signal.tdiv 16) &&& mask = _
  rw [pattern_work_top _ card signal h0 hp, write_pattern_top hw card signal mask value h0 hp]
  simp only []
  rw [setPort_ports_same, lo_word_eq, toU32_and _ _ (by omega), mod_and_of_lt _ _ hm]
  exact merge_and_same _ _ _ (by omega)

theorem shifted_mask_lt (n sh k : Nat) (h : n + sh ≤ k) : (2 ^ n - 1) <<< sh < 2 ^ k := by
  rw [Nat.shiftLeft_eq]
  have h1 : 2 ^ n - 1 < 2 ^ n := Nat.sub_lt (Nat.two_pow_pos n) (by decide)
  calc (2 ^ n - 1) * 2 ^ sh < 2 ^ n * 2 ^ sh :=
        Nat.mul_lt_mul_of_pos_right h1 (Nat.two_pow_pos sh)
    _ = 2 ^ (n + sh) := (Nat.pow_add 2 n sh).symm
    _ ≤ 2 ^ k := Nat.pow_le_pow_right (by norm_num) h

/-- C26: for every record of type mbbi, mbbo, mbbiDirect or mbboDirect with a VME
address, a signal from 0 on, a width `nobt` from 0 on and the mask `2^nobt - 1`
before init, whose init validation passes: after init the mask of the record is
`(2^nobt - 1) << (signal mod 16)`; it is below `2^32` when `signal/16 < 5` and
below `2^16` when `signal/16 = 5`; for every register content and every value,
`write_pattern` followed by `read_pattern` with this mask delivers
`value AND mask`, in port 5 too. -/
theorem validated_mask_within_word (t : RecType) (env : Env) (s : Driver) (r : Record)
    (ht : t = RecType.mbbi ∨ t = RecType.mbbo ∨ t = RecType.mbbiDirect ∨
      t = RecType.mbboDirect)
    (hl : r.linkType = LinkType.VME_IO) (hv : ValidAddr t s r) (h0 : 0 ≤ r.signal)
    (hn : 0 ≤ r.nobt) (hmask : r.mask = 2 ^ r.nobt.toNat - 1) :
    (init_record t env s r).record.mask = (2 ^ r.nobt.toNat - 1) <<< (r.signal % 16).toNat ∧
      (r.signal / 16 < 5 → (init_record t env s r).record.mask < 2 ^ 32) ∧
      (r.signal / 16 = 5 → (init_record t env s r).record.mask < 2 ^ 16) ∧
      (r.signal / 16 < 5 ∨ r.signal / 16 = 5) ∧
      ∀ (hw : Boards) (card value : Nat),
        (read_pattern (write_pattern hw card r.signal (init_record t env s r).record.mask
          value).2 card r.signal (init_record t env s r).record.mask).2.1 =
          value &&& (init_record t env s r).record.mask := by
  have hrange : r.signal < 96 ∧ r.nobt ≤ 16 ∧ r.signal + r.nobt ≤ 96 := by
    obtain ⟨_, _, hs⟩ := hv
    rcases ht with h | h | h | h <;> subst h <;> unfold SignalOk at hs <;> simp only [] at hs <;>
      omega
  obtain ⟨hs96, hn16, hsum⟩ := hrange
  have hm16 : r.mask < 2 ^ 16 := by
    rw [hmask]
    have := shifted_mask_lt r.nobt.toNat 0 16 (by omega)
    rwa [Nat.shiftLeft_zero] at this
  have e : (init_record t env s r).record.mask =
      (2 ^ r.nobt.toNat - 1) <<< (r.signal % 16).toNat := by
    rw [(init_record_shft_mask_eq t env s r ht).2, if_pos ⟨hl, hv⟩,
      intToU16_tmod r.signal h0, toU32_shift_of_lt _ _ hm16 (by omega), hmask]
  have h32 : (init_record t env s r).record.mask < 2 ^ 32 := by
    rw [e]; exact shifted_mask_lt _ _ _ (by omega)
  have h16 : r.signal / 16 = 5 → (init_record t env s r).record.mask < 2 ^ 16 := by
    intro h5
    rw [e]; exact shifted_mask_lt _ _ _ (by omega)
  have hport : r.signal / 16 < 5 ∨ r.signal / 16 = 5 := by omega
  refine ⟨e, fun _ => h32, h16, hport, fun hw card value => ?_⟩
  rcases hport with hp | hp
  · show pattern_work _ card (r.signal.tdiv 16) &&& _ = _
    rw [pattern_work_write_pattern hw card r.signal _ value h0 hp]
    exact merge_and_same _ _ _ h32
  · exact read_after_write_pattern_top hw card r.signal _ value h0 hp (h16 hp)

/-- Instance of C26: an mbbo record on signals 88 to 95 of the present board 0
(port 5, shift 8, mask `0xff00`). -/
theorem validated_mask_within_word_witness :
    (init_record RecType.mbbo env_zero drv_board0 (rec_at 88 8)).record.mask = 0xff00 ∧
      (read_pattern (write_pattern hw_bit3 0 88
          (init_record RecType.mbbo env_zero drv_board0 (rec_at 88 8)).record.mask
          0x1234).2 0 88
          (init_record RecType.mbbo env_zero drv_board0 (rec_at 88 8)).record.mask).2.1 =
        0x1234 &&& (init_record RecType.mbbo env_zero drv_board0 (rec_at 88 8)).record.mask :=
  have h := validated_mask_within_word RecType.mbbo env_zero drv_board0 (rec_at 88 8)
    (Or.inr (Or.inl rfl)) rfl (by decide) (by decide) (by decide) rfl
  ⟨h.1.trans (by decide), h.2.2.2.2 hw_bit3 0 0x1234⟩

/-! ## Pattern engine and bit engine address the same signals -/

theorem word_testBit (hi lo k : Nat) (hlo : lo < 2 ^ 16) (hk : k < 32) :
    ((((hi <<< 16) + lo) % 2 ^ 32) &&& 0xFFFFFFFF).testBit k =
      if k < 16 then lo.testBit k else hi.testBit (k - 16) := by
  have hc : (0xFFFFFFFF : Nat) = 2 ^ 32 - 1 := by decide
  rw [hc, Nat.and_pow_two_sub_one_eq_mod, Nat.mod_mod, Nat.testBit_mod_two_pow,
    Nat.shiftLeft_eq, Nat.mul_comm, Nat.testBit_mul_pow_two_add _ hlo]
  simp [hk]

theorem half_word_testBit (lo k : Nat) (hk : k < 16) :
    ((lo % 2 ^ 32) &&& 0xFFFFFFFF).testBit k = lo.testBit k := by
  have hc : (0xFFFFFFFF : Nat) = 2 ^ 32 - 1 := by decide
  rw [hc, Nat.and_pow_two_sub_one_eq_mod, Nat.mod_mod, Nat.testBit_mod_two_pow]
  have : k < 32 := by omega
  simp [this]

theorem and_two_pow_ne_zero_iff (x b : Nat) : x &&& 2 ^ b ≠ 0 ↔ x.testBit b = true := by
  rw [and_two_pow_eq]
  by_cases h : x.testBit b = true
  · simp [h]
  · simp [h]

theorem read_bit_in_pattern (hw : Boards) (card p k : Nat) :
    (read_bit hw card (16 * (p : Int) + (k : Int))).2.1 =
      (hw card).ports (p + k / 16) &&& 2 ^ (k % 16) := by
  have h0 : (0 : Int) ≤ 16 * (p : Int) + (k : Int) := by omega
  rw [read_bit_eq hw card _ h0]
  have e1 : ((16 * (p : Int) + (k : Int)) / 16).toNat = p + k / 16 := by omega
  have e2 : ((16 * (p : Int) + (k : Int)) % 16).toNat = k % 16 := by omega
  rw [e1, e2]

theorem read_bit_296_in_pattern (hw : Icv296.Boards) (card p k : Nat) :
    (Icv296.read_bit hw card (16 * (p : Int) + (k : Int))).2.1 =
      (hw card).direct ((p + k / 16) ^^^ 1) &&& 2 ^ (k % 16) := by
  have h0 : (0 : Int) ≤ 16 * (p : Int) + (k : Int) := by omega
  unfold Icv296.read_bit
  simp only []
  rw [Int.tdiv_eq_ediv h0 (by decide), Int.tmod_eq_emod h0 (by decide)]
  have e1 : (16 * (p : Int) + (k : Int)) / 16 = ((p + k / 16 : Nat) : Int) := by omega
  have e2 : ((16 * (p : Int) + (k : Int)) % 16).toNat = k % 16 := by omega
  rw [e1, e2]
  have e3 : (Int.xor ((p + k / 16 : Nat) : Int) 1).toNat = (p + k / 16) ^^^ 1 := rfl
  rw [e3]
  show _ &&& toU16 (1 <<< (k % 16)) = _
  rw [bit_mask_eq _ (Nat.mod_lt _ (by decide))]

theorem read_pattern_296_eq (hw : Icv296.Boards) (card p : Nat) (signal : Int) (mask : Nat)
    (h0 : 0 ≤ signal) (hp : signal / 16 = (p : Int)) :
    (Icv296.read_pattern hw card signal mask).2.1 =
      (if p < 5 then
        (((hw card).direct ((p + 1) ^^^ 1) <<< 16) + (hw card).direct (p ^^^ 1)) % 2 ^ 32
      else (hw card).direct (p ^^^ 1) % 2 ^ 32) &&& mask := by
  unfold Icv296.read_pattern
  simp only []
  rw [Int.tdiv_eq_ediv h0 (by decide), hp]
  have e1 : (Int.xor (p : Int) 1).toNat = p ^^^ 1 := rfl
  have e2 : (Int.xor ((p : Int) + 1) 1).toNat = (p + 1) ^^^ 1 := rfl
  rw [e1, e2]
  by_cases h5 : p < 5
  · have h5' : (p : Int) < 5 := by omega
    rw [if_pos h5, if_pos h5']
    rfl
  · have h5' : ¬ (p : Int) < 5 := by omega
    rw [if_neg h5, if_neg h5']
    rfl
theorem word_bit_iff (f : Nat → Nat) (k lowi highi : Nat) (hlo : f lowi < 2 ^ 16)
    (hk : k < 32) (g : Nat) (hg : g = if k < 16 then lowi else highi) :
    (((((f highi) <<< 16) + f lowi) % 2 ^ 32) &&& 0xFFFFFFFF).testBit k = true ↔
      f g &&& 2 ^ (k % 16) ≠ 0 := by
  rw [word_testBit _ _ _ hlo hk, and_two_pow_ne_zero_iff, hg]
  by_cases h16 : k < 16
  · rw [if_pos h16, if_pos h16, Nat.mod_eq_of_lt h16]
  · have e : k % 16 = k - 16 := by omega
    rw [if_neg h16, if_neg h16, e]

/-- C28: the pattern engine and the bit engine address the same signals, in the
ICV196 and in the ICV296 driver.  For every content of the 16 bit registers,
every board and every signal from 0 on, with `p = signal/16`: for `p < 5` and
every `k` in 0..31, and for `p = 5` and every `k` in 0..15, bit `k` of the value
`read_pattern (card, signal, 0xFFFFFFFF)` delivers is set exactly if
`read_bit (card, 16*p + k)` delivers a non-zero value. -/
theorem pattern_and_bit_address_same_signals :
    (∀ (hw : Boards) (card : Nat) (signal : Int) (k : Nat), 0 ≤ signal →
      (∀ q, (hw card).ports q < 2 ^ 16) →
      ((signal / 16 < 5 ∧ k < 32) ∨ (signal / 16 = 5 ∧ k < 16)) →
      ((read_pattern hw card signal 0xFFFFFFFF).2.1.testBit k = true ↔
        (read_bit hw card (16 * (signal / 16) + (k : Int))).2.1 ≠ 0)) ∧
    (∀ (hw : Icv296.Boards) (card : Nat) (signal : Int) (k : Nat), 0 ≤ signal →
      (∀ q, (hw card).direct q < 2 ^ 16) →
      ((signal / 16 < 5 ∧ k < 32) ∨ (signal / 16 = 5 ∧ k < 16)) →
      ((Icv296.read_pattern hw card signal 0xFFFFFFFF).2.1.testBit k = true ↔
        (Icv296.read_bit hw card (16 * (signal / 16) + (k : Int))).2.1 ≠ 0)) := by
  constructor
  · intro hw card signal k h0 h16 hpk
    obtain ⟨p, hp⟩ : ∃ p : Nat, signal / 16 = (p : Int) := ⟨(signal / 16).toNat, by omega⟩
    have hpn : (signal / 16).toNat = p := by omega
    rw [hp, read_bit_in_pattern]
    show (pattern_work hw card (signal.tdiv 16) &&& 0xFFFFFFFF).testBit k = true ↔ _
    rcases hpk with ⟨h5, hk⟩ | ⟨h5, hk⟩
    · rw [pattern_work_low hw card signal h0 h5, hpn]
      exact word_bit_iff (hw card).ports k p (p + 1) (h16 p) hk _
        (by by_cases h : k < 16
            · rw [if_pos h]; omega
            · rw [if_neg h]; omega)
    · rw [pattern_work_top hw card signal h0 h5]
      have hp5 : p = 5 := by omega
      subst hp5
      show ((hw card).ports 5 % 2 ^ 32 &&& 0xFFFFFFFF).testBit k = true ↔ _
      rw [half_word_testBit _ _ hk, and_two_pow_ne_zero_iff, Nat.mod_eq_of_lt hk]
      have e : 5 + k / 16 = 5 := by omega
      rw [e]
  · intro hw card signal k h0 h16 hpk
    obtain ⟨p, hp⟩ : ∃ p : Nat, signal / 16 = (p : Int) := ⟨(signal / 16).toNat, by omega⟩
    rw [read_pattern_296_eq hw card p signal _ h0 hp, hp, read_bit_296_in_pattern]
    rcases hpk with ⟨h5, hk⟩ | ⟨h5, hk⟩
    · have h5' : p < 5 := by omega
      rw [if_pos h5']
      exact word_bit_iff (hw card).direct k (p ^^^ 1) ((p + 1) ^^^ 1) (h16 _) hk _
        (by by_cases h : k < 16
            · rw [if_pos h]
              have e : p + k / 16 = p := by omega
              rw [e]
            · rw [if_neg h]
              have e : p + k / 16 = p + 1 := by omega
              rw [e])
    · have hp5 : p = 5 := by omega
      subst hp5
      rw [if_neg (by decide), half_word_testBit _ _ hk, and_two_pow_ne_zero_iff,
        Nat.mod_eq_of_lt hk]
      have e : 5 + k / 16 = 5 := by omega
      rw [e]

/-- Instance of C28 in the ICV296 driver: with `0x0008` in direct register 1,
bit 3 of the pattern read at signal 0 is set and `read_bit` of signal 3 is
non-zero. -/
theorem pattern_and_bit_address_same_signals_witness :
    ((Icv296.read_pattern (fun _ => Icv296.regs_direct1) 0 0 0xFFFFFFFF).2.1.testBit 3 = true ↔
        (Icv296.read_bit (fun _ => Icv296.regs_direct1) 0
          (16 * ((0 : Int) / 16) + ((3 : Nat) : Int))).2.1 ≠ 0) ∧
      (Icv296.read_bit (fun _ => Icv296.regs_direct1) 0 3).2.1 = 0x0008 :=
  ⟨pattern_and_bit_address_same_signals.2 (fun _ => Icv296.regs_direct1) 0 0 3 (by decide)
    (fun q => by unfold Icv296.regs_direct1; simp only []; split_ifs <;> decide)
    (Or.inl ⟨by decide, by decide⟩), by decide⟩

end Icv196

namespace GL820

/-! ## Coefficients of a humidity channel -/

theorem foldl_setChCoef (dev : Instrument) (n : Nat) (st : drvGL820) (i : Nat) :
    (List.foldl (setChannel dev) st (List.range n)).m_ChCoef i =
      if i < n then setChCoef dev i (st.m_ChCoef i) else st.m_ChCoef i := by
  induction n with
  | zero => simp
  | succ n ih =>
    rw [List.range_succ, List.foldl_append]
    simp only [List.foldl_cons, List.foldl_nil, setChannel]
    by_cases hin : i = n
    · subst hin
      rw [Function.update_same, ih, if_neg (Nat.lt_irrefl _), if_pos (Nat.lt_succ_self _)]
    · rw [Function.update_noteq hin, ih]
      by_cases hlt : i < n
      · rw [if_pos hlt, if_pos (Nat.lt_succ_of_lt hlt)]
      · rw [if_neg hlt, if_neg (by omega)]

theorem SetStartStop_m_ChCoef (dev : Instrument) (st : drvGL820) (i : Nat)
    (hi : i < PORT_COUNT) :
    ((SetStartStop dev st 1).m_ChCoef i) = setChCoef dev i (st.m_ChCoef i) := by
  unfold SetStartStop
  rw [if_pos rfl]
  show (List.foldl (setChannel dev) st (List.range PORT_COUNT)).m_ChCoef i = _
  rw [foldl_setChCoef, if_pos hi]

theorem strcasecmp_eq_zero_iff (a b : List Char) :
    strcasecmp a b = 0 ↔ a.map Char.toLower = b.map Char.toLower := by
  unfold strcasecmp
  split_ifs with h
  · simp [h]
  · simp [h]

theorem setChCoef_RH (dev : Instrument) (i : Nat) (coef : CH_COEF) (reply : List Char)
    (hinp : dev.inp i = some reply) (hparse : (StrCmndParse reply coef.modeStr).1 > 0)
    (hmode : strcasecmp (StrCmndParse reply coef.modeStr).2 "RH".toList = 0) :
    setChCoef dev i coef =
      { coef with modeStr := (StrCmndParse reply coef.modeStr).2, intCoef := 2,
                  decCoef := ((Int.tdiv 1 10000 : Int) : ℚ) } := by
  have hm := (strcasecmp_eq_zero_iff _ _).1 hmode
  have hdc : ¬ strcasecmp (StrCmndParse reply coef.modeStr).2 "DC".toList = 0 := by
    rw [strcasecmp_eq_zero_iff, hm]
    decide
  have htemp : ¬ strcasecmp (StrCmndParse reply coef.modeStr).2 "TEMP".toList = 0 := by
    rw [strcasecmp_eq_zero_iff, hm]
    decide
  unfold setChCoef
  rw [hinp]
  simp only []
  rw [if_pos hparse, if_neg hdc, if_neg htemp, if_pos hmode]

theorem setChCoef_DC_1V (dev : Instrument) (i : Nat) (coef : CH_COEF) (reply range : List Char)
    (hinp : dev.inp i = some reply) (hparse : (StrCmndParse reply coef.modeStr).1 > 0)
    (hmode : strcasecmp (StrCmndParse reply coef.modeStr).2 "DC".toList = 0)
    (hrang : dev.rang i = some range)
    (hrange : StrCmndParse range coef.rangeStr = (2, "1V".toList)) :
    (setChCoef dev i coef).intCoef = 2 ∧ (setChCoef dev i coef).decCoef = 1 / 10000 := by
  unfold setChCoef
  rw [hinp]
  simp only []
  rw [if_pos hparse, if_pos hmode, hrang]
  simp only [DCRangeStrCmndParse, hrange]
  rw [if_pos (by decide)]
  simp only []
  rw [if_pos (by decide)]
  constructor
  · simp [rangeTable, rangeLoop, strcasecmp]
  · simp [rangeTable, rangeLoop, strcasecmp]

/-- C30 (evaluation of the code): for every instrument and every channel whose
input-mode reply parses to `RH` (in any case of the letters),
`SetStartStop` with `value = 1` sets `intCoef = 2` and `decCoef = 0`: the
right-hand side `1 / 10000` is a division of two `int`s.  So `decCoef` is not
`1/10000`, and the conversion `(td / intCoef) * decCoef` of `readTask` delivers 0
for every raw value (for four raw codes `readTask` stores -999 instead).  For
a DC channel whose range reply parses to `1V` the same call sets `intCoef = 2`
and `decCoef = 1/10000`. -/
theorem SetStartStop_RH_decCoef_zero (dev : Instrument) (st : drvGL820) (i : Nat)
    (reply : List Char) (hi : i < PORT_COUNT) (hinp : dev.inp i = some reply)
    (hparse : (StrCmndParse reply (st.m_ChCoef i).modeStr).1 > 0)
    (hmode : strcasecmp (StrCmndParse reply (st.m_ChCoef i).modeStr).2 "RH".toList = 0) :
    ((SetStartStop dev st 1).m_ChCoef i).intCoef = 2 ∧
      ((SetStartStop dev st 1).m_ChCoef i).decCoef = 0 ∧
      ((SetStartStop dev st 1).m_ChCoef i).decCoef ≠ 1 / 10000 ∧
      (∀ tmpData : Nat, convert ((SetStartStop dev st 1).m_ChCoef i) tmpData = 0) ∧
      (∀ (j : Nat) (replyj range : List Char), j < PORT_COUNT → dev.inp j = some replyj →
        (StrCmndParse replyj (st.m_ChCoef j).modeStr).1 > 0 →
        strcasecmp (StrCmndParse replyj (st.m_ChCoef j).modeStr).2 "DC".toList = 0 →
        dev.rang j = some range →
        StrCmndParse range (st.m_ChCoef j).rangeStr = (2, "1V".toList) →
        ((SetStartStop dev st 1).m_ChCoef j).intCoef = 2 ∧
          ((SetStartStop dev st 1).m_ChCoef j).decCoef = 1 / 10000) := by
  have e := setChCoef_RH dev i (st.m_ChCoef i) reply hinp hparse hmode
  have hz : (((Int.tdiv 1 10000 : Int) : ℚ)) = 0 := by decide
  rw [SetStartStop_m_ChCoef dev st i hi, e]
  refine ⟨rfl, hz, ?_, fun tmpData => ?_, ?_⟩
  · show (((Int.tdiv 1 10000 : Int) : ℚ)) ≠ 1 / 10000
    rw [hz]
    norm_num
  · unfold convert
    show _ * (((Int.tdiv 1 10000 : Int) : ℚ)) = 0
    rw [hz, mul_zero]
  · intro j replyj range hj hinpj hparsej hmodej hrang hrange
    rw [SetStartStop_m_ChCoef dev st j hj]
    exact setChCoef_DC_1V dev j _ replyj range hinpj hparsej hmodej hrang hrange

/-- Instance of C30: channel 1 replies `:AMP:CH1:INP RH`, channel 2 replies
`:AMP:CH2:INP DC` and `:AMP:CH2:RANG 1V`.  After `SetStartStop (1)` both channels
have `intCoef = 2`; `decCoef` is 0 for the humidity channel and `1/10000` for
the DC channel. -/
theorem SetStartStop_RH_decCoef_zero_witness :
    ((SetStartStop dev_rh_dc drv_zero 1).m_ChCoef 0).intCoef = 2 ∧
      ((SetStartStop dev_rh_dc drv_zero 1).m_ChCoef 0).decCoef = 0 ∧
      ((SetStartStop dev_rh_dc drv_zero 1).m_ChCoef 1).intCoef = 2 ∧
      ((SetStartStop dev_rh_dc drv_zero 1).m_ChCoef 1).decCoef = 1 / 10000 :=
  have h := SetStartStop_RH_decCoef_zero dev_rh_dc drv_zero 0 ":AMP:CH1:INP RH".toList
    (by decide) rfl (by decide) (by decide)
  have h1 := h.2.2.2.2 1 ":AMP:CH2:INP DC".toList ":AMP:CH2:RANG 1V".toList (by decide) rfl
    (by decide) (by decide) rfl (by decide)
  ⟨h.1, h.2.1, h1.1, h1.2⟩

end GL820
